import Mathlib

/-! Sheepdog ZooKeeper cluster driver (`sheep/cluster/zookeeper.c`)

A shallow embedding of the membership view, the leave ring, the ordered event
log and the dispatcher of the driver, followed by theorems about them.

Conventions of the embedding.

* C `int` flags (`joined`, `blocked`, `callbacked`) are `Int`; non-zero is true.
* Fixed-size C arrays are lists whose length is the array capacity; an access
  outside the list is undefined behaviour and is reported as `Res.undefined`.
* `unsigned` counters wrap modulo `2 ^ 32`.
* The coordination service is modelled by its contents: the children of the
  queue znode (a list indexed by sequence number) and the children of the
  member znode (an association list keyed by the node name).  Every wrapper
  call succeeds or fails deterministically on that content.
* Host callbacks and log rewrites are recorded, in program order, in a trace.
-/

namespace Sheepdog

/-! ## Constants and types -/

/-- The payload capacity of an event, `MAX_EVENT_BUF_SIZE`. -/
def MAX_EVENT_BUF_SIZE : Nat := 64 * 1024

/-- Modelled from the spec: `struct sd_node` and `node_cmp` are declared in a
header that is not part of the sources.  The spec calls the node identity
opaque, totally ordered and comparable for equality; it is a number here. -/
structure sd_node where
  id : Nat
  deriving DecidableEq, Repr, Inhabited

/-- Modelled from the spec: the three-way comparison of node identities. -/
def node_cmp (a b : sd_node) : Int :=
  if a.id < b.id then -1 else if b.id < a.id then 1 else 0

/-- Modelled from the spec: `node_to_str`, the name of the member child of a
node ("an ephemeral child named after its NodeId"). -/
def node_to_str (n : sd_node) : Nat := n.id

/-- Modelled from the spec: `enum cluster_join_result` is declared in
`cluster.h`; the spec lists `ok | master_transfer | reject_…`. -/
inductive cluster_join_result where
  | CJ_RES_SUCCESS
  | CJ_RES_MASTER_TRANSFER
  | CJ_RES_REJECT (code : Nat)
  deriving DecidableEq, Repr

open cluster_join_result

inductive zk_event_type where
  | EVENT_JOIN
  | EVENT_LEAVE
  | EVENT_NOTIFY
  | EVENT_IGNORE
  deriving DecidableEq, Repr

open zk_event_type

structure zk_node where
  seq : Int
  joined : Int
  clientid : Nat
  node : sd_node
  deriving DecidableEq, Repr, Inhabited

/-- The event record.  `block_cb` is a function pointer: `none` is `NULL`,
`some h` a handle of a host function.  `buf` is the payload array. -/
structure zk_event where
  type : zk_event_type
  sender : zk_node
  join_result : cluster_join_result
  block_cb : Option Nat
  blocked : Int
  callbacked : Int
  buf_len : Nat
  buf : List Nat
  deriving DecidableEq, Repr

/-- What the driver does that the host or the log can observe, in order. -/
inductive Action where
  | check_join (node : sd_node) (buf : List Nat)
  | join_handler (joined : sd_node) (entries : List sd_node) (nr_nodes : Nat)
      (result : cluster_join_result) (buf : List Nat)
  | leave_handler (left : sd_node) (entries : List sd_node) (nr_nodes : Nat)
  | notify_handler (sender : sd_node) (buf : List Nat) (len : Nat)
  | block_cb (cb : Nat) (buf : List Nat)
  | queue_work
  | log_create (seq : Nat) (data : zk_event)
  | log_set (pos : Int) (data : zk_event)
  | member_set (name : Nat) (data : zk_node)
  deriving DecidableEq, Repr

/-- The coordination-service content seen by the process together with the
static variables of the driver. -/
structure State where
  /-- children of `QUEUE_ZNODE`, by sequence number -/
  queue : List zk_event
  /-- children of `MEMBER_ZNODE`, by name -/
  member : List (Nat × zk_node)
  zk_notify_blocked : Int
  zk_levents : List zk_event
  nr_zk_levents : Int
  zk_levent_head : Nat
  zk_levent_tail : Nat
  zk_nodes : List zk_node
  nr_zk_nodes : Nat
  /-- the counter of the eventfd `efd` -/
  efd : Nat
  queue_pos : Int
  this_node : zk_node
  /-- work items queued on `zk_block_wq` and not yet run -/
  work_queued : Nat
  /-- the static flag of `zk_data_init` -/
  finished : Int
  trace : List Action
  deriving DecidableEq, Repr

/-- How a call ends: it returns a value, the process exits, the process
panics (also a failed `assert`), or the behaviour is undefined. -/
inductive Res (α : Type) where
  | ret (a : α) (s : State)
  | exit (s : State)
  | panic (s : State)
  | undefined
  deriving Repr, DecidableEq

/-- Sequencing of calls: the continuation runs only after a return. -/
def Res.bind {α β : Type} (r : Res α) (f : α → State → Res β) : Res β :=
  match r with
  | .ret a s => f a s
  | .exit s => .exit s
  | .panic s => .panic s
  | .undefined => .undefined

/-- The state a call leaves behind, when there is one. -/
def Res.state? {α : Type} : Res α → Option State
  | .ret _ s => some s
  | .exit s => some s
  | .panic s => some s
  | .undefined => none

/-- The value and the state of a call that returned. -/
def Res.returned? {α : Type} : Res α → Option (α × State)
  | .ret a s => some (a, s)
  | _ => none

/-- The membership view: the first `nr_zk_nodes` slots of `zk_nodes`. -/
def view (s : State) : List zk_node := s.zk_nodes.take s.nr_zk_nodes

/-! ## Master test -/

/-- The scan of `is_master`: the first index in `i .. i + n` whose slot has a
non-zero `joined`, or `i + n` when there is none. -/
def first_joined (nodes : List zk_node) : Nat → Nat → Nat
  | 0, i => i
  | n + 1, i =>
    match nodes[i]? with
    | some z => if z.joined ≠ 0 then i else first_joined nodes n (i + 1)
    | none => first_joined nodes n (i + 1)

/-- The function `is_master` for a non-null argument.  `none` is the read of
`zk_nodes[SD_MAX_NODES]`, one past the array. -/
def is_master (SD_MAX_NODES : Nat) (s : State) (n : zk_node) : Option Int :=
  if s.nr_zk_nodes = 0 then some 0
  else
    let i := first_joined s.zk_nodes SD_MAX_NODES 0
    match s.zk_nodes[i]? with
    | none => none
    | some z => if node_cmp z.node n.node = 0 then some (i : Int) else some (-1)

/-- The master test as the specification words it: the view is empty, or the
first member of the view whose `joined` flag is set has the identity of `n`. -/
def master_by_view (s : State) (n : zk_node) : Bool :=
  match view s with
  | [] => true
  | v =>
    match v.find? fun z => z.joined ≠ 0 with
    | some z => decide (z.node = n.node)
    | none => false

/-! ## The ordered event log -/

/-- The bytes written for an event: the header and the first `buf_len`
payload bytes (`len = (char *)ev->buf - (char *)ev + ev->buf_len`). -/
def event_data (ev : zk_event) : zk_event :=
  { ev with buf := ev.buf.take ev.buf_len }

/-- The effect of `zk_get` of a queue child into the caller's event buffer:
the stored bytes overwrite the start of `*ev`, at most `sizeof(*ev)` of them;
the bytes of the buffer behind them keep their old content. -/
def zk_get_event (data ev : zk_event) : zk_event :=
  { data with buf := (data.buf ++ ev.buf.drop data.buf.length).take MAX_EVENT_BUF_SIZE }

/-- The value of the queue child numbered `pos`, when it exists. -/
def queue_get (s : State) (pos : Int) : Option zk_event :=
  if 0 ≤ pos then s.queue[pos.toNat]? else none

/-- The bump of the eventfd counter, `eventfd_write(efd, 1)`. -/
def eventfd_write (s : State) : State := { s with efd := s.efd + 1 }

def zk_queue_empty (s : State) : Bool :=
  (queue_get s s.queue_pos).isNone

def zk_queue_push (ev : zk_event) (s : State) : Res Int :=
  let seq := s.queue.length
  let s1 := { s with queue := s.queue ++ [event_data ev],
                     trace := s.trace ++ [Action.log_create seq (event_data ev)] }
  if s1.queue_pos < 0 then
    if ev.type = EVENT_IGNORE then
      .ret seq (eventfd_write { s1 with queue_pos := seq })
    else .panic s1
  else .ret seq s1

def zk_queue_push_back (ev : Option zk_event) (s : State) : Res Int :=
  let s1 := { s with queue_pos := s.queue_pos - 1 }
  match ev with
  | none => .ret 0 s1
  | some e =>
    match queue_get s1 s1.queue_pos with
    | none => .panic s1
    | some _ =>
      .ret 0 { s1 with queue := s1.queue.set s1.queue_pos.toNat (event_data e),
                       trace := s1.trace ++ [Action.log_set s1.queue_pos (event_data e)] }

/-- The leave branch of `zk_queue_pop` once the head slot `lev` is located;
`s1` is the state after the decrement of `nr_zk_levents`.  The branches follow
`rc`: after a skip it is the result of `zk_exists` on the next child, otherwise
the result of `zk_get` at the cursor. -/
def pop_leave (ev lev : zk_event) (s1 : State) : State :=
  match queue_get s1 s1.queue_pos with
  | some d =>
    let ev1 := zk_get_event d ev
    if node_cmp ev1.sender.node lev.sender.node = 0 ∧ ev1.blocked ≠ 0 then
      let s2 := { s1 with queue_pos := s1.queue_pos + 1 }
      if (queue_get s2 s2.queue_pos).isSome then
        eventfd_write { eventfd_write s2 with zk_levent_head := (s2.zk_levent_head + 1) % 2 ^ 32 }
      else if s2.nr_zk_levents ≠ 0 then
        eventfd_write { s2 with zk_levent_head := (s2.zk_levent_head + 1) % 2 ^ 32 }
      else { s2 with zk_levent_head := (s2.zk_levent_head + 1) % 2 ^ 32 }
    else eventfd_write { s1 with zk_levent_head := (s1.zk_levent_head + 1) % 2 ^ 32 }
  | none =>
    if s1.nr_zk_levents ≠ 0 then
      eventfd_write { s1 with zk_levent_head := (s1.zk_levent_head + 1) % 2 ^ 32 }
    else { s1 with zk_levent_head := (s1.zk_levent_head + 1) % 2 ^ 32 }

/-- The log branch of `zk_queue_pop` for the child `d` found at the cursor. -/
def pop_log (ev d : zk_event) (s : State) : Res (Int × zk_event) :=
  let ev1 := zk_get_event d ev
  let s1 := { s with queue_pos := s.queue_pos + 1 }
  let s2 :=
    if ev1.blocked ≠ 0 then s1
    else if (queue_get s1 s1.queue_pos).isSome then eventfd_write s1
    else s1
  if ev1.type = EVENT_LEAVE then .ret (-1, ev1) s2 else .ret (0, ev1) s2

/-- The function `zk_queue_pop`; `ev` is the content of the caller's buffer
before the call, the result carries the return code and the buffer after. -/
def zk_queue_pop (SD_MAX_NODES : Nat) (ev : zk_event) (s : State) : Res (Int × zk_event) :=
  if s.nr_zk_levents ≠ 0 then
    if SD_MAX_NODES = 0 then .undefined
    else
      match s.zk_levents[s.zk_levent_head % SD_MAX_NODES]? with
      | none => .undefined
      | some lev => .ret (0, lev) (pop_leave ev lev { s with nr_zk_levents := s.nr_zk_levents - 1 })
  else if zk_queue_empty s then .ret (-1, ev) s
  else
    match queue_get s s.queue_pos with
    | none => .panic s
    | some d => pop_log ev d s

/-! ## The event assembler -/

/-- The call `zk_queue_push(zh, &ev)` at the end of `add_event`.  The length
handed to `zk_create` is the header plus `buf_len` bytes of the local `ev`:
with `buf_len` beyond the capacity of `ev.buf` the read leaves the local, which
is undefined behaviour, whether or not a payload was copied. -/
def add_event_push (ev : zk_event) (s : State) : Res Int :=
  if MAX_EVENT_BUF_SIZE < ev.buf_len then .undefined
  else (zk_queue_push ev s).bind fun _ s1 => .ret 0 s1

/-- The function `add_event`.  `stack` is the content of the uninitialised
local `ev`; `buf` is `none` for a `NULL` payload pointer. -/
def add_event (SD_MAX_NODES : Nat) (stack : zk_event) (type : zk_event_type)
    (znode : zk_node) (buf : Option (List Nat)) (buf_len : Nat) (block_cb : Option Nat)
    (s : State) : Res Int :=
  let ev0 : zk_event :=
    { stack with type := type, sender := znode, buf_len := buf_len, callbacked := 0, blocked := 0 }
  let copied : Option zk_event :=
    match buf with
    | none => some ev0
    | some b =>
      if MAX_EVENT_BUF_SIZE < buf_len then none
      else some { ev0 with buf := b.take buf_len ++ ev0.buf.drop buf_len }
  match copied with
  | none => .undefined
  | some ev =>
    match type with
    | EVENT_JOIN => add_event_push { ev with blocked := 1 } s
    | EVENT_LEAVE =>
      if SD_MAX_NODES = 0 then .undefined
      else if s.zk_levent_tail % SD_MAX_NODES < s.zk_levents.length then
        .ret 0 (eventfd_write
          { s with zk_levents := s.zk_levents.set (s.zk_levent_tail % SD_MAX_NODES) ev,
                   nr_zk_levents := s.nr_zk_levents + 1,
                   zk_levent_tail := (s.zk_levent_tail + 1) % 2 ^ 32 })
      else .undefined
    | EVENT_NOTIFY =>
      add_event_push
        { ev with blocked := if block_cb.isSome then 1 else 0, block_cb := block_cb } s
    | EVENT_IGNORE => add_event_push ev s

/-! ## The membership view -/

/-- The loop of `find_node` from index `i` with `n` slots left to visit.
`some (some i)` is a pointer to slot `i`, `some none` is `NULL`, and `none` is
a read outside the array. -/
def find_node_from (znodes : List zk_node) (znode : zk_node) : Nat → Nat → Option (Option Nat)
  | 0, _ => some none
  | n + 1, i =>
    match znodes[i]? with
    | none => none
    | some z =>
      if node_cmp znode.node z.node = 0 then some (some i)
      else find_node_from znodes znode n (i + 1)

def find_node (znodes : List zk_node) (nr_nodes : Nat) (znode : zk_node) : Option (Option Nat) :=
  find_node_from znodes znode nr_nodes 0

/-- The entries written by `build_node_list`: the nodes of the first
`nr_nodes` slots.  `none` when the loop leaves one of the two arrays, each of
`SD_MAX_NODES` slots. -/
def build_node_list (znodes : List zk_node) (nr_nodes : Nat) : Option (List sd_node) :=
  if nr_nodes ≤ znodes.length then some ((znodes.take nr_nodes).map fun z => z.node)
  else none

/-- The array after `memmove(a + dst, a + src, cnt * sizeof *a)`. -/
def memmove {α : Type} (a : List α) (dst src cnt : Nat) : Option (List α) :=
  if src + cnt ≤ a.length ∧ dst + cnt ≤ a.length then
    some (a.take dst ++ ((a.drop src).take cnt ++ a.drop (dst + cnt)))
  else none

/-- An array store `a[i] = v`. -/
def array_set {α : Type} (a : List α) (i : Nat) (v : α) : Option (List α) :=
  if i < a.length then some (a.set i v) else none

/-! ## The bootstrap sort -/

/-- An element of the local array `idxs` of `sort_zk_nodes`. -/
structure idxs where
  idx : Nat
  seq : Int
  deriving DecidableEq, Repr, Inhabited

/-- The inner loop of `sort_zk_nodes`: `j` runs from the first argument minus
one down to zero, `k` is the position of the largest `seq` seen so far. -/
def sort_select (a : List idxs) : Nat → Nat → Nat
  | 0, k => k
  | j + 1, k =>
    sort_select a j (if (a.getD k default).seq < (a.getD j default).seq then j else k)

/-- The outer loop of `sort_zk_nodes`: `i` runs from the first argument down
to one; each round swaps the largest of the slots `0 .. i` into slot `i`. -/
def sort_outer : Nat → List idxs → List idxs
  | 0, a => a
  | i + 1, a =>
    let k := sort_select a (i + 1) (i + 1)
    sort_outer i
      (if i + 1 ≠ k then (a.set (i + 1) (a.getD k default)).set k (a.getD (i + 1) default)
       else a)

/-- The function `sort_zk_nodes`; the result is copied to the global
`zk_nodes`.  The locals `idxs` and `N` have `SD_MAX_NODES` slots. -/
def sort_zk_nodes (SD_MAX_NODES : Nat) (znodes : List zk_node) (nr_nodes : Nat)
    (s : State) : Res Unit :=
  if nr_nodes ≤ 1 then .ret () s
  else if SD_MAX_NODES < nr_nodes ∨ znodes.length < nr_nodes ∨ s.zk_nodes.length < nr_nodes then
    .undefined
  else
    let idxs0 : List idxs :=
      (List.range nr_nodes).map fun i => { idx := i, seq := (znodes.getD i default).seq }
    let idxs1 := sort_outer (nr_nodes - 1) idxs0
    let N := idxs1.map fun t => znodes.getD t.idx default
    .ret () { s with zk_nodes := N ++ s.zk_nodes.drop nr_nodes }

/-! ## The member registry -/

/-- The record of the member child `name` (the result of `zk_get`). -/
def member_get (s : State) (name : Nat) : Option zk_node :=
  (s.member.find? fun p => p.1 = name).map fun p => p.2

/-- The registry after `zk_set` of the member child `name`. -/
def member_set (s : State) (name : Nat) (z : zk_node) : List (Nat × zk_node) :=
  s.member.map fun p => if p.1 = name then (p.1, z) else p

/-- The loop of `zk_data_init` over the member children.  A record with
`joined == 0` is left behind by `continue`; a child that has vanished
(`ZNONODE`) is skipped. -/
def data_init_loop : List (Nat × zk_node) → State → Res Unit
  | [], s => .ret () s
  | p :: rest, s =>
    match member_get s p.1 with
    | none => data_init_loop rest s
    | some z =>
      if z.joined = 0 then data_init_loop rest s
      else
        match array_set s.zk_nodes s.nr_zk_nodes z with
        | none => .undefined
        | some nodes =>
          data_init_loop rest { s with zk_nodes := nodes, nr_zk_nodes := s.nr_zk_nodes + 1 }

/-- The function `zk_data_init`.  `FOR_EACH_ZNODE` visits the children from the
last one returned to the first. -/
def zk_data_init (SD_MAX_NODES : Nat) (s : State) : Res Unit :=
  if s.finished ≠ 0 then .ret () s
  else
    let s1 := { s with finished := 1, queue_pos := -1 }
    (if s1.member.length ≠ 0 then data_init_loop s1.member.reverse s1 else .ret () s1).bind
      fun _ s2 => sort_zk_nodes SD_MAX_NODES s2.zk_nodes s2.nr_zk_nodes s2

/-! ## The dispatcher -/

def record (a : Action) (s : State) : State := { s with trace := s.trace ++ [a] }

/-- The branch of `zk_dispatch` for a Join that is still blocked. -/
def dispatch_join_blocked (SD_MAX_NODES : Nat)
    (sd_check_join_cb : sd_node → List Nat → cluster_join_result)
    (ev : zk_event) (s : State) : Res Int :=
  match is_master SD_MAX_NODES s s.this_node with
  | none => .undefined
  | some m =>
    if 0 ≤ m then
      let res := sd_check_join_cb ev.sender.node ev.buf
      let s1 := record (Action.check_join ev.sender.node ev.buf) s
      let ev1 : zk_event :=
        { ev with join_result := res, blocked := 0, sender := { ev.sender with joined := 1 } }
      match member_get s1 (node_to_str ev1.sender.node) with
      | none => .panic s1
      | some znode =>
        let znode1 : zk_node := { znode with joined := 1 }
        let s2 := record (Action.member_set (node_to_str ev1.sender.node) znode1)
          { s1 with member := member_set s1 (node_to_str ev1.sender.node) znode1 }
        (zk_queue_push_back (some ev1) s2).bind fun _ s3 =>
          if res = CJ_RES_MASTER_TRANSFER then .exit s3 else .ret 0 s3
    else (zk_queue_push_back none s).bind fun _ s1 => .ret 0 s1

/-- The tail of the Join branch: append the sender and call the host. -/
def dispatch_join_append (ev : zk_event) (s : State) : Res Int :=
  match array_set s.zk_nodes s.nr_zk_nodes ev.sender with
  | none => .undefined
  | some nodes =>
    let s1 := { s with zk_nodes := nodes, nr_zk_nodes := s.nr_zk_nodes + 1 }
    match build_node_list s1.zk_nodes s1.nr_zk_nodes with
    | none => .undefined
    | some entries =>
      .ret 0 (record
        (Action.join_handler ev.sender.node entries s1.nr_zk_nodes ev.join_result ev.buf) s1)

/-- The branch of `zk_dispatch` for a Join that is no longer blocked. -/
def dispatch_join_unblocked (SD_MAX_NODES : Nat) (ev : zk_event) (s : State) : Res Int :=
  if ev.join_result = CJ_RES_MASTER_TRANSFER then
    match array_set s.zk_nodes 0 { s.this_node with joined := 1 } with
    | none => .undefined
    | some nodes =>
      let s1 := { s with nr_zk_nodes := 1, zk_nodes := nodes }
      (zk_queue_push_back (some ev) s1).bind fun _ s2 =>
        (zk_queue_pop SD_MAX_NODES ev s2).bind fun r s3 => dispatch_join_append r.2 s3
  else dispatch_join_append ev s

/-- The branch of `zk_dispatch` for a Leave. -/
def dispatch_leave (ev : zk_event) (s : State) : Res Int :=
  match find_node s.zk_nodes s.nr_zk_nodes ev.sender with
  | none => .undefined
  | some none => .ret 0 s
  | some (some idx) =>
    let nr := s.nr_zk_nodes - 1
    match memmove s.zk_nodes idx (idx + 1) (nr - idx) with
    | none => .undefined
    | some nodes =>
      let s1 := { s with nr_zk_nodes := nr, zk_nodes := nodes }
      match build_node_list s1.zk_nodes s1.nr_zk_nodes with
      | none => .undefined
      | some entries =>
        .ret 0 (record (Action.leave_handler ev.sender.node entries s1.nr_zk_nodes) s1)

/-- The branch of `zk_dispatch` for a Notify. -/
def dispatch_notify (ev : zk_event) (s : State) : Res Int :=
  if ev.blocked ≠ 0 then
    if node_cmp ev.sender.node s.this_node.node = 0 ∧ ev.callbacked = 0 then
      let ev1 : zk_event := { ev with callbacked := 1 }
      let s1 := { s with zk_notify_blocked := s.zk_notify_blocked + 1 }
      (zk_queue_push_back (some ev1) s1).bind fun _ s2 =>
        .ret 0 (record Action.queue_work { s2 with work_queued := s2.work_queued + 1 })
    else (zk_queue_push_back none s).bind fun _ s1 => .ret 0 s1
  else .ret 0 (record (Action.notify_handler ev.sender.node ev.buf ev.buf_len) s)

/-- The `switch` of `zk_dispatch` on the popped event. -/
def dispatch_event (SD_MAX_NODES : Nat)
    (sd_check_join_cb : sd_node → List Nat → cluster_join_result)
    (ev : zk_event) (s : State) : Res Int :=
  match ev.type with
  | EVENT_JOIN =>
    if ev.blocked ≠ 0 then dispatch_join_blocked SD_MAX_NODES sd_check_join_cb ev s
    else dispatch_join_unblocked SD_MAX_NODES ev s
  | EVENT_LEAVE => dispatch_leave ev s
  | EVENT_NOTIFY => dispatch_notify ev s
  | EVENT_IGNORE => .ret 0 s

/-- The function `zk_dispatch`: one tick.  `stack` is the content of the
uninitialised local `ev`. -/
def zk_dispatch (SD_MAX_NODES : Nat)
    (sd_check_join_cb : sd_node → List Nat → cluster_join_result)
    (stack : zk_event) (s : State) : Res Int :=
  if s.efd = 0 then .ret 0 s
  else
    let s1 := { s with efd := 0 }
    if s1.zk_notify_blocked ≠ 0 then .ret 0 s1
    else
      (zk_queue_pop SD_MAX_NODES stack s1).bind fun r s2 =>
        if r.1 < 0 then .ret 0 s2 else dispatch_event SD_MAX_NODES sd_check_join_cb r.2 s2

/-! ## The blocking-callback worker -/

/-- The function `zk_block`, the body of the queued work. -/
def zk_block (SD_MAX_NODES : Nat) (stack : zk_event) (s : State) : Res Unit :=
  (zk_queue_pop SD_MAX_NODES stack s).bind fun r s1 =>
    if r.1 ≠ 0 then .panic s1
    else
      match r.2.block_cb with
      | none => .undefined
      | some cb =>
        let s2 := record (Action.block_cb cb r.2.buf) s1
        (zk_queue_push_back (some { r.2 with blocked := 0 }) s2).bind fun _ s3 =>
          .ret () (eventfd_write { s3 with zk_notify_blocked := s3.zk_notify_blocked - 1 })

/-- The worker thread takes one queued work item and runs `zk_block`. -/
def worker_run (SD_MAX_NODES : Nat) (stack : zk_event) (s : State) : Res Unit :=
  if s.work_queued = 0 then .ret () s
  else zk_block SD_MAX_NODES stack { s with work_queued := s.work_queued - 1 }

/-! ## Example states -/

def nodeA : zk_node := { seq := 0, joined := 1, clientid := 11, node := { id := 1 } }
def nodeB : zk_node := { seq := 1, joined := 1, clientid := 12, node := { id := 2 } }
def nodeC : zk_node := { seq := 2, joined := 1, clientid := 13, node := { id := 3 } }
def nodeD : zk_node := { seq := 3, joined := 1, clientid := 14, node := { id := 4 } }
def nodeE : zk_node := { seq := 4, joined := 1, clientid := 15, node := { id := 5 } }

/-- An all-zero member record, the content of an unused static slot. -/
def node0 : zk_node := { seq := 0, joined := 0, clientid := 0, node := { id := 0 } }

/-- An all-zero event, the content of an unused static slot. -/
def event0 : zk_event :=
  { type := EVENT_IGNORE, sender := node0, join_result := CJ_RES_SUCCESS, block_cb := none,
    blocked := 0, callbacked := 0, buf_len := 0, buf := [] }

/-- A process `this` with four slots per array, an empty log, an empty
registry, nothing pending and one wake signal. -/
def state0 (this : zk_node) : State :=
  { queue := [], member := [], zk_notify_blocked := 0,
    zk_levents := [event0, event0, event0, event0], nr_zk_levents := 0,
    zk_levent_head := 0, zk_levent_tail := 0,
    zk_nodes := [node0, node0, node0, node0], nr_zk_nodes := 0,
    efd := 1, queue_pos := 0, this_node := this, work_queued := 0, finished := 1, trace := [] }

/-- A view of one member that is not joined, in front of a stale joined record
in the slot behind the view. -/
def stale_slot_state : State :=
  { state0 nodeB with
    zk_nodes := [{ nodeA with joined := 0 }, nodeB, node0, node0], nr_zk_nodes := 1 }

/-- The Join of `B` as `zk_join` appends it: blocked, sender not yet joined. -/
def joinB_blocked : zk_event :=
  { type := EVENT_JOIN, sender := { nodeB with joined := 0 }, join_result := CJ_RES_SUCCESS,
    block_cb := none, blocked := 1, callbacked := 0, buf_len := 2, buf := [7, 8] }

/-- Master `A` with view `[A]`, the blocked Join of `B` at its cursor and the
member record of `B` in the registry. -/
def join_pending : State :=
  { state0 nodeA with
    zk_nodes := [nodeA, node0, node0, node0], nr_zk_nodes := 1,
    queue := [joinB_blocked],
    member := [(1, nodeA), (2, { nodeB with joined := 0 })] }

/-- The Join of `B` after the master has approved it. -/
def joinB_approved : zk_event :=
  { joinB_blocked with blocked := 0, sender := nodeB }

/-- Process `A` with view `[A]` and the approved Join of `B` at its cursor. -/
def join_approved : State :=
  { state0 nodeA with
    zk_nodes := [nodeA, node0, node0, node0], nr_zk_nodes := 1,
    queue := [joinB_approved],
    member := [(1, nodeA), (2, nodeB)] }

/-- Process `A` whose view fills all four slots of `zk_nodes`, with the
approved Join of a fifth node at its cursor. -/
def join_full_view : State :=
  { state0 nodeA with
    zk_nodes := [nodeA, nodeB, nodeC, nodeD], nr_zk_nodes := 4,
    queue := [{ joinB_approved with sender := nodeE }] }

/-- The Leave of `B` as the watcher enqueues it. -/
def leaveB : zk_event := { event0 with type := EVENT_LEAVE, sender := nodeB }

/-- Process `A` with view `[A, B, C]` and the Leave of `B` pending in the ring. -/
def leave_pending : State :=
  { state0 nodeA with
    zk_nodes := [nodeA, nodeB, nodeC, node0], nr_zk_nodes := 3,
    zk_levents := [leaveB, event0, event0, event0], nr_zk_levents := 1,
    zk_levent_head := 0, zk_levent_tail := 1 }

/-- Two events agree in kind, sender record, `join_result`, `block_cb`,
`blocked`, `callbacked`, `buf_len` and the first `buf_len` payload bytes. -/
def event_agrees (a b : zk_event) : Prop :=
  a.type = b.type ∧ a.sender = b.sender ∧ a.join_result = b.join_result ∧
    a.block_cb = b.block_cb ∧ a.blocked = b.blocked ∧ a.callbacked = b.callbacked ∧
    a.buf_len = b.buf_len ∧ a.buf.take b.buf_len = b.buf.take b.buf_len

/-- A Notify of `A` with a three-byte payload in a larger buffer. -/
def notifyA : zk_event :=
  { type := EVENT_NOTIFY, sender := nodeA, join_result := CJ_RES_SUCCESS, block_cb := some 5,
    blocked := 1, callbacked := 0, buf_len := 3, buf := [1, 2, 3, 9, 9] }

/-- A bootstrapped process whose cursor is behind the only log entry. -/
def cursor_after_entry : State :=
  { state0 nodeA with queue := [event0], queue_pos := 1 }

/-- The event that `add_event(EVENT_LEAVE, znode, NULL, 0, NULL)` stores in the
ring: kind, sender, `buf_len` and the two flags are set, the other fields keep
the content of the uninitialised local. -/
def leave_event (stack : zk_event) (znode : zk_node) : zk_event :=
  { stack with type := EVENT_LEAVE, sender := znode, buf_len := 0, callbacked := 0, blocked := 0 }

/-- A run of `add_event(EVENT_LEAVE, ...)` calls, one per element: the content
of the uninitialised local and the sender. -/
def enqueue_leaves (SD_MAX_NODES : Nat) : List (zk_event × zk_node) → State → Res Unit
  | [], s => .ret () s
  | c :: cs, s =>
    (add_event SD_MAX_NODES c.1 EVENT_LEAVE c.2 none 0 none s).bind fun _ s1 =>
      enqueue_leaves SD_MAX_NODES cs s1

/-- A run of `zk_queue_pop` calls, one per caller buffer, with their results. -/
def pop_all (SD_MAX_NODES : Nat) : List zk_event → State → Res (List (Int × zk_event))
  | [], s => .ret [] s
  | st :: sts, s =>
    (zk_queue_pop SD_MAX_NODES st s).bind fun r s1 =>
      (pop_all SD_MAX_NODES sts s1).bind fun rs s2 => .ret (r :: rs) s2

/-- The pending Leave events, oldest first: the `nr_zk_levents` slots of the
ring from `zk_levent_head` on. -/
def pending (SD_MAX_NODES : Nat) (s : State) : List zk_event :=
  (List.range s.nr_zk_levents.toNat).map fun i =>
    s.zk_levents.getD ((s.zk_levent_head + i) % SD_MAX_NODES) event0

/-- The leave ring is consistent: the array has `SD_MAX_NODES` slots, a number
that divides the range of the `unsigned` counters, the count is between zero and
the capacity, and the tail is the head plus the count. -/
def ring_ok (SD_MAX_NODES : Nat) (s : State) : Prop :=
  SD_MAX_NODES ≠ 0 ∧ SD_MAX_NODES ∣ 2 ^ 32 ∧ s.zk_levents.length = SD_MAX_NODES ∧
    0 ≤ s.nr_zk_levents ∧ s.nr_zk_levents ≤ SD_MAX_NODES ∧ s.zk_levent_head < 2 ^ 32 ∧
    s.zk_levent_tail = (s.zk_levent_head + s.nr_zk_levents.toNat) % 2 ^ 32

/-- A ring of four slots that holds four pending Leave events. -/
def ring_full : State :=
  { state0 nodeA with
    zk_levents := [leave_event event0 nodeA, leave_event event0 nodeB,
      leave_event event0 nodeC, leave_event event0 nodeD],
    nr_zk_levents := 4, zk_levent_head := 0, zk_levent_tail := 4 }

/-- A ring of four slots that holds three pending Leave events. -/
def ring_three : State :=
  { state0 nodeA with
    zk_levents := [leave_event event0 nodeA, leave_event event0 nodeB,
      leave_event event0 nodeC, event0],
    nr_zk_levents := 3, zk_levent_head := 0, zk_levent_tail := 3 }

/-- Three member records read from the registry in the order `C, A, B`. -/
def unsorted_view : State :=
  { state0 nodeD with zk_nodes := [nodeC, nodeA, nodeB, node0], nr_zk_nodes := 3 }

/-- The Join of `B`, approved by the old master with `MASTER_TRANSFER`. -/
def joinB_transfer : zk_event :=
  { joinB_approved with join_result := CJ_RES_MASTER_TRANSFER }

/-- The joiner `B` (its own `joined` flag is still 0) after bootstrap with view
`[A]`, its cursor at its own Join, which carries `MASTER_TRANSFER`. -/
def transfer_at_B : State :=
  { state0 { nodeB with joined := 0 } with
    zk_nodes := [nodeA, node0, node0, node0], nr_zk_nodes := 1,
    queue := [joinB_transfer],
    member := [(2, nodeB)] }

/-- A fresh process in front of a registry of three joined members and one
member that is not yet joined, with four free slots. -/
def before_bootstrap : State :=
  { state0 nodeE with
    finished := 0,
    member := [(3, nodeC), (1, nodeA), (4, { nodeD with joined := 0 }), (2, nodeB)] }

def zk_notify (SD_MAX_NODES : Nat) (stack : zk_event) (msg : Option (List Nat)) (msg_len : Nat)
    (block_cb : Option Nat) (s : State) : Res Int :=
  add_event SD_MAX_NODES stack EVENT_NOTIFY s.this_node msg msg_len block_cb s

/-- One step of the originating process: a tick of the dispatcher or a run of
the worker; each carries the content of the uninitialised local `ev`. -/
inductive Step where
  | tick (stack : zk_event)
  | work (stack : zk_event)
  deriving Repr

def run_step (SD_MAX_NODES : Nat) (sd_check_join_cb : sd_node → List Nat → cluster_join_result) :
    Step → State → Res Unit
  | .tick stack, s => (zk_dispatch SD_MAX_NODES sd_check_join_cb stack s).bind fun _ s1 => .ret () s1
  | .work stack, s => worker_run SD_MAX_NODES stack s

/-- The state after a sequence of steps.  The process stops with the first
step that does not return; after undefined behaviour nothing more is said. -/
def run_steps (SD_MAX_NODES : Nat) (sd_check_join_cb : sd_node → List Nat → cluster_join_result) :
    List Step → State → State
  | [], s => s
  | st :: rest, s =>
    match run_step SD_MAX_NODES sd_check_join_cb st s with
    | .ret _ s1 => run_steps SD_MAX_NODES sd_check_join_cb rest s1
    | .exit s1 => s1
    | .panic s1 => s1
    | .undefined => s

/-- The log entry of the example `notify([1,2,3], cb 5)` issued by `A`, with the
two flags as given. -/
def notify_entry (blocked callbacked : Int) : zk_event :=
  { type := EVENT_NOTIFY, sender := nodeA, join_result := CJ_RES_SUCCESS, block_cb := some 5,
    blocked := blocked, callbacked := callbacked, buf_len := 3, buf := [1, 2, 3] }

/-! ## The watcher -/

/-- Modelled from the spec: the kinds of watch event are constants of the
coordination-service client library (`zookeeper.h`), which is not part of the
sources; the numbers are those of the ZooKeeper C client.  The source itself
tests `type == -1` for a session event. -/
def ZOO_CREATED_EVENT : Int := 1

/-- Modelled from the spec: the deletion of a watched child. -/
def ZOO_DELETED_EVENT : Int := 2

/-- Modelled from the spec: the change of the value of a watched child. -/
def ZOO_CHANGED_EVENT : Int := 3

/-- Modelled from the spec: a change of the children of a watched directory. -/
def ZOO_CHILD_EVENT : Int := 4

/-- Modelled from the spec: a change of the session. -/
def ZOO_SESSION_EVENT : Int := -1

/-- The loop of `watcher` over the view, from index `i` with `n` slots left:
the first slot whose node has the name `p`.  `some none` when the loop ends
without a match, `none` for a read outside the array. -/
def watcher_scan (znodes : List zk_node) (p : Nat) : Nat → Nat → Option (Option Nat)
  | 0, _ => some none
  | n + 1, i =>
    match znodes[i]? with
    | none => none
    | some z =>
      if p = node_to_str z.node then some (some i) else watcher_scan znodes p n (i + 1)

/-- The function `watcher`.  `path` is `some name` for the path of the member
child `name` (the `sscanf` on `MEMBER_ZNODE "/%s"` succeeds and the last path
component is `name`) and `none` for every other path; `stack` is the content of
the uninitialised local `ev` of `add_event`.  The re-arming `zk_exists` of a
changed child does not change the state. -/
def watcher (SD_MAX_NODES : Nat) (stack : zk_event) (type : Int) (path : Option Nat)
    (s : State) : Res Unit :=
  if type < 0 ∨ type = ZOO_CHILD_EVENT then .ret () s
  else if type = ZOO_DELETED_EVENT then
    match path with
    | none => .ret () s
    | some p =>
      match watcher_scan s.zk_nodes p s.nr_zk_nodes 0 with
      | none => .undefined
      | some (some i) =>
        match s.zk_nodes[i]? with
        | none => .undefined
        | some z =>
          (add_event SD_MAX_NODES stack EVENT_LEAVE z none 0 none s).bind fun _ s1 => .ret () s1
      | some none => .ret () (eventfd_write s)
  else .ret () (eventfd_write s)

/-! ## Joining -/

/-- The function `zk_queue_seq`: an event of kind Ignore, all other bytes zero,
is appended to the log; the result is its sequence number. -/
def zk_queue_seq (s : State) : Res Int :=
  zk_queue_push
    { type := EVENT_IGNORE, sender := node0, join_result := CJ_RES_SUCCESS, block_cb := none,
      blocked := 0, callbacked := 0, buf_len := 0, buf := List.replicate MAX_EVENT_BUF_SIZE 0 } s

/-- The part of `zk_join` behind the session check: the sequence number is
reserved, the member child is created (`zk_create` fails with `ZNODEEXISTS`
when a child of that name exists, which is a panic) and the Join is added. -/
def zk_join_register (SD_MAX_NODES : Nat) (stack : zk_event) (cid : Nat) (myself : sd_node)
    (payload : Option (List Nat)) (payload_len : Nat) (s : State) : Res Int :=
  (zk_queue_seq s).bind fun seq s1 =>
    let this : zk_node := { s1.this_node with seq := seq, joined := 0, clientid := cid }
    let s2 := { s1 with this_node := this }
    match member_get s2 (node_to_str myself) with
    | some _ => .panic s2
    | none =>
      add_event SD_MAX_NODES stack EVENT_JOIN this payload payload_len none
        { s2 with member := s2.member ++ [(node_to_str myself, this)] }

/-- The function `zk_join`.  `payload` and `payload_len` are the arguments that
the source calls `opaque` and `opaque_len`; `cid` is the session id returned by
`zoo_client_id`; `stack` is the content of the uninitialised local `ev` of
`add_event`.  The lock znode is not part of the state: `zk_lock` returns once
the lock is free, and `zk_unlock` deletes the lock that the process holds. -/
def zk_join (SD_MAX_NODES : Nat) (stack : zk_event) (cid : Nat) (myself : sd_node)
    (payload : Option (List Nat)) (payload_len : Nat) (s : State) : Res Int :=
  (zk_data_init SD_MAX_NODES s).bind fun _ s1 =>
    let s2 := { s1 with this_node := { s1.this_node with node := myself } }
    match find_node s2.zk_nodes s2.nr_zk_nodes s2.this_node with
    | none => .undefined
    | some (some _) => .panic s2
    | some none => zk_join_register SD_MAX_NODES stack cid myself payload payload_len s2

/-- The static variables of the driver at program start (all zero), in front
of a log and a registry with the given content. -/
def process_start (SD_MAX_NODES : Nat) (queue : List zk_event)
    (member : List (Nat × zk_node)) : State :=
  { queue := queue, member := member, zk_notify_blocked := 0,
    zk_levents := List.replicate SD_MAX_NODES event0, nr_zk_levents := 0,
    zk_levent_head := 0, zk_levent_tail := 0,
    zk_nodes := List.replicate SD_MAX_NODES node0, nr_zk_nodes := 0,
    efd := 0, queue_pos := 0, this_node := node0, work_queued := 0, finished := 0, trace := [] }

/-- The effect of `zk_init` on the state: a new eventfd with counter zero and
an empty work queue.  The calls of `zk_queue_init` create the three directories
when they are missing and leave their content alone. -/
def zk_init (s : State) : State := { s with efd := 0, work_queued := 0 }

/-! ## Bootstrap in front of a changing registry -/

/-- The loop of `zk_data_init` when the registry changes while the loop runs:
`get k name` is what the `k`-th `zk_get` of the loop returns for the child
`name`.  As in `data_init_loop`, `continue` goes on with the next child. -/
def data_init_loop_at (get : Nat → Nat → Option zk_node) : List Nat → Nat → State → Res Unit
  | [], _, s => .ret () s
  | name :: rest, k, s =>
    match get k name with
    | none => data_init_loop_at get rest (k + 1) s
    | some z =>
      if z.joined = 0 then data_init_loop_at get rest (k + 1) s
      else
        match array_set s.zk_nodes s.nr_zk_nodes z with
        | none => .undefined
        | some nodes =>
          data_init_loop_at get rest (k + 1)
            { s with zk_nodes := nodes, nr_zk_nodes := s.nr_zk_nodes + 1 }

/-- The function `zk_data_init` in front of a changing registry: `children` is
the list returned by `zk_get_children`. -/
def zk_data_init_at (SD_MAX_NODES : Nat) (children : List Nat)
    (get : Nat → Nat → Option zk_node) (s : State) : Res Unit :=
  if s.finished ≠ 0 then .ret () s
  else
    let s1 := { s with finished := 1, queue_pos := -1 }
    (if children.length ≠ 0 then data_init_loop_at get children.reverse 0 s1 else .ret () s1).bind
      fun _ s2 => sort_zk_nodes SD_MAX_NODES s2.zk_nodes s2.nr_zk_nodes s2

/-- Master `A` with view `[A]` and the blocked Join of `B` at its cursor, after
the member child of `B` has been deleted. -/
def join_pending_no_record : State :=
  { join_pending with member := [(1, nodeA)] }

/-- Process `C`, not the master, with view `[A, C]` and the blocked Join of `B`
at its cursor. -/
def join_pending_at_C : State :=
  { join_pending with
    this_node := nodeC, zk_nodes := [nodeA, nodeC, node0, node0], nr_zk_nodes := 2 }

/-- Process `this` with view `[A, B]` and, at its cursor, the blocked Notify of
`A` whose callback has not been called. -/
def notify_pending (this : zk_node) : State :=
  { state0 this with
    zk_nodes := [nodeA, nodeB, node0, node0], nr_zk_nodes := 2, queue := [notify_entry 1 0] }

/-- Member `C` with view `[A, C]` and, at its cursor, the Join of `B` that the
old master `A` approved with `MASTER_TRANSFER`. -/
def transfer_at_C : State :=
  { state0 nodeC with
    zk_nodes := [nodeA, nodeC, node0, node0], nr_zk_nodes := 2,
    queue := [joinB_transfer],
    member := [(3, nodeC), (2, nodeB)] }

/-- The registry of `before_bootstrap` while the record of `D` changes: the
first two reads of the loop see `D` with `joined = 0`, every later read sees it
with `joined = 1`. -/
def late_joiner_registry (k name : Nat) : Option zk_node :=
  if name = 4 then some { nodeD with joined := if k ≤ 1 then 0 else 1 }
  else member_get before_bootstrap name

/-- A fresh process in front of a log of one entry and a registry that holds
the records of `A` and of `B`, the latter with the given `joined` flag. -/
def stale_registry (joined : Int) : State :=
  zk_init (process_start 4 [event0] [(1, nodeA), (2, { nodeB with joined := joined })])

/-- Process `A` with view `[A, B, C]`, an empty ring and an empty log. -/
def view_three : State :=
  { state0 nodeA with zk_nodes := [nodeA, nodeB, nodeC, node0], nr_zk_nodes := 3 }

/-- The state `join_pending_no_record` with a Leave of `B` at the head of the
leave ring. -/
def crash_leave_pending : State :=
  { join_pending_no_record with
    zk_levents := [leaveB, event0, event0, event0], nr_zk_levents := 1,
    zk_levent_head := 0, zk_levent_tail := 1 }

/-- The member record that a joining process writes for itself: `seq` is the
position of its Ignore marker and `joined` is 0. -/
def join_record (seq : Nat) (cid : Nat) (myself : sd_node) : zk_node :=
  { seq := (seq : Int), joined := 0, clientid := cid, node := myself }

/-- The log entry of the Join of `sender` with the first `len` bytes of the
payload `p`, as `add_event` writes it; the fields that `add_event` does not set
keep the content of its uninitialised local `stack`. -/
def join_entry (stack : zk_event) (sender : zk_node) (p : List Nat) (len : Nat) : zk_event :=
  { stack with type := EVENT_JOIN, sender := sender, buf_len := len, callbacked := 0,
               blocked := 1, buf := p.take len }

/-- The state of a fresh process after `init` and `join(myself, p)` in front of
the log `log` and an empty registry: the Ignore marker and the Join are at the
end of the log, the cursor is at the marker, the registry holds the record of
the process with `joined = 0`, and the wake object is signalled once. -/
def solo_joined (SD_MAX_NODES : Nat) (log : List zk_event) (stack : zk_event) (cid : Nat)
    (myself : sd_node) (p : List Nat) (len : Nat) : State :=
  { zk_init (process_start SD_MAX_NODES log []) with
    queue := log ++ [event0, join_entry stack (join_record log.length cid myself) p len],
    member := [(node_to_str myself, join_record log.length cid myself)],
    efd := 1, queue_pos := (log.length : Int), finished := 1,
    this_node := join_record log.length cid myself,
    trace := [Action.log_create log.length event0,
      Action.log_create (log.length + 1)
        (join_entry stack (join_record log.length cid myself) p len)] }

/-- Process `A` with view `[A, B, C]`, an empty leave ring and a Leave of `B`
in the log at its cursor. -/
def leave_in_log : State :=
  { view_three with queue := [leaveB] }

/-- Sender `A` with view `[A, B]`, one earlier entry in the log and, at its
cursor, its own blocked Notify whose callback has not been called. -/
def notify_at_sender : State :=
  { notify_pending nodeA with queue := [event0, notify_entry 1 0], queue_pos := 1 }

/-- The state right after the dispatcher of `A` has processed that Notify: the
entry is rewritten with `callbacked = 1`, the cursor is back at the entry,
`zk_notify_blocked` is 1 and the work is queued. -/
def notify_rewound : State :=
  { notify_at_sender with
    efd := 0, queue := [event0, notify_entry 1 1], zk_notify_blocked := 1, work_queued := 1,
    trace := [Action.log_set 1 (notify_entry 1 1), Action.queue_work] }

/-- The content of an uninitialised local event whose `block_cb` bytes are not
zero. -/
def stale_stack : zk_event := { event0 with block_cb := some 9 }

/-- The state `notify_rewound` after the watcher has enqueued a Leave of `B`
while the work is still queued; `stack` is the content of the uninitialised
local of `add_event`. -/
def leave_while_blocked (stack : zk_event) : State :=
  { notify_rewound with
    zk_levents := [leave_event stack nodeB, event0, event0, event0], nr_zk_levents := 1,
    zk_levent_tail := 1, efd := 1 }

/-- The state `notify_rewound` at the start of an observation: the callback of
the earlier Notify of `A` is queued, the dispatcher is held, the leave ring is
empty and the cursor is at the earlier Notify. -/
def earlier_notify_queued : State := { notify_rewound with trace := [] }

/-- The same with a Leave of `B` pending in the ring, enqueued by the watcher
while the work is queued. -/
def earlier_notify_queued_leave : State :=
  { leave_while_blocked stale_stack with trace := [] }

/-! ## Joined records -/

/-- Every record of the view has its `joined` flag set, and the view lies
inside the array. -/
def view_joined (s : State) : Prop :=
  s.nr_zk_nodes ≤ s.zk_nodes.length ∧ ∀ z ∈ view s, z.joined ≠ 0

/-- Every Join of the log that is no longer blocked carries a sender whose
`joined` flag is set. -/
def log_joined (s : State) : Prop :=
  ∀ e ∈ s.queue, e.type = EVENT_JOIN → e.blocked = 0 → e.sender.joined ≠ 0

/-! ## Auxiliary facts about the log and the registry -/

theorem queue_get_lt (s : State) (pos : Int) (e : zk_event) (h : queue_get s pos = some e) :
    0 ≤ pos ∧ pos.toNat < s.queue.length := by
  unfold queue_get at h
  split at h
  · rename_i h0
    refine ⟨h0, ?_⟩
    by_contra hlt
    rw [List.getElem?_eq_none (by omega)] at h
    cases h
  · cases h

/-- Reading back the first `buf_len` bytes of a stored event gives its stored
payload, whatever was in the buffer before. -/
theorem take_zk_get_event (e stack : zk_event) (h1 : e.buf.length = e.buf_len)
    (h2 : e.buf_len ≤ MAX_EVENT_BUF_SIZE) :
    (zk_get_event e stack).buf.take e.buf_len = e.buf := by
  unfold zk_get_event
  simp only
  rw [List.take_take, Nat.min_eq_left h2, List.take_append_of_le_length (by omega),
    List.take_of_length_le (by omega)]

theorem find_map_set (l : List (Nat × zk_node)) (name : Nat) (z z1 : zk_node)
    (h : (l.find? fun p => p.1 = name).map (fun p => p.2) = some z) :
    ((l.map fun p => if p.1 = name then (p.1, z1) else p).find? fun p => p.1 = name).map
      (fun p => p.2) = some z1 := by
  induction l with
  | nil => simp at h
  | cons p rest ih =>
    by_cases hp : p.1 = name
    · simp [List.find?, hp]
    · simp only [List.find?, hp, decide_False, List.map_cons, if_false] at h ⊢
      exact ih h

theorem find_map_set_ne (l : List (Nat × zk_node)) (name other : Nat) (z1 : zk_node)
    (hne : other ≠ name) :
    ((l.map fun p => if p.1 = name then (p.1, z1) else p).find? fun p => p.1 = other).map
      (fun p => p.2) = (l.find? fun p => p.1 = other).map (fun p => p.2) := by
  induction l with
  | nil => rfl
  | cons p rest ih =>
    by_cases hp : p.1 = name
    · have hpo : ¬ p.1 = other := fun h => hne (h.symm.trans hp)
      rw [List.map_cons, if_pos hp, List.find?_cons_of_neg _ (by simpa using hpo),
        List.find?_cons_of_neg _ (by simpa using hpo)]
      exact ih
    · rw [List.map_cons, if_neg hp]
      by_cases hpo : p.1 = other
      · rw [List.find?_cons_of_pos _ (by simpa using hpo),
          List.find?_cons_of_pos _ (by simpa using hpo)]
      · rw [List.find?_cons_of_neg _ (by simpa using hpo),
          List.find?_cons_of_neg _ (by simpa using hpo)]
        exact ih

/-! ## Theorems -/

/-- A state set by hand, outside what bootstrap and the dispatcher build: the
view `[A]` has a member but none that is joined, and slot 1, behind the view,
holds a stale joined record of `B`.  The scan of `is_master` runs past the view
and answers 1 for `B`. -/
theorem is_master_stale_slot_example :
    view stale_slot_state = [{ nodeA with joined := 0 }] ∧
      is_master 4 stale_slot_state nodeB = some 1 ∧
      master_by_view stale_slot_state nodeB = false := by
  decide

/-! ## Step lemmas: each function on the path it takes -/

theorem zk_dispatch_tick (SD_MAX_NODES : Nat)
    (check_join : sd_node → List Nat → cluster_join_result) (stack : zk_event) (s : State)
    (htick : s.efd ≠ 0) (hnb : s.zk_notify_blocked = 0) :
    zk_dispatch SD_MAX_NODES check_join stack s =
      (zk_queue_pop SD_MAX_NODES stack { s with efd := 0 }).bind fun r s2 =>
        if r.1 < 0 then .ret 0 s2 else dispatch_event SD_MAX_NODES check_join r.2 s2 := by
  unfold zk_dispatch
  rw [if_neg htick]
  have h : ¬ ({ s with efd := 0 } : State).zk_notify_blocked ≠ 0 := by simpa using hnb
  simp only [if_neg h]

theorem zk_queue_pop_log (SD_MAX_NODES : Nat) (ev d : zk_event) (s : State)
    (hring : s.nr_zk_levents = 0) (hq : queue_get s s.queue_pos = some d) :
    zk_queue_pop SD_MAX_NODES ev s = pop_log ev d s := by
  unfold zk_queue_pop zk_queue_empty
  rw [if_neg (by simpa using hring), hq]
  simp

theorem zk_queue_pop_empty (SD_MAX_NODES : Nat) (ev : zk_event) (s : State)
    (hring : s.nr_zk_levents = 0) (hq : queue_get s s.queue_pos = none) :
    zk_queue_pop SD_MAX_NODES ev s = .ret (-1, ev) s := by
  unfold zk_queue_pop zk_queue_empty
  rw [if_neg (by simpa using hring), hq]
  simp

theorem pop_log_blocked (ev d : zk_event) (s : State) (hb : d.blocked ≠ 0)
    (ht : d.type ≠ EVENT_LEAVE) :
    pop_log ev d s = .ret (0, zk_get_event d ev) { s with queue_pos := s.queue_pos + 1 } := by
  unfold pop_log
  have h1 : (zk_get_event d ev).blocked ≠ 0 := hb
  have h2 : ¬ (zk_get_event d ev).type = EVENT_LEAVE := ht
  simp only [if_pos h1, if_neg h2]

theorem pop_log_unblocked (ev d : zk_event) (s : State) (hb : d.blocked = 0)
    (ht : d.type ≠ EVENT_LEAVE) :
    pop_log ev d s = .ret (0, zk_get_event d ev)
      (if (queue_get s (s.queue_pos + 1)).isSome
        then eventfd_write { s with queue_pos := s.queue_pos + 1 }
        else { s with queue_pos := s.queue_pos + 1 }) := by
  unfold pop_log
  have h1 : ¬ (zk_get_event d ev).blocked ≠ 0 := by simpa using hb
  have h2 : ¬ (zk_get_event d ev).type = EVENT_LEAVE := ht
  simp only [if_neg h1, if_neg h2]
  rfl

theorem zk_queue_push_back_some (e d : zk_event) (s : State)
    (hq : queue_get s (s.queue_pos - 1) = some d) :
    zk_queue_push_back (some e) s =
      .ret 0 { s with queue_pos := s.queue_pos - 1,
                      queue := s.queue.set (s.queue_pos - 1).toNat (event_data e),
                      trace := s.trace ++ [Action.log_set (s.queue_pos - 1) (event_data e)] } := by
  unfold zk_queue_push_back
  have h : queue_get { s with queue_pos := s.queue_pos - 1 } (s.queue_pos - 1) = some d := hq
  simp only [h]

theorem zk_queue_push_back_none (s : State) :
    zk_queue_push_back none s = .ret 0 { s with queue_pos := s.queue_pos - 1 } := rfl

theorem queue_get_set_self (s s1 : State) (pos : Int) (d e : zk_event)
    (hq : queue_get s pos = some d) (h1 : s1.queue = s.queue.set pos.toNat e) :
    queue_get s1 pos = some e := by
  obtain ⟨h0, hlt⟩ := queue_get_lt s pos d hq
  unfold queue_get
  rw [if_pos h0, h1, List.getElem?_set_self hlt]

theorem queue_get_set_ne (s s1 : State) (pos other : Int) (e : zk_event)
    (h0 : 0 ≤ pos) (h1 : s1.queue = s.queue.set pos.toNat e) (hne : other ≠ pos) :
    queue_get s1 other = queue_get s other := by
  unfold queue_get
  by_cases ho : 0 ≤ other
  · rw [if_pos ho, if_pos ho, h1, List.getElem?_set_ne]
    intro h
    apply hne
    omega
  · rw [if_neg ho, if_neg ho]


theorem dispatch_join_blocked_master (SD_MAX_NODES : Nat)
    (check_join : sd_node → List Nat → cluster_join_result) (ev d : zk_event)
    (s : State) (m : Int) (z : zk_node)
    (hmaster : is_master SD_MAX_NODES s s.this_node = some m) (hm : 0 ≤ m)
    (hmember : member_get s (node_to_str ev.sender.node) = some z)
    (hq : queue_get s (s.queue_pos - 1) = some d) :
    dispatch_join_blocked SD_MAX_NODES check_join ev s =
      (if check_join ev.sender.node ev.buf = CJ_RES_MASTER_TRANSFER then Res.exit else Res.ret 0)
        { s with
          queue_pos := s.queue_pos - 1,
          member := member_set s (node_to_str ev.sender.node) { z with joined := 1 },
          queue := s.queue.set (s.queue_pos - 1).toNat
            (event_data { ev with join_result := check_join ev.sender.node ev.buf,
                                  blocked := 0, sender := { ev.sender with joined := 1 } }),
          trace := s.trace ++ [Action.check_join ev.sender.node ev.buf] ++
            [Action.member_set (node_to_str ev.sender.node) { z with joined := 1 }] ++
            [Action.log_set (s.queue_pos - 1)
              (event_data { ev with join_result := check_join ev.sender.node ev.buf,
                                    blocked := 0, sender := { ev.sender with joined := 1 } })] } := by
  unfold dispatch_join_blocked
  rw [hmaster]
  simp only [if_pos hm]
  have h1 : member_get (record (Action.check_join ev.sender.node ev.buf) s)
      (node_to_str ev.sender.node) = some z := hmember
  rw [h1]
  simp only []
  rw [zk_queue_push_back_some _ d]
  · simp only [Res.bind, record]
    split <;> rfl
  · exact hq
/-! ## Theorems on the dispatcher -/

/-- C2: at the master, with an empty leave ring and no blocking callback
outstanding, a tick on a blocked Join whose sender has a member record rewrites
the log entry in place (`join_result` the hook result, `blocked = 0`,
`sender.joined = 1`, the rest as before), sets `joined = 1` in the sender's
record, keeps the cursor and the view, and calls no `join_handler`: the trace
grows by the hook call, the registry write and the log rewrite only.  The
process exits after that when the hook result is `MASTER_TRANSFER`. -/
theorem C2_master_approves_blocked_join (SD_MAX_NODES : Nat)
    (check_join : sd_node → List Nat → cluster_join_result) (stack e : zk_event)
    (s : State) (m : Int) (z : zk_node)
    (htick : s.efd ≠ 0) (hring : s.nr_zk_levents = 0) (hnb : s.zk_notify_blocked = 0)
    (hmaster : is_master SD_MAX_NODES s s.this_node = some m) (hm : 0 ≤ m)
    (hentry : queue_get s s.queue_pos = some e)
    (hjoin : e.type = EVENT_JOIN) (hblocked : e.blocked ≠ 0)
    (hlen : e.buf.length = e.buf_len) (hmax : e.buf_len ≤ MAX_EVENT_BUF_SIZE)
    (hmember : member_get s (node_to_str e.sender.node) = some z) :
    ∃ s1 : State,
      zk_dispatch SD_MAX_NODES check_join stack s =
        (if check_join e.sender.node (zk_get_event e stack).buf = CJ_RES_MASTER_TRANSFER
          then Res.exit s1 else Res.ret 0 s1) ∧
      queue_get s1 s.queue_pos =
        some { e with join_result := check_join e.sender.node (zk_get_event e stack).buf,
                      blocked := 0, sender := { e.sender with joined := 1 } } ∧
      (∀ pos, pos ≠ s.queue_pos → queue_get s1 pos = queue_get s pos) ∧
      member_get s1 (node_to_str e.sender.node) = some { z with joined := 1 } ∧
      (∀ name, name ≠ node_to_str e.sender.node → member_get s1 name = member_get s name) ∧
      s1.queue_pos = s.queue_pos ∧ s1.zk_nodes = s.zk_nodes ∧ s1.nr_zk_nodes = s.nr_zk_nodes ∧
      view s1 = view s ∧
      s1.trace = s.trace ++
        [Action.check_join e.sender.node (zk_get_event e stack).buf,
         Action.member_set (node_to_str e.sender.node) { z with joined := 1 },
         Action.log_set s.queue_pos
           { e with join_result := check_join e.sender.node (zk_get_event e stack).buf,
                    blocked := 0, sender := { e.sender with joined := 1 } }] := by
  obtain ⟨hpos, hlt⟩ := queue_get_lt s _ _ hentry
  have hne : e.type ≠ EVENT_LEAVE := by rw [hjoin]; decide
  have hdata : event_data
      { zk_get_event e stack with
        join_result := check_join e.sender.node (zk_get_event e stack).buf,
        blocked := 0, sender := { e.sender with joined := 1 } } =
      { e with join_result := check_join e.sender.node (zk_get_event e stack).buf,
               blocked := 0, sender := { e.sender with joined := 1 } } := by
    have := take_zk_get_event e stack hlen hmax
    unfold event_data
    simpa [zk_get_event] using this
  have hmem1 : member_get { s with efd := 0, queue_pos := s.queue_pos + 1 }
      (node_to_str (zk_get_event e stack).sender.node) = some z := hmember
  have hback : queue_get { s with efd := 0, queue_pos := s.queue_pos + 1 }
      (s.queue_pos + 1 - 1) = some e := by
    rw [Int.add_sub_cancel]; exact hentry
  have hm1 : is_master SD_MAX_NODES { s with efd := 0, queue_pos := s.queue_pos + 1 }
      s.this_node = some m := hmaster
  have ht : (zk_get_event e stack).type = EVENT_JOIN := hjoin
  have hb : (zk_get_event e stack).blocked ≠ 0 := hblocked
  have hsender : (zk_get_event e stack).sender = e.sender := rfl
  have hrun : zk_dispatch SD_MAX_NODES check_join stack s =
      (if check_join e.sender.node (zk_get_event e stack).buf = CJ_RES_MASTER_TRANSFER
        then Res.exit else Res.ret 0)
      { s with
        efd := 0,
        member := member_set s (node_to_str e.sender.node) { z with joined := 1 },
        queue := s.queue.set s.queue_pos.toNat
          { e with join_result := check_join e.sender.node (zk_get_event e stack).buf,
                   blocked := 0, sender := { e.sender with joined := 1 } },
        trace := s.trace ++
          [Action.check_join e.sender.node (zk_get_event e stack).buf,
           Action.member_set (node_to_str e.sender.node) { z with joined := 1 },
           Action.log_set s.queue_pos
             { e with join_result := check_join e.sender.node (zk_get_event e stack).buf,
                      blocked := 0, sender := { e.sender with joined := 1 } }] } := by
    rw [zk_dispatch_tick _ _ _ _ htick hnb,
      zk_queue_pop_log _ _ e { s with efd := 0 } hring hentry,
      pop_log_blocked _ _ _ hblocked hne]
    simp only [Res.bind]
    rw [if_neg (by decide)]
    unfold dispatch_event
    simp only [ht, if_pos hb]
    rw [dispatch_join_blocked_master SD_MAX_NODES check_join _ e _ m z hm1 hm hmem1 hback]
    rw [hsender, hdata]
    simp only [Int.add_sub_cancel, List.append_assoc, List.singleton_append]
    rfl
  refine ⟨_, hrun.trans (ite_apply _ _ _ _), ?_, ?_, ?_, ?_, rfl, rfl, rfl, rfl, rfl⟩
  · exact queue_get_set_self s _ _ e _ hentry rfl
  · intro pos hp
    exact queue_get_set_ne s _ _ _ _ hpos rfl hp
  · exact find_map_set _ _ z _ hmember
  · intro name hn
    exact find_map_set_ne _ _ _ _ hn

theorem C2_master_approves_blocked_join_witness :
    (join_pending.efd ≠ 0 ∧ join_pending.nr_zk_levents = 0 ∧
      is_master 4 join_pending join_pending.this_node = some 0 ∧
      queue_get join_pending join_pending.queue_pos = some joinB_blocked ∧
      member_get join_pending 2 = some { nodeB with joined := 0 }) ∧
    ∃ s1 : State,
      zk_dispatch 4 (fun _ _ => CJ_RES_SUCCESS) event0 join_pending = Res.ret 0 s1 ∧
      queue_get s1 0 =
        some { joinB_blocked with blocked := 0, sender := nodeB } ∧
      member_get s1 2 = some nodeB ∧ s1.queue_pos = 0 ∧ view s1 = [nodeA] := by
  refine ⟨by decide, ?_⟩
  obtain ⟨s1, h1, h2, _, h4, _, h6, _, _, h9, _⟩ :=
    C2_master_approves_blocked_join 4 (fun _ _ => CJ_RES_SUCCESS) event0 joinB_blocked
      join_pending 0 { nodeB with joined := 0 }
      (by decide) (by decide) (by decide) (by decide) (by decide) (by decide) (by decide)
      (by decide) (by decide) (by decide) (by decide)
  exact ⟨s1, h1, h2, h4, h6, h9⟩

theorem take_set_succ {α : Type} (l : List α) (n : Nat) (x : α) (h : n < l.length) :
    (l.set n x).take (n + 1) = l.take n ++ [x] := by
  induction l generalizing n with
  | nil => simp at h
  | cons a t ih =>
    cases n with
    | zero => simp
    | succ k =>
      simp only [List.set_cons_succ, List.take_succ_cons, List.cons_append, List.cons.injEq,
        true_and]
      exact ih k (by simpa using h)

theorem dispatch_join_append_ok (ev : zk_event) (s : State)
    (h : s.nr_zk_nodes < s.zk_nodes.length) :
    dispatch_join_append ev s =
      .ret 0 { s with
        zk_nodes := s.zk_nodes.set s.nr_zk_nodes ev.sender,
        nr_zk_nodes := s.nr_zk_nodes + 1,
        trace := s.trace ++
          [Action.join_handler ev.sender.node ((view s ++ [ev.sender]).map fun z => z.node)
            (s.nr_zk_nodes + 1) ev.join_result ev.buf] } := by
  unfold dispatch_join_append array_set build_node_list
  rw [if_pos h]
  simp only []
  rw [if_pos (by rw [List.length_set]; omega), take_set_succ _ _ _ h]
  rfl

theorem dispatch_join_append_full (ev : zk_event) (s : State)
    (h : s.zk_nodes.length ≤ s.nr_zk_nodes) :
    dispatch_join_append ev s = .undefined := by
  unfold dispatch_join_append array_set
  rw [if_neg (by omega)]

/-- C3 (amended): with an empty leave ring, no blocking callback outstanding
and a free slot behind the view, a tick on an unblocked Join whose result is
not `MASTER_TRANSFER` returns, appends the sender to the view (length plus one,
earlier entries kept), advances the cursor by one, leaves the log as it is, and
calls `join_handler` once, with the sender's node, the nodes of the new view in
view order, the new length, the event's `join_result` and the payload buffer,
whose first `buf_len` bytes are the stored payload. -/
theorem C3_unblocked_join_delivered (SD_MAX_NODES : Nat)
    (check_join : sd_node → List Nat → cluster_join_result) (stack e : zk_event) (s : State)
    (htick : s.efd ≠ 0) (hring : s.nr_zk_levents = 0) (hnb : s.zk_notify_blocked = 0)
    (hentry : queue_get s s.queue_pos = some e)
    (hjoin : e.type = EVENT_JOIN) (hunblocked : e.blocked = 0)
    (hres : e.join_result ≠ CJ_RES_MASTER_TRANSFER)
    (hlen : e.buf.length = e.buf_len) (hmax : e.buf_len ≤ MAX_EVENT_BUF_SIZE)
    (hroom : s.nr_zk_nodes < s.zk_nodes.length) :
    ∃ s1 : State,
      zk_dispatch SD_MAX_NODES check_join stack s = Res.ret 0 s1 ∧
      view s1 = view s ++ [e.sender] ∧
      s1.nr_zk_nodes = s.nr_zk_nodes + 1 ∧
      s1.queue_pos = s.queue_pos + 1 ∧
      s1.queue = s.queue ∧
      (zk_get_event e stack).buf.take e.buf_len = e.buf ∧
      s1.trace = s.trace ++
        [Action.join_handler e.sender.node ((view s ++ [e.sender]).map fun z => z.node)
          (s.nr_zk_nodes + 1) e.join_result (zk_get_event e stack).buf] := by
  have hne : e.type ≠ EVENT_LEAVE := by rw [hjoin]; decide
  have ht : (zk_get_event e stack).type = EVENT_JOIN := hjoin
  have hb : ¬ (zk_get_event e stack).blocked ≠ 0 := by simpa using hunblocked
  have hr : ¬ (zk_get_event e stack).join_result = CJ_RES_MASTER_TRANSFER := hres
  have hview : ∀ t : State, t.zk_nodes = s.zk_nodes → t.nr_zk_nodes = s.nr_zk_nodes →
      view { t with zk_nodes := t.zk_nodes.set t.nr_zk_nodes e.sender,
                    nr_zk_nodes := t.nr_zk_nodes + 1 } = view s ++ [e.sender] := by
    intro t h1 h2
    unfold view
    simp only [h1, h2]
    exact take_set_succ _ _ _ hroom
  rw [zk_dispatch_tick _ _ _ _ htick hnb,
    zk_queue_pop_log _ _ e { s with efd := 0 } hring hentry,
    pop_log_unblocked _ _ _ hunblocked hne]
  simp only [Res.bind]
  rw [if_neg (by decide)]
  unfold dispatch_event dispatch_join_unblocked
  simp only [ht, if_neg hb, if_neg hr]
  by_cases hnext : (queue_get { s with efd := 0 } (s.queue_pos + 1)).isSome = true
  · rw [if_pos hnext, dispatch_join_append_ok]
    · exact ⟨_, rfl, hview _ rfl rfl, rfl, rfl, rfl, take_zk_get_event e stack hlen hmax, rfl⟩
    · exact hroom
  · rw [if_neg hnext, dispatch_join_append_ok]
    · exact ⟨_, rfl, hview _ rfl rfl, rfl, rfl, rfl, take_zk_get_event e stack hlen hmax, rfl⟩
    · exact hroom

theorem C3_unblocked_join_delivered_witness :
    (join_approved.efd ≠ 0 ∧ join_approved.nr_zk_levents = 0 ∧
      join_approved.zk_notify_blocked = 0 ∧
      queue_get join_approved join_approved.queue_pos = some joinB_approved ∧
      view join_approved = [nodeA]) ∧
    ∃ s1 : State,
      zk_dispatch 4 (fun _ _ => CJ_RES_SUCCESS) event0 join_approved = Res.ret 0 s1 ∧
      view s1 = [nodeA, nodeB] ∧ s1.queue_pos = 1 ∧
      s1.trace = [Action.join_handler nodeB.node [nodeA.node, nodeB.node] 2 CJ_RES_SUCCESS [7, 8]] := by
  refine ⟨by decide, ?_⟩
  obtain ⟨s1, h1, h2, _, h4, _, _, h7⟩ :=
    C3_unblocked_join_delivered 4 (fun _ _ => CJ_RES_SUCCESS) event0 joinB_approved
      join_approved (by decide) (by decide) (by decide) (by decide) (by decide) (by decide)
      (by decide) (by decide) (by decide) (by decide)
  exact ⟨s1, h1, h2, h4, h7⟩

/-- C3 (counterexample): the view fills the array (four members in four
slots), the ring is empty, nothing is blocked and the entry at the cursor is an
unblocked Join with an ordinary result; the tick stores the sender one slot
past `zk_nodes`, so no tick result with the sender appended exists. -/
theorem C3_full_view_counterexample :
    (join_full_view.efd ≠ 0 ∧ join_full_view.nr_zk_levents = 0 ∧
      join_full_view.zk_notify_blocked = 0 ∧
      queue_get join_full_view join_full_view.queue_pos =
        some { joinB_approved with sender := nodeE } ∧
      view join_full_view = [nodeA, nodeB, nodeC, nodeD]) ∧
    zk_dispatch 4 (fun _ _ => CJ_RES_SUCCESS) event0 join_full_view = Res.undefined ∧
    ¬ ∃ s1 : State,
      zk_dispatch 4 (fun _ _ => CJ_RES_SUCCESS) event0 join_full_view = Res.ret 0 s1 ∧
      view s1 = view join_full_view ++ [nodeE] := by
  have h : zk_dispatch 4 (fun _ _ => CJ_RES_SUCCESS) event0 join_full_view = Res.undefined := by
    decide
  refine ⟨by decide, h, ?_⟩
  rintro ⟨s1, h1, _⟩
  rw [h] at h1
  cases h1

/-! ## The view under a Leave -/

theorem node_cmp_eq_zero (a b : sd_node) : node_cmp a b = 0 ↔ a = b := by
  rcases a with ⟨x⟩
  rcases b with ⟨y⟩
  unfold node_cmp
  simp only [sd_node.mk.injEq]
  constructor
  · intro h
    split at h
    · cases h
    · split at h
      · cases h
      · omega
  · rintro rfl
    simp

theorem getElem?_append_cons {α : Type} (pre t : List α) (x : α) :
    (pre ++ x :: t)[pre.length]? = some x := by
  rw [List.getElem?_append_right (Nat.le_refl _)]
  simp

theorem find_node_from_absent (z : zk_node) (l rest : List zk_node) :
    ∀ pre : List zk_node, (∀ x ∈ l, x.node ≠ z.node) →
      find_node_from (pre ++ (l ++ rest)) z l.length pre.length = some none := by
  induction l with
  | nil => intro pre _; rfl
  | cons x t ih =>
    intro pre h
    have hx : ¬ node_cmp z.node x.node = 0 := by
      rw [node_cmp_eq_zero]
      exact fun e => h x (List.mem_cons_self _ _) e.symm
    rw [List.length_cons, find_node_from, List.cons_append, getElem?_append_cons]
    simp only [if_neg hx]
    have := ih (pre ++ [x]) (fun y hy => h y (List.mem_cons_of_mem _ hy))
    simpa using this

theorem find_node_from_present (z a : zk_node) (l1 l2 rest : List zk_node)
    (ha : a.node = z.node) :
    ∀ pre : List zk_node, (∀ x ∈ l1, x.node ≠ z.node) →
      find_node_from (pre ++ (l1 ++ a :: (l2 ++ rest))) z (l1.length + 1 + l2.length)
        pre.length = some (some (pre.length + l1.length)) := by
  induction l1 with
  | nil =>
    intro pre _
    have hz : node_cmp z.node a.node = 0 := (node_cmp_eq_zero _ _).2 ha.symm
    rw [show ([] : List zk_node).length + 1 + l2.length = l2.length + 1 by simp; omega,
      find_node_from, List.nil_append, getElem?_append_cons]
    simp [hz]
  | cons x t ih =>
    intro pre h
    have hx : ¬ node_cmp z.node x.node = 0 := by
      rw [node_cmp_eq_zero]
      exact fun e => h x (List.mem_cons_self _ _) e.symm
    rw [show (x :: t).length + 1 + l2.length = (t.length + 1 + l2.length) + 1 by
      simp; omega, find_node_from, List.cons_append, getElem?_append_cons]
    simp only [if_neg hx]
    have := ih (pre ++ [x]) (fun y hy => h y (List.mem_cons_of_mem _ hy))
    simp only [List.append_assoc, List.singleton_append, List.length_append, List.length_cons,
      List.length_nil, Nat.zero_add] at this
    rw [this, List.length_cons]
    congr 2
    omega

theorem memmove_erase {α : Type} (l1 l2 rest : List α) (a : α) :
    memmove (l1 ++ a :: (l2 ++ rest)) l1.length (l1.length + 1) l2.length =
      some (l1 ++ (l2 ++ (l1 ++ a :: (l2 ++ rest)).drop (l1.length + l2.length))) := by
  unfold memmove
  rw [if_pos (by simp; omega)]
  simp
theorem dispatch_leave_absent (ev : zk_event) (s : State)
    (hview : s.nr_zk_nodes ≤ s.zk_nodes.length)
    (h : ∀ x ∈ view s, x.node ≠ ev.sender.node) :
    dispatch_leave ev s = .ret 0 s := by
  have harr : s.zk_nodes = [] ++ (view s ++ s.zk_nodes.drop s.nr_zk_nodes) := by
    simp [view]
  have hnr : s.nr_zk_nodes = (view s).length := by
    simp [view]; omega
  have := find_node_from_absent ev.sender (view s) (s.zk_nodes.drop s.nr_zk_nodes) [] h
  rw [← harr, ← hnr, List.length_nil] at this
  unfold dispatch_leave find_node
  rw [this]

theorem dispatch_leave_present (ev : zk_event) (s : State) (l1 l2 : List zk_node) (a : zk_node)
    (hview : s.nr_zk_nodes ≤ s.zk_nodes.length)
    (hsplit : view s = l1 ++ a :: l2) (h1 : ∀ x ∈ l1, x.node ≠ ev.sender.node)
    (ha : a.node = ev.sender.node) :
    ∃ s1 : State, dispatch_leave ev s = .ret 0 s1 ∧ view s1 = l1 ++ l2 ∧
      s1.nr_zk_nodes = l1.length + l2.length ∧
      s1.trace = s.trace ++
        [Action.leave_handler ev.sender.node ((l1 ++ l2).map fun z => z.node)
          (l1.length + l2.length)] ∧
      s1.queue = s.queue ∧ s1.queue_pos = s.queue_pos ∧ s1.member = s.member := by
  have harr : s.zk_nodes = [] ++ (l1 ++ a :: (l2 ++ s.zk_nodes.drop s.nr_zk_nodes)) := by
    have : s.zk_nodes = view s ++ s.zk_nodes.drop s.nr_zk_nodes := by simp [view]
    rw [hsplit] at this
    simpa using this
  have hnr : s.nr_zk_nodes = l1.length + 1 + l2.length := by
    have : (view s).length = s.nr_zk_nodes := by simp [view]; omega
    rw [hsplit] at this
    simp at this
    omega
  have hfind := find_node_from_present ev.sender a l1 l2 (s.zk_nodes.drop s.nr_zk_nodes) ha [] h1
  rw [← harr, ← hnr, List.length_nil, Nat.zero_add] at hfind
  have hmove := memmove_erase l1 l2 (s.zk_nodes.drop s.nr_zk_nodes) a
  rw [List.nil_append] at harr
  rw [← harr] at hmove
  have hcnt : s.nr_zk_nodes - 1 - l1.length = l2.length := by omega
  unfold dispatch_leave find_node
  rw [hfind]
  simp only [hcnt, hmove]
  unfold build_node_list
  have hlen : s.nr_zk_nodes - 1 ≤
      (l1 ++ (l2 ++ List.drop (l1.length + l2.length) s.zk_nodes)).length := by
    simp; omega
  have htake : List.take (s.nr_zk_nodes - 1)
      (l1 ++ (l2 ++ List.drop (l1.length + l2.length) s.zk_nodes)) = l1 ++ l2 := by
    rw [← List.append_assoc, show s.nr_zk_nodes - 1 = (l1 ++ l2).length by simp; omega]
    exact List.take_left' rfl
  simp only [if_pos hlen, htake]
  refine ⟨_, rfl, htake, ?_, ?_, rfl, rfl, rfl⟩
  · show s.nr_zk_nodes - 1 = _
    omega
  · show s.trace ++ _ = _
    rw [show s.nr_zk_nodes - 1 = l1.length + l2.length by omega]

theorem pop_leave_keeps (ev lev : zk_event) (s : State) :
    (pop_leave ev lev s).zk_nodes = s.zk_nodes ∧
      (pop_leave ev lev s).nr_zk_nodes = s.nr_zk_nodes ∧
      (pop_leave ev lev s).trace = s.trace ∧
      (pop_leave ev lev s).queue = s.queue ∧
      (pop_leave ev lev s).member = s.member ∧
      (pop_leave ev lev s).zk_levents = s.zk_levents ∧
      (pop_leave ev lev s).nr_zk_levents = s.nr_zk_levents ∧
      (pop_leave ev lev s).zk_levent_head = (s.zk_levent_head + 1) % 2 ^ 32 ∧
      (pop_leave ev lev s).zk_levent_tail = s.zk_levent_tail ∧
      (pop_leave ev lev s).zk_notify_blocked = s.zk_notify_blocked ∧
      (pop_leave ev lev s).this_node = s.this_node ∧
      (pop_leave ev lev s).work_queued = s.work_queued := by
  unfold pop_leave
  split
  · simp only []
    split
    · split
      · simp [eventfd_write]
      · split <;> simp [eventfd_write]
    · simp [eventfd_write]
  · split <;> simp [eventfd_write]

theorem zk_queue_pop_leave (SD_MAX_NODES : Nat) (ev lev : zk_event) (s : State)
    (hring : s.nr_zk_levents ≠ 0) (hM : SD_MAX_NODES ≠ 0)
    (hhead : s.zk_levents[s.zk_levent_head % SD_MAX_NODES]? = some lev) :
    zk_queue_pop SD_MAX_NODES ev s =
      .ret (0, lev) (pop_leave ev lev { s with nr_zk_levents := s.nr_zk_levents - 1 }) := by
  unfold zk_queue_pop
  rw [if_pos hring, if_neg hM, hhead]

/-- C4: a tick that pops a Leave from the leave ring returns; when no member
of the view has the sender's identity the view and its length are unchanged and
no handler is called; otherwise the first member with that identity is removed,
the others keep their order, the length drops by one, and `leave_handler` is
called once with the sender's node and the nodes of the new view. -/
theorem C4_leave_dispatch (SD_MAX_NODES : Nat)
    (check_join : sd_node → List Nat → cluster_join_result) (stack lev : zk_event) (s : State)
    (htick : s.efd ≠ 0) (hnb : s.zk_notify_blocked = 0)
    (hring : s.nr_zk_levents ≠ 0) (hM : SD_MAX_NODES ≠ 0)
    (hhead : s.zk_levents[s.zk_levent_head % SD_MAX_NODES]? = some lev)
    (hleave : lev.type = EVENT_LEAVE)
    (hview : s.nr_zk_nodes ≤ s.zk_nodes.length) :
    ∃ s1 : State,
      zk_dispatch SD_MAX_NODES check_join stack s = Res.ret 0 s1 ∧
      view s1 = (view s).eraseP (fun x => decide (x.node = lev.sender.node)) ∧
      ((∀ x ∈ view s, x.node ≠ lev.sender.node) →
        view s1 = view s ∧ s1.nr_zk_nodes = s.nr_zk_nodes ∧ s1.trace = s.trace) ∧
      ((∃ x ∈ view s, x.node = lev.sender.node) →
        s1.nr_zk_nodes + 1 = s.nr_zk_nodes ∧ (view s1).length + 1 = (view s).length ∧
        s1.trace = s.trace ++
          [Action.leave_handler lev.sender.node ((view s1).map fun z => z.node)
            s1.nr_zk_nodes]) ∧
      (∀ l1 a l2, view s = l1 ++ a :: l2 → (∀ x ∈ l1, x.node ≠ lev.sender.node) →
        a.node = lev.sender.node → view s1 = l1 ++ l2) := by
  obtain ⟨k1, k2, k3, -⟩ :=
    pop_leave_keeps stack lev { s with efd := 0, nr_zk_levents := s.nr_zk_levents - 1 }
  have hvt : view (pop_leave stack lev
      { s with efd := 0, nr_zk_levents := s.nr_zk_levents - 1 }) = view s := by
    unfold view; rw [k1, k2]
  have hrun : zk_dispatch SD_MAX_NODES check_join stack s =
      dispatch_leave lev (pop_leave stack lev
        { s with efd := 0, nr_zk_levents := s.nr_zk_levents - 1 }) := by
    rw [zk_dispatch_tick _ _ _ _ htick hnb,
      zk_queue_pop_leave _ _ lev { s with efd := 0 } hring hM hhead]
    simp only [Res.bind]
    rw [if_neg (by decide)]
    unfold dispatch_event
    simp only [hleave]
  have hdecomp : ∀ l1 a l2, view s = l1 ++ a :: l2 → (∀ x ∈ l1, x.node ≠ lev.sender.node) →
      a.node = lev.sender.node →
      (view s).eraseP (fun x => decide (x.node = lev.sender.node)) = l1 ++ l2 := by
    intro l1 a l2 hs h1 ha
    rw [hs, List.eraseP_append_right _ (by simpa using h1),
      List.eraseP_cons_of_pos (by simpa using ha)]
  by_cases hex : ∃ x ∈ view s, x.node = lev.sender.node
  · obtain ⟨x, hx, hxn⟩ := hex
    obtain ⟨a, l1, l2, h1, ha, hsplit, herase⟩ :=
      @List.exists_of_eraseP _ (fun x : zk_node => decide (x.node = lev.sender.node)) _ _ hx
        (by simpa using hxn)
    have h1n : ∀ y ∈ l1, y.node ≠ lev.sender.node := by simpa using h1
    have han : a.node = lev.sender.node := by simpa using ha
    obtain ⟨s1, r1, r2, r3, r4, -⟩ := dispatch_leave_present lev
      (pop_leave stack lev { s with efd := 0, nr_zk_levents := s.nr_zk_levents - 1 })
      l1 l2 a (by rw [k1, k2]; exact hview) (hvt.trans hsplit) h1n han
    have hnr : s.nr_zk_nodes = l1.length + 1 + l2.length := by
      have : (view s).length = s.nr_zk_nodes := by simp [view]; omega
      rw [hsplit] at this
      simp at this
      omega
    refine ⟨s1, hrun.trans r1, by rw [r2, herase], ?_, ?_, ?_⟩
    · intro hno
      exact absurd hxn (hno x hx)
    · intro _
      refine ⟨by omega, by rw [r2, hsplit]; simp; omega, ?_⟩
      rw [r4, k3, r2, r3]
    · intro l1 a l2 hs h1 ha
      rw [r2, ← herase]
      exact hdecomp l1 a l2 hs h1 ha
  · have hno : ∀ x ∈ view s, x.node ≠ lev.sender.node := fun x hx hn => hex ⟨x, hx, hn⟩
    have r1 := dispatch_leave_absent lev
      (pop_leave stack lev { s with efd := 0, nr_zk_levents := s.nr_zk_levents - 1 })
      (by rw [k1, k2]; exact hview) (by rw [hvt]; exact hno)
    refine ⟨_, hrun.trans r1, ?_, ?_, ?_, ?_⟩
    · rw [hvt, List.eraseP_of_forall_not (by simpa using hno)]
    · intro _
      exact ⟨hvt, k2, k3⟩
    · intro h
      exact absurd h hex
    · intro l1 a l2 hs _ ha
      exact absurd ⟨a, by rw [hs]; simp, ha⟩ hex

theorem C4_leave_dispatch_witness :
    (leave_pending.efd ≠ 0 ∧ leave_pending.nr_zk_levents ≠ 0 ∧
      leave_pending.zk_levents[leave_pending.zk_levent_head % 4]? = some leaveB ∧
      view leave_pending = [nodeA, nodeB, nodeC]) ∧
    ∃ s1 : State,
      zk_dispatch 4 (fun _ _ => CJ_RES_SUCCESS) event0 leave_pending = Res.ret 0 s1 ∧
      view s1 = [nodeA, nodeC] ∧ s1.nr_zk_nodes = 2 ∧
      s1.trace = [Action.leave_handler nodeB.node [nodeA.node, nodeC.node] 2] := by
  refine ⟨by decide, ?_⟩
  obtain ⟨s1, h1, h2, _, h4, _⟩ :=
    C4_leave_dispatch 4 (fun _ _ => CJ_RES_SUCCESS) event0 leaveB leave_pending
      (by decide) (by decide) (by decide) (by decide) (by decide) (by decide) (by decide)
  have hv : view s1 = [nodeA, nodeC] := h2.trans (by decide)
  obtain ⟨h5, _, h7⟩ := h4 ⟨nodeB, by decide, rfl⟩
  have hn : s1.nr_zk_nodes = 2 := by
    have : s1.nr_zk_nodes + 1 = 3 := h5
    omega
  refine ⟨s1, h1, hv, hn, ?_⟩
  rw [h7, hv, hn]
  rfl

/-! ## Serialization -/

theorem pop_log_ret (ev d : zk_event) (s : State) (ht : d.type ≠ EVENT_LEAVE) :
    ∃ t : State, pop_log ev d s = .ret (0, zk_get_event d ev) t ∧
      t.queue_pos = s.queue_pos + 1 ∧ t.queue = s.queue := by
  by_cases hb : d.blocked = 0
  · rw [pop_log_unblocked _ _ _ hb ht]
    split
    · exact ⟨_, rfl, rfl, rfl⟩
    · exact ⟨_, rfl, rfl, rfl⟩
  · rw [pop_log_blocked _ _ _ hb ht]
    exact ⟨_, rfl, rfl, rfl⟩

theorem zk_get_event_agrees (e stack : zk_event) (hmax : e.buf_len ≤ MAX_EVENT_BUF_SIZE)
    (hfit : e.buf_len ≤ e.buf.length) :
    event_agrees (zk_get_event (event_data e) stack) e := by
  refine ⟨rfl, rfl, rfl, rfl, rfl, rfl, rfl, ?_⟩
  have h1 : (event_data e).buf.length = (event_data e).buf_len := by
    simp [event_data]; omega
  exact take_zk_get_event (event_data e) stack h1 hmax

/-- C6: an event that is not a Leave, with `buf_len` at most 64 KiB and inside
its buffer, is read back as written.  After an append with `zk_queue_push`
(by a bootstrapped process, or the bootstrapping Ignore) and after an in-place
rewrite with `zk_queue_push_back` (an entry exists before the cursor), every
`zk_queue_pop` whose cursor is at the written position, with an empty leave
ring and the entry still as written, returns 0 with an event that agrees with
the written one in kind, sender record, `join_result`, `block_cb`, `blocked`,
`callbacked`, `buf_len` and the first `buf_len` payload bytes. -/
theorem C6_event_roundtrip (SD_MAX_NODES : Nat) (e : zk_event) (s : State)
    (hleave : e.type ≠ EVENT_LEAVE) (hmax : e.buf_len ≤ MAX_EVENT_BUF_SIZE)
    (hfit : e.buf_len ≤ e.buf.length) :
    ((0 ≤ s.queue_pos ∨ e.type = EVENT_IGNORE) →
      ∃ s1 : State, zk_queue_push e s = Res.ret (s.queue.length : Int) s1 ∧
        (∀ stack : zk_event, s1.nr_zk_levents = 0 → s1.queue_pos = (s.queue.length : Int) →
          ∃ (ev : zk_event) (t1 : State),
            zk_queue_pop SD_MAX_NODES stack s1 = Res.ret (0, ev) t1 ∧ event_agrees ev e) ∧
        ∀ (t : State) (stack : zk_event), t.nr_zk_levents = 0 →
          t.queue_pos = (s.queue.length : Int) →
          queue_get t t.queue_pos = queue_get s1 (s.queue.length : Int) →
          ∃ (ev : zk_event) (t1 : State),
            zk_queue_pop SD_MAX_NODES stack t = Res.ret (0, ev) t1 ∧ event_agrees ev e) ∧
    ((∃ d, queue_get s (s.queue_pos - 1) = some d) →
      ∃ s1 : State, zk_queue_push_back (some e) s = Res.ret 0 s1 ∧
        s1.queue_pos = s.queue_pos - 1 ∧
        (∀ stack : zk_event, s1.nr_zk_levents = 0 →
          ∃ (ev : zk_event) (t1 : State),
            zk_queue_pop SD_MAX_NODES stack s1 = Res.ret (0, ev) t1 ∧ event_agrees ev e) ∧
        ∀ (t : State) (stack : zk_event), t.nr_zk_levents = 0 →
          t.queue_pos = s.queue_pos - 1 →
          queue_get t t.queue_pos = queue_get s1 (s.queue_pos - 1) →
          ∃ (ev : zk_event) (t1 : State),
            zk_queue_pop SD_MAX_NODES stack t = Res.ret (0, ev) t1 ∧ event_agrees ev e) := by
  have hne : (event_data e).type ≠ EVENT_LEAVE := hleave
  have hread : ∀ (t : State) (stack : zk_event), t.nr_zk_levents = 0 →
      queue_get t t.queue_pos = some (event_data e) →
      ∃ (ev : zk_event) (t1 : State),
        zk_queue_pop SD_MAX_NODES stack t = Res.ret (0, ev) t1 ∧ event_agrees ev e := by
    intro t stack hring hq
    obtain ⟨t1, h1, -⟩ := pop_log_ret stack (event_data e) t hne
    exact ⟨_, t1, (zk_queue_pop_log _ _ _ _ hring hq).trans h1,
      zk_get_event_agrees e stack hmax hfit⟩
  have hnew : ∀ q : List zk_event, (q ++ [event_data e])[(q.length : Int).toNat]? =
      some (event_data e) := by
    intro q
    simp
  have hpush : ∀ s1 : State, s1.queue = s.queue ++ [event_data e] →
      queue_get s1 (s.queue.length : Int) = some (event_data e) := by
    intro s1 h1
    unfold queue_get
    rw [if_pos (by omega), h1]
    exact hnew s.queue
  have hboth : ∀ s1 : State, s1.queue = s.queue ++ [event_data e] →
      (∀ stack : zk_event, s1.nr_zk_levents = 0 → s1.queue_pos = (s.queue.length : Int) →
        ∃ (ev : zk_event) (t1 : State),
          zk_queue_pop SD_MAX_NODES stack s1 = Res.ret (0, ev) t1 ∧ event_agrees ev e) ∧
      ∀ (t : State) (stack : zk_event), t.nr_zk_levents = 0 →
        t.queue_pos = (s.queue.length : Int) →
        queue_get t t.queue_pos = queue_get s1 (s.queue.length : Int) →
        ∃ (ev : zk_event) (t1 : State),
          zk_queue_pop SD_MAX_NODES stack t = Res.ret (0, ev) t1 ∧ event_agrees ev e := by
    intro s1 h1
    constructor
    · intro stack hring hpos
      exact hread s1 stack hring (by rw [hpos]; exact hpush s1 h1)
    · intro t stack hring _ hq
      exact hread t stack hring (hq.trans (hpush s1 h1))
  constructor
  · intro hcur
    unfold zk_queue_push
    simp only []
    by_cases hneg : s.queue_pos < 0
    · have hig : e.type = EVENT_IGNORE := by
        rcases hcur with h | h
        · omega
        · exact h
      rw [if_pos hneg, if_pos hig]
      exact ⟨_, rfl, hboth _ rfl⟩
    · rw [if_neg hneg]
      exact ⟨_, rfl, hboth _ rfl⟩
  · rintro ⟨d, hd⟩
    rw [zk_queue_push_back_some e d s hd]
    have hself := queue_get_set_self s
      { s with queue_pos := s.queue_pos - 1,
               queue := s.queue.set (s.queue_pos - 1).toNat (event_data e),
               trace := s.trace ++ [Action.log_set (s.queue_pos - 1) (event_data e)] }
      (s.queue_pos - 1) d (event_data e) hd rfl
    refine ⟨_, rfl, rfl, ?_, ?_⟩
    · intro stack hring
      exact hread _ stack hring hself
    · intro t stack hring hpos hq
      exact hread t stack hring (hq.trans hself)

theorem C6_event_roundtrip_witness :
    (notifyA.type ≠ EVENT_LEAVE ∧ notifyA.buf_len ≤ MAX_EVENT_BUF_SIZE ∧
      notifyA.buf_len ≤ notifyA.buf.length ∧ 0 ≤ cursor_after_entry.queue_pos ∧
      queue_get cursor_after_entry (cursor_after_entry.queue_pos - 1) = some event0) ∧
    (∃ (s1 : State) (ev : zk_event) (t1 : State),
      zk_queue_push notifyA cursor_after_entry = Res.ret 1 s1 ∧
      zk_queue_pop 4 event0 s1 = Res.ret (0, ev) t1 ∧ event_agrees ev notifyA) ∧
    ∃ (s1 : State) (ev : zk_event) (t1 : State),
      zk_queue_push_back (some notifyA) cursor_after_entry = Res.ret 0 s1 ∧
      zk_queue_pop 4 event0 s1 = Res.ret (0, ev) t1 ∧ event_agrees ev notifyA := by
  obtain ⟨hpush, hback⟩ := C6_event_roundtrip 4 notifyA cursor_after_entry
    (by decide) (by decide) (by decide)
  refine ⟨by decide, ?_, ?_⟩
  · obtain ⟨s1, h1, h2, -⟩ := hpush (Or.inl (by decide))
    have hq : s1.queue_pos = 1 ∧ s1.nr_zk_levents = 0 := by
      have h3 : zk_queue_push notifyA cursor_after_entry =
          Res.ret 1 { cursor_after_entry with
            queue := [event0, event_data notifyA],
            trace := [Action.log_create 1 (event_data notifyA)] } := by decide
      have h4 := h1.symm.trans h3
      injection h4 with _ h5
      rw [h5]
      exact ⟨rfl, rfl⟩
    obtain ⟨ev, t1, h5, h6⟩ := h2 event0 hq.2 hq.1
    exact ⟨s1, ev, t1, h1, h5, h6⟩
  · obtain ⟨s1, h1, h2, h3, -⟩ := hback ⟨event0, by decide⟩
    have hr : s1.nr_zk_levents = 0 := by
      have h4 : zk_queue_push_back (some notifyA) cursor_after_entry =
          Res.ret 0 { cursor_after_entry with
            queue_pos := 0, queue := [event_data notifyA],
            trace := [Action.log_set 0 (event_data notifyA)] } := by decide
      have h5 := h1.symm.trans h4
      injection h5 with _ h6
      rw [h6]
      rfl
    obtain ⟨ev, t1, h5, h6⟩ := h3 event0 hr
    exact ⟨s1, ev, t1, h1, h5, h6⟩

/-! ## The leave ring -/

theorem mod_mod_pow (M x : Nat) (hd : M ∣ 2 ^ 32) : x % 2 ^ 32 % M = x % M :=
  Nat.mod_mod_of_dvd x hd

theorem slot_ne (M a i n : Nat) (hin : i < n) (hn : n < M) : (a + i) % M ≠ (a + n) % M := by
  intro h
  have h1 : (a + i) ≡ (a + n) [MOD M] := h
  have h2 : M ∣ (a + n) - (a + i) := (Nat.modEq_iff_dvd' (by omega)).1 h1
  have h3 : M ≤ (a + n) - (a + i) := Nat.le_of_dvd (by omega) h2
  omega

theorem add_event_leave (SD_MAX_NODES : Nat) (stack : zk_event) (znode : zk_node) (s : State)
    (hok : ring_ok SD_MAX_NODES s) (hroom : s.nr_zk_levents < SD_MAX_NODES) :
    ∃ s1 : State,
      add_event SD_MAX_NODES stack EVENT_LEAVE znode none 0 none s = .ret 0 s1 ∧
      ring_ok SD_MAX_NODES s1 ∧
      pending SD_MAX_NODES s1 = pending SD_MAX_NODES s ++ [leave_event stack znode] ∧
      s1.nr_zk_levents = s.nr_zk_levents + 1 ∧
      s1.zk_levents =
        s.zk_levents.set (s.zk_levent_tail % SD_MAX_NODES) (leave_event stack znode) ∧
      s1.zk_levent_head = s.zk_levent_head ∧
      s1.queue = s.queue ∧ s1.queue_pos = s.queue_pos ∧ s1.zk_nodes = s.zk_nodes ∧
      s1.nr_zk_nodes = s.nr_zk_nodes ∧ s1.trace = s.trace := by
  obtain ⟨hM, hd, hlen, h0, hle, hh, ht⟩ := hok
  have hlt : s.zk_levent_tail % SD_MAX_NODES < s.zk_levents.length := by
    rw [hlen]; exact Nat.mod_lt _ (Nat.pos_of_ne_zero hM)
  have hn : (s.nr_zk_levents + 1).toNat = s.nr_zk_levents.toNat + 1 := by omega
  have hslot : s.zk_levent_tail % SD_MAX_NODES =
      (s.zk_levent_head + s.nr_zk_levents.toNat) % SD_MAX_NODES := by
    rw [ht, mod_mod_pow _ _ hd]
  unfold add_event
  simp only [if_neg hM, if_pos hlt]
  refine ⟨_, rfl, ⟨hM, hd, ?_, ?_, ?_, hh, ?_⟩, ?_, rfl, rfl, rfl, rfl, rfl, rfl, rfl, rfl⟩
  · simp [eventfd_write, hlen]
  · show 0 ≤ s.nr_zk_levents + 1
    omega
  · show s.nr_zk_levents + 1 ≤ SD_MAX_NODES
    omega
  · show (s.zk_levent_tail + 1) % 2 ^ 32 = (s.zk_levent_head + (s.nr_zk_levents + 1).toNat) % 2 ^ 32
    rw [hn, ht, ← Nat.add_assoc]
    exact Nat.mod_add_mod _ _ _
  · show List.map _ (List.range (s.nr_zk_levents + 1).toNat) = _
    rw [hn, List.range_succ, List.map_append]
    congr 1
    · apply List.map_congr_left
      intro i hi
      have hi' : i < s.nr_zk_levents.toNat := List.mem_range.1 hi
      have hne : s.zk_levent_tail % SD_MAX_NODES ≠ (s.zk_levent_head + i) % SD_MAX_NODES := by
        rw [hslot]
        exact (slot_ne SD_MAX_NODES s.zk_levent_head i s.nr_zk_levents.toNat hi'
          (by omega)).symm
      show (s.zk_levents.set (s.zk_levent_tail % SD_MAX_NODES) _).getD
        ((s.zk_levent_head + i) % SD_MAX_NODES) event0 =
        s.zk_levents.getD ((s.zk_levent_head + i) % SD_MAX_NODES) event0
      rw [List.getD_eq_getElem?_getD, List.getD_eq_getElem?_getD, List.getElem?_set_ne hne]
    · show [(s.zk_levents.set (s.zk_levent_tail % SD_MAX_NODES) _).getD
        ((s.zk_levent_head + s.nr_zk_levents.toNat) % SD_MAX_NODES) event0] = _
      rw [List.getD_eq_getElem?_getD, ← hslot, List.getElem?_set_self hlt]
      rfl

theorem zk_queue_pop_ring (SD_MAX_NODES : Nat) (ev : zk_event) (s : State)
    (hok : ring_ok SD_MAX_NODES s) (hne : s.nr_zk_levents ≠ 0) :
    ∃ (lev : zk_event) (s1 : State),
      zk_queue_pop SD_MAX_NODES ev s = .ret (0, lev) s1 ∧
      ring_ok SD_MAX_NODES s1 ∧
      pending SD_MAX_NODES s = lev :: pending SD_MAX_NODES s1 ∧
      s1.nr_zk_levents = s.nr_zk_levents - 1 ∧
      s1.zk_levent_tail = s.zk_levent_tail ∧
      s1.queue = s.queue ∧ s1.zk_nodes = s.zk_nodes ∧ s1.nr_zk_nodes = s.nr_zk_nodes ∧
      s1.trace = s.trace ∧ s1.zk_notify_blocked = s.zk_notify_blocked ∧
      s1.work_queued = s.work_queued := by
  obtain ⟨hM, hd, hlen, h0, hle, hh, ht⟩ := hok
  have hlt : s.zk_levent_head % SD_MAX_NODES < s.zk_levents.length := by
    rw [hlen]; exact Nat.mod_lt _ (Nat.pos_of_ne_zero hM)
  have hhead : s.zk_levents[s.zk_levent_head % SD_MAX_NODES]? =
      some (s.zk_levents[s.zk_levent_head % SD_MAX_NODES]) := List.getElem?_eq_getElem hlt
  obtain ⟨k1, k2, k3, k4, -, k6, k7, k8, k9, k10, -, k12⟩ :=
    pop_leave_keeps ev (s.zk_levents[s.zk_levent_head % SD_MAX_NODES])
      { s with nr_zk_levents := s.nr_zk_levents - 1 }
  have hn : s.nr_zk_levents.toNat = (s.nr_zk_levents - 1).toNat + 1 := by omega
  refine ⟨_, _, zk_queue_pop_leave _ _ _ _ hne hM hhead, ⟨hM, hd, ?_, ?_, ?_, ?_, ?_⟩, ?_,
    k7, k9, k4, k1, k2, k3, k10, k12⟩
  · rw [k6]; exact hlen
  · rw [k7]; show 0 ≤ s.nr_zk_levents - 1; omega
  · rw [k7]; show s.nr_zk_levents - 1 ≤ SD_MAX_NODES; omega
  · rw [k8]; exact Nat.mod_lt _ (by decide)
  · rw [k9, k8, k7]
    show s.zk_levent_tail = ((s.zk_levent_head + 1) % 2 ^ 32 + (s.nr_zk_levents - 1).toNat) % 2 ^ 32
    rw [Nat.mod_add_mod, ht, hn]
    congr 1
    omega
  · unfold pending
    rw [k6, k7, k8]
    show List.map _ (List.range s.nr_zk_levents.toNat) =
      _ :: List.map _ (List.range (s.nr_zk_levents - 1).toNat)
    rw [hn, List.range_succ_eq_map, List.map_cons, List.map_map]
    congr 1
    · rw [List.getD_eq_getElem?_getD, Nat.add_zero, hhead]
      rfl
    · apply List.map_congr_left
      intro i _
      show s.zk_levents.getD ((s.zk_levent_head + (i + 1)) % SD_MAX_NODES) event0 =
        s.zk_levents.getD (((s.zk_levent_head + 1) % 2 ^ 32 + i) % SD_MAX_NODES) event0
      have : ((s.zk_levent_head + 1) % 2 ^ 32 + i) % SD_MAX_NODES =
          (s.zk_levent_head + (i + 1)) % SD_MAX_NODES := by
        rw [Nat.add_mod, mod_mod_pow _ _ hd, ← Nat.add_mod]
        congr 1
        omega
      rw [this]

theorem enqueue_leaves_ring (SD_MAX_NODES : Nat) (calls : List (zk_event × zk_node)) :
    ∀ s : State, ring_ok SD_MAX_NODES s → s.nr_zk_levents + calls.length ≤ SD_MAX_NODES →
      ∃ s1 : State,
        enqueue_leaves SD_MAX_NODES calls s = .ret () s1 ∧ ring_ok SD_MAX_NODES s1 ∧
        pending SD_MAX_NODES s1 =
          pending SD_MAX_NODES s ++ calls.map (fun c => leave_event c.1 c.2) ∧
        s1.nr_zk_levents = s.nr_zk_levents + calls.length := by
  induction calls with
  | nil =>
    intro s hok _
    exact ⟨s, rfl, hok, by simp, by simp⟩
  | cons c cs ih =>
    intro s hok hroom
    simp only [List.length_cons, Nat.cast_add, Nat.cast_one] at hroom
    obtain ⟨s1, h1, h2, h3, h4, -⟩ := add_event_leave SD_MAX_NODES c.1 c.2 s hok (by omega)
    obtain ⟨s2, g1, g2, g3, g4⟩ := ih s1 h2 (by rw [h4]; omega)
    refine ⟨s2, ?_, g2, ?_, ?_⟩
    · unfold enqueue_leaves
      rw [h1]
      exact g1
    · rw [g3, h3]
      simp
    · rw [g4, h4]
      simp only [List.length_cons, Nat.cast_add, Nat.cast_one]
      omega

theorem pop_all_ring (SD_MAX_NODES : Nat) (bufs : List zk_event) :
    ∀ s : State, ring_ok SD_MAX_NODES s → (bufs.length : Int) ≤ s.nr_zk_levents →
      ∃ s2 : State,
        pop_all SD_MAX_NODES bufs s =
          .ret (((pending SD_MAX_NODES s).take bufs.length).map fun e => ((0 : Int), e)) s2 ∧
        ring_ok SD_MAX_NODES s2 ∧
        pending SD_MAX_NODES s2 = (pending SD_MAX_NODES s).drop bufs.length ∧
        s2.nr_zk_levents = s.nr_zk_levents - bufs.length := by
  induction bufs with
  | nil =>
    intro s hok _
    exact ⟨s, rfl, hok, rfl, by simp⟩
  | cons st sts ih =>
    intro s hok hn
    simp only [List.length_cons, Nat.cast_add, Nat.cast_one] at hn
    obtain ⟨lev, s1, h1, h2, h3, h4, -⟩ := zk_queue_pop_ring SD_MAX_NODES st s hok (by omega)
    obtain ⟨s2, g1, g2, g3, g4⟩ := ih s1 h2 (by rw [h4]; omega)
    refine ⟨s2, ?_, g2, ?_, ?_⟩
    · unfold pop_all
      rw [h1]
      simp only [Res.bind]
      rw [g1, h3]
      rfl
    · rw [g3, h3]
      rfl
    · rw [g4, h4]
      simp only [List.length_cons, Nat.cast_add, Nat.cast_one]
      omega

theorem pending_length (SD_MAX_NODES : Nat) (s : State) :
    (pending SD_MAX_NODES s).length = s.nr_zk_levents.toNat := by
  simp [pending]

/-- C9: `k` Leave events (`1 ≤ k ≤ SD_MAX_NODES`) enqueued with `add_event` into
an empty, consistent leave ring are returned by the next `k` calls of
`zk_queue_pop`, each with return code 0, in the order they were enqueued, with
the kind and the sender they were given, whatever the log holds and wherever
the cursor is; afterwards the ring is empty again. -/
theorem C9_leave_fifo (SD_MAX_NODES : Nat) (calls : List (zk_event × zk_node))
    (bufs : List zk_event) (log : List zk_event) (cursor : Int) (s : State)
    (hk1 : 1 ≤ calls.length) (hk : calls.length ≤ SD_MAX_NODES)
    (hdvd : SD_MAX_NODES ∣ 2 ^ 32) (hslots : s.zk_levents.length = SD_MAX_NODES)
    (hempty : s.nr_zk_levents = 0) (hhead : s.zk_levent_head = s.zk_levent_tail)
    (hrange : s.zk_levent_head < 2 ^ 32) (hpops : bufs.length = calls.length) :
    ∃ s1 s2 : State,
      enqueue_leaves SD_MAX_NODES calls s = Res.ret () s1 ∧
      pop_all SD_MAX_NODES bufs { s1 with queue := log, queue_pos := cursor } =
        Res.ret (calls.map fun c => ((0 : Int), leave_event c.1 c.2)) s2 ∧
      (∀ c ∈ calls, (leave_event c.1 c.2).type = EVENT_LEAVE ∧
        (leave_event c.1 c.2).sender = c.2) ∧
      s2.nr_zk_levents = 0 ∧ s2.zk_levent_head = s2.zk_levent_tail := by
  have hok : ring_ok SD_MAX_NODES s := by
    refine ⟨by omega, hdvd, hslots, by omega, by omega, hrange, ?_⟩
    rw [hempty, ← hhead]
    simp only [Int.toNat_zero, Nat.add_zero]
    exact (Nat.mod_eq_of_lt hrange).symm
  obtain ⟨s1, h1, h2, h3, h4⟩ := enqueue_leaves_ring SD_MAX_NODES calls s hok (by omega)
  have hp0 : pending SD_MAX_NODES s = [] := by
    unfold pending
    rw [hempty]
    rfl
  have hok1 : ring_ok SD_MAX_NODES { s1 with queue := log, queue_pos := cursor } := h2
  have hpend : pending SD_MAX_NODES { s1 with queue := log, queue_pos := cursor } =
      calls.map (fun c => leave_event c.1 c.2) := by
    rw [← List.nil_append (calls.map _), ← hp0, ← h3]
    rfl
  have hnr : ({ s1 with queue := log, queue_pos := cursor } : State).nr_zk_levents =
      (bufs.length : Int) := by
    show s1.nr_zk_levents = _
    rw [h4, hempty, hpops]
    simp
  obtain ⟨s2, g1, g2, -, g3⟩ := pop_all_ring SD_MAX_NODES bufs
    { s1 with queue := log, queue_pos := cursor } hok1 (by rw [hnr])
  rw [hnr, Int.sub_self] at g3
  refine ⟨s1, s2, h1, ?_, fun c _ => ⟨rfl, rfl⟩, g3, ?_⟩
  · rw [g1, hpend, List.take_of_length_le (by simp [hpops]), List.map_map]
    rfl
  · obtain ⟨-, -, -, -, -, hh, ht⟩ := g2
    rw [ht, g3]
    simp only [Int.toNat_zero, Nat.add_zero]
    exact (Nat.mod_eq_of_lt hh).symm

theorem C9_leave_fifo_witness :
    ((4 : Nat) ∣ 2 ^ 32 ∧ (state0 nodeA).zk_levents.length = 4 ∧
      (state0 nodeA).nr_zk_levents = 0 ∧
      (state0 nodeA).zk_levent_head = (state0 nodeA).zk_levent_tail) ∧
    ∃ s1 s2 : State,
      enqueue_leaves 4 [(event0, nodeB), (event0, nodeC)] (state0 nodeA) = Res.ret () s1 ∧
      pop_all 4 [event0, event0] { s1 with queue := [joinB_blocked], queue_pos := 0 } =
        Res.ret [(0, leave_event event0 nodeB), (0, leave_event event0 nodeC)] s2 ∧
      s2.nr_zk_levents = 0 ∧ s2.zk_levent_head = s2.zk_levent_tail := by
  have hd : (4 : Nat) ∣ 2 ^ 32 := by norm_num
  refine ⟨⟨hd, by decide⟩, ?_⟩
  obtain ⟨s1, s2, h1, h2, _, h4, h5⟩ :=
    C9_leave_fifo 4 [(event0, nodeB), (event0, nodeC)] [event0, event0] [joinB_blocked] 0
      (state0 nodeA) (by decide) (by decide) hd (by decide) (by decide) (by decide)
      (by decide) (by decide)
  exact ⟨s1, s2, h1, h2, h4, h5⟩

/-- C10 (amended): in a consistent ring that holds fewer than `SD_MAX_NODES`
pending Leave events, also one slot short of full, `add_event(EVENT_LEAVE, ...)`
changes no slot that holds a pending event: the pending events are the old ones
followed by the new one, and the next pops return every old pending event
unchanged and in order. -/
theorem C10_no_overwrite_below_capacity (SD_MAX_NODES : Nat) (stack : zk_event)
    (znode : zk_node) (bufs : List zk_event) (s : State)
    (hok : ring_ok SD_MAX_NODES s) (hroom : s.nr_zk_levents < SD_MAX_NODES)
    (hpops : bufs.length = s.nr_zk_levents.toNat) :
    ∃ s1 : State,
      add_event SD_MAX_NODES stack EVENT_LEAVE znode none 0 none s = Res.ret 0 s1 ∧
      s1.zk_levent_head = s.zk_levent_head ∧
      (∀ i, i < s.nr_zk_levents.toNat →
        s1.zk_levents[(s.zk_levent_head + i) % SD_MAX_NODES]? =
          s.zk_levents[(s.zk_levent_head + i) % SD_MAX_NODES]?) ∧
      pending SD_MAX_NODES s1 = pending SD_MAX_NODES s ++ [leave_event stack znode] ∧
      ∃ s2 : State,
        pop_all SD_MAX_NODES bufs s1 =
          Res.ret ((pending SD_MAX_NODES s).map fun e => ((0 : Int), e)) s2 := by
  obtain ⟨s1, h1, h2, h3, h4, h5, h6, -⟩ := add_event_leave SD_MAX_NODES stack znode s hok hroom
  obtain ⟨hM, hd, hlen, h0, hle, hh, ht⟩ := hok
  obtain ⟨s2, g1, -⟩ := pop_all_ring SD_MAX_NODES bufs s1 h2 (by rw [h4, hpops]; omega)
  refine ⟨s1, h1, h6, ?_, h3, s2, ?_⟩
  · intro i hi
    have hslot : s.zk_levent_tail % SD_MAX_NODES =
        (s.zk_levent_head + s.nr_zk_levents.toNat) % SD_MAX_NODES := by
      rw [ht, mod_mod_pow _ _ hd]
    rw [h5, List.getElem?_set_ne]
    rw [hslot]
    exact (slot_ne SD_MAX_NODES s.zk_levent_head i s.nr_zk_levents.toNat hi (by omega)).symm
  · rw [g1, h3, hpops, ← pending_length SD_MAX_NODES s, List.take_left']
    rfl

theorem C10_no_overwrite_below_capacity_witness :
    (ring_three.nr_zk_levents < 4 ∧
      pending 4 ring_three =
        [leave_event event0 nodeA, leave_event event0 nodeB, leave_event event0 nodeC]) ∧
    ∃ s1 : State,
      add_event 4 event0 EVENT_LEAVE nodeD none 0 none ring_three = Res.ret 0 s1 ∧
      pending 4 s1 = pending 4 ring_three ++ [leave_event event0 nodeD] ∧
      ∃ s2 : State,
        pop_all 4 [event0, event0, event0] s1 =
          Res.ret ((pending 4 ring_three).map fun e => ((0 : Int), e)) s2 := by
  refine ⟨by decide, ?_⟩
  obtain ⟨s1, h1, _, _, h4, h5⟩ :=
    C10_no_overwrite_below_capacity 4 event0 nodeD [event0, event0, event0] ring_three
      ⟨by decide, by norm_num, by decide, by decide, by decide, by decide, by decide⟩
      (by decide) (by decide)
  exact ⟨s1, h1, h4, h5⟩

/-- C10 (counterexample): the ring of four slots holds four pending Leave
events, the oldest in slot 0.  One more `add_event(EVENT_LEAVE, ...)` stores the
new event in slot 0, over the pending Leave of `A`, and the next pop returns
the new event: the Leave of `A` is lost. -/
theorem C10_full_ring_counterexample :
    ring_full.nr_zk_levents = 4 ∧
    pending 4 ring_full =
      [leave_event event0 nodeA, leave_event event0 nodeB, leave_event event0 nodeC,
        leave_event event0 nodeD] ∧
    add_event 4 event0 EVENT_LEAVE nodeE none 0 none ring_full =
      Res.ret 0 { ring_full with
        zk_levents := [leave_event event0 nodeE, leave_event event0 nodeB,
          leave_event event0 nodeC, leave_event event0 nodeD],
        nr_zk_levents := 5, zk_levent_tail := 5, efd := 2 } ∧
    ∃ s2 : State,
      zk_queue_pop 4 event0 { ring_full with
        zk_levents := [leave_event event0 nodeE, leave_event event0 nodeB,
          leave_event event0 nodeC, leave_event event0 nodeD],
        nr_zk_levents := 5, zk_levent_tail := 5, efd := 2 } =
        Res.ret (0, leave_event event0 nodeE) s2 := by
  refine ⟨by decide, by decide, by decide, ?_⟩
  exact ⟨_, zk_queue_pop_leave 4 event0 (leave_event event0 nodeE) _ (by decide) (by decide)
    (by decide)⟩

/-! ## The bootstrap sort -/

theorem set_cons_perm {α : Type} (d x : α) :
    ∀ (t : List α) (i : Nat), i < t.length → (t.getD i d :: t.set i x).Perm (x :: t) := by
  intro t
  induction t with
  | nil => intro i h; simp at h
  | cons y t ih =>
    intro i h
    cases i with
    | zero => exact List.Perm.swap _ _ _
    | succ j =>
      have h1 := ih j (by simpa using h)
      rw [List.set_cons_succ, List.getD_cons_succ]
      exact ((List.Perm.swap _ _ _).trans (List.Perm.cons y h1)).trans (List.Perm.swap _ _ _)

theorem swap_perm {α : Type} (d : α) :
    ∀ (l : List α) (i k : Nat), k < i → i < l.length →
      ((l.set i (l.getD k d)).set k (l.getD i d)).Perm l := by
  intro l
  induction l with
  | nil => intro i k _ h; simp at h
  | cons x t ih =>
    intro i k hki hi
    cases i with
    | zero => omega
    | succ i1 =>
      cases k with
      | zero =>
        rw [List.set_cons_succ, List.set_cons_zero, List.getD_cons_succ, List.getD_cons_zero]
        exact set_cons_perm d x t i1 (by simpa using hi)
      | succ k1 =>
        rw [List.set_cons_succ, List.set_cons_succ, List.getD_cons_succ, List.getD_cons_succ]
        exact List.Perm.cons x (ih i1 k1 (by omega) (by simpa using hi))

theorem getD_take {α : Type} (d : α) (l : List α) (n m : Nat) (h : m < n) :
    (l.take n).getD m d = l.getD m d := by
  rw [List.getD_eq_getElem?_getD, List.getD_eq_getElem?_getD, List.getElem?_take, if_pos h]

theorem take_succ_getD {α : Type} (d : α) (l : List α) (n : Nat) (h : n < l.length) :
    l.take (n + 1) = l.take n ++ [l.getD n d] := by
  rw [List.take_succ, List.getD_eq_getElem?_getD, List.getElem?_eq_getElem h]
  rfl

theorem getD_of_drop_eq {α : Type} (d : α) (l r : List α) (n : Nat)
    (h : r.drop n = l.drop n) : r.getD n d = l.getD n d := by
  have h1 : (r.drop n)[0]? = (l.drop n)[0]? := by rw [h]
  rw [List.getElem?_drop, List.getElem?_drop] at h1
  rw [List.getD_eq_getElem?_getD, List.getD_eq_getElem?_getD]
  simpa using congrArg (fun o => Option.getD o d) h1

theorem map_getD_range {α : Type} (d : α) (l : List α) :
    ∀ n : Nat, n ≤ l.length → (List.range n).map (fun i => l.getD i d) = l.take n := by
  intro n
  induction n with
  | zero => intro _; rfl
  | succ m ih =>
    intro h
    rw [List.range_succ, List.map_append, ih (by omega), take_succ_getD d l m (by omega)]
    rfl

theorem mem_take_getD {α : Type} (d : α) (l : List α) (n : Nat) (x : α)
    (h : x ∈ l.take n) : ∃ m, m < n ∧ l.getD m d = x := by
  rw [List.mem_take_iff_getElem] at h
  obtain ⟨m, hm, rfl⟩ := h
  refine ⟨m, by omega, ?_⟩
  rw [List.getD_eq_getElem?_getD, List.getElem?_eq_getElem (by omega)]
  rfl

/-- The swap of the slots `i` and `k` in `sort_zk_nodes`, for `k < i`. -/
theorem swap_facts {α : Type} (d : α) (l : List α) (i k : Nat) (hki : k < i)
    (hi : i < l.length) :
    ((l.set i (l.getD k d)).set k (l.getD i d)).length = l.length ∧
      (((l.set i (l.getD k d)).set k (l.getD i d)).take (i + 1)).Perm (l.take (i + 1)) ∧
      ((l.set i (l.getD k d)).set k (l.getD i d)).drop (i + 1) = l.drop (i + 1) ∧
      ((l.set i (l.getD k d)).set k (l.getD i d)).getD i d = l.getD k d := by
  refine ⟨by simp, ?_, ?_, ?_⟩
  · rw [List.set_take, List.set_take]
    have h1 := swap_perm d (l.take (i + 1)) i k hki (by simp; omega)
    rw [getD_take d l (i + 1) k (by omega), getD_take d l (i + 1) i (by omega)] at h1
    exact h1
  · rw [List.drop_set_of_lt _ _ (by omega), List.drop_set_of_lt _ _ (by omega)]
  · rw [List.getD_eq_getElem?_getD, List.getElem?_set_ne (by omega),
      List.getElem?_set_self hi]
    rfl

theorem sort_select_spec (a : List idxs) :
    ∀ j k : Nat,
      (sort_select a j k = k ∨ sort_select a j k < j) ∧
      (∀ m, m < j → (a.getD m default).seq ≤ (a.getD (sort_select a j k) default).seq) ∧
      (a.getD k default).seq ≤ (a.getD (sort_select a j k) default).seq := by
  intro j
  induction j with
  | zero =>
    intro k
    exact ⟨Or.inl rfl, fun m hm => absurd hm (Nat.not_lt_zero m), Int.le_refl _⟩
  | succ j ih =>
    intro k
    rw [sort_select]
    by_cases hlt : (a.getD k default).seq < (a.getD j default).seq
    · rw [if_pos hlt]
      obtain ⟨h1, h2, h3⟩ := ih j
      refine ⟨Or.inr ?_, ?_, ?_⟩
      · rcases h1 with h | h <;> omega
      · intro m hm
        by_cases hmj : m = j
        · rw [hmj]; exact h3
        · exact h2 m (by omega)
      · exact Int.le_trans (Int.le_of_lt hlt) h3
    · rw [if_neg hlt]
      obtain ⟨h1, h2, h3⟩ := ih k
      refine ⟨?_, ?_, h3⟩
      · rcases h1 with h | h
        · exact Or.inl h
        · exact Or.inr (by omega)
      · intro m hm
        by_cases hmj : m = j
        · rw [hmj]; exact Int.le_trans (Int.not_lt.1 hlt) h3
        · exact h2 m (by omega)

theorem sort_outer_spec :
    ∀ (i : Nat) (a : List idxs), i < a.length →
      (sort_outer i a).length = a.length ∧
      ((sort_outer i a).take (i + 1)).Perm (a.take (i + 1)) ∧
      (sort_outer i a).drop (i + 1) = a.drop (i + 1) ∧
      ((sort_outer i a).take (i + 1)).Pairwise (fun x y => x.seq ≤ y.seq) := by
  intro i
  induction i with
  | zero =>
    intro a h
    refine ⟨rfl, List.Perm.refl _, rfl, ?_⟩
    cases a with
    | nil => simp at h
    | cons x t => simp [sort_outer]
  | succ i ih =>
    intro a h
    obtain ⟨s1, s2, s3⟩ := sort_select_spec a (i + 1) (i + 1)
    have hk : sort_select a (i + 1) (i + 1) ≤ i + 1 := by
      rcases s1 with h1 | h1 <;> omega
    -- the array after the conditional swap
    have hswap : ∃ b : List idxs,
        sort_outer (i + 1) a = sort_outer i b ∧ b.length = a.length ∧
        (b.take (i + 2)).Perm (a.take (i + 2)) ∧ b.drop (i + 2) = a.drop (i + 2) ∧
        b.getD (i + 1) default = a.getD (sort_select a (i + 1) (i + 1)) default := by
      by_cases hik : i + 1 ≠ sort_select a (i + 1) (i + 1)
      · obtain ⟨f1, f2, f3, f4⟩ := swap_facts default a (i + 1)
          (sort_select a (i + 1) (i + 1)) (by omega) h
        refine ⟨_, ?_, f1, f2, f3, f4⟩
        rw [sort_outer]
        simp only [if_pos hik]
      · refine ⟨a, ?_, rfl, List.Perm.refl _, rfl, ?_⟩
        · rw [sort_outer]
          simp only [if_neg hik]
        · rw [← not_not.1 hik]
    obtain ⟨b, hb, b1, b2, b3, b4⟩ := hswap
    obtain ⟨r1, r2, r3, r4⟩ := ih b (by omega)
    rw [hb]
    have hget : (sort_outer i b).getD (i + 1) default = b.getD (i + 1) default :=
      getD_of_drop_eq default b _ (i + 1) r3
    have htr : (sort_outer i b).take (i + 2) =
        (sort_outer i b).take (i + 1) ++ [b.getD (i + 1) default] := by
      rw [take_succ_getD default _ (i + 1) (by omega), hget]
    have htb : b.take (i + 2) = b.take (i + 1) ++ [b.getD (i + 1) default] :=
      take_succ_getD default _ (i + 1) (by omega)
    have hperm : ((sort_outer i b).take (i + 2)).Perm (b.take (i + 2)) := by
      rw [htr, htb]
      exact List.Perm.append_right _ r2
    refine ⟨r1.trans b1, hperm.trans b2, ?_, ?_⟩
    · have hdd : ∀ l : List idxs, l.drop (i + 1 + 1) = (l.drop (i + 1)).drop 1 := by
        intro l
        simp [List.drop_drop, Nat.add_comm]
      have : (sort_outer i b).drop (i + 1 + 1) = b.drop (i + 1 + 1) := by
        rw [hdd, hdd, r3]
      exact this.trans b3
    · rw [htr, List.pairwise_append]
      refine ⟨r4, List.pairwise_singleton _ _, ?_⟩
      intro x hx y hy
      rw [List.mem_singleton] at hy
      rw [hy, b4]
      have hx1 : x ∈ b.take (i + 2) := by
        rw [htb]
        exact List.mem_append_left _ (r2.mem_iff.1 hx)
      have hx2 : x ∈ a.take (i + 2) := b2.mem_iff.1 hx1
      obtain ⟨m, hm, rfl⟩ := mem_take_getD default a (i + 2) x hx2
      by_cases hmi : m = i + 1
      · rw [hmi]; exact s3
      · exact s2 m (by omega)

theorem pairwise_of_length_le_one {α : Type} (R : α → α → Prop) (l : List α)
    (h : l.length ≤ 1) : l.Pairwise R := by
  cases l with
  | nil => exact List.Pairwise.nil
  | cons x t =>
    cases t with
    | nil => exact List.pairwise_singleton _ _
    | cons y u => simp at h

theorem sorted_strict_of_nodup (l l0 : List zk_node) (hp : l.Perm l0)
    (hs : l.Pairwise (fun x y => x.seq ≤ y.seq)) (hnd : (l0.map fun z => z.seq).Nodup) :
    l.Pairwise (fun x y => x.seq < y.seq) := by
  have h1 : (l.map fun z => z.seq).Nodup := ((hp.map _).nodup_iff).2 hnd
  have h2 : l.Pairwise (fun x y => x.seq ≠ y.seq) := by
    rw [List.Nodup, List.pairwise_map] at h1
    exact h1
  exact (hs.and h2).imp (fun h => Int.lt_iff_le_and_ne.2 h)

/-- The sort of the first `n` slots: a sorted permutation, written back over
the same slots of `zk_nodes`; nothing else of the state changes. -/
theorem sort_zk_nodes_sorted (SD_MAX_NODES n : Nat) (s : State)
    (hn : n ≤ SD_MAX_NODES) (hslots : s.zk_nodes.length = SD_MAX_NODES) :
    ∃ nodes : List zk_node,
      sort_zk_nodes SD_MAX_NODES s.zk_nodes n s = Res.ret () { s with zk_nodes := nodes } ∧
      (nodes.take n).Perm (s.zk_nodes.take n) ∧
      (nodes.take n).Pairwise (fun x y => x.seq ≤ y.seq) ∧
      nodes.drop n = s.zk_nodes.drop n ∧ (n ≤ 1 → nodes = s.zk_nodes) := by
  by_cases h1 : n ≤ 1
  · have hp : (s.zk_nodes.take n).Pairwise (fun x y => x.seq ≤ y.seq) :=
      pairwise_of_length_le_one _ _ (by simp; omega)
    refine ⟨s.zk_nodes, ?_, List.Perm.refl _, hp, rfl, fun _ => rfl⟩
    unfold sort_zk_nodes
    rw [if_pos h1]
  · have hguard : ¬ (SD_MAX_NODES < n ∨ s.zk_nodes.length < n ∨ s.zk_nodes.length < n) := by
      omega
    have hlen0 : ((List.range n).map fun i =>
        ({ idx := i, seq := (s.zk_nodes.getD i default).seq } : idxs)).length = n := by simp
    obtain ⟨o1, o2, -, o4⟩ := sort_outer_spec (n - 1)
      ((List.range n).map fun i => ({ idx := i, seq := (s.zk_nodes.getD i default).seq } : idxs))
      (by rw [hlen0]; omega)
    rw [show n - 1 + 1 = n by omega] at o2 o4
    rw [List.take_of_length_le (by rw [o1, hlen0]), List.take_of_length_le (by rw [hlen0])] at o2
    rw [List.take_of_length_le (by rw [o1, hlen0])] at o4
    generalize hA : sort_outer (n - 1) ((List.range n).map fun i =>
      ({ idx := i, seq := (s.zk_nodes.getD i default).seq } : idxs)) = a1 at o1 o2 o4
    have hmem : ∀ t ∈ a1, (s.zk_nodes.getD t.idx default).seq = t.seq := by
      intro t ht
      have := o2.mem_iff.1 ht
      rw [List.mem_map] at this
      obtain ⟨i, -, rfl⟩ := this
      rfl
    have hN : (a1.map fun t => s.zk_nodes.getD t.idx default).Perm (s.zk_nodes.take n) := by
      have h2 := o2.map (fun t : idxs => s.zk_nodes.getD t.idx default)
      rw [List.map_map] at h2
      have h3 : (List.range n).map ((fun t : idxs => s.zk_nodes.getD t.idx default) ∘
          fun i => ({ idx := i, seq := (s.zk_nodes.getD i default).seq } : idxs)) =
          s.zk_nodes.take n := map_getD_range default s.zk_nodes n (by omega)
      rw [h3] at h2
      exact h2
    have hNlen : (a1.map fun t => s.zk_nodes.getD t.idx default).length = n := by
      rw [List.length_map, o1, hlen0]
    have hsorted : (a1.map fun t => s.zk_nodes.getD t.idx default).Pairwise
        (fun x y => x.seq ≤ y.seq) := by
      rw [List.pairwise_map]
      refine o4.imp_of_mem ?_
      intro x y hx hy hxy
      rw [hmem x hx, hmem y hy]
      exact hxy
    have htake : ((a1.map fun t => s.zk_nodes.getD t.idx default) ++
        s.zk_nodes.drop n).take n = a1.map fun t => s.zk_nodes.getD t.idx default :=
      List.take_left' hNlen
    refine ⟨(a1.map fun t => s.zk_nodes.getD t.idx default) ++ s.zk_nodes.drop n,
      ?_, ?_, ?_, List.drop_left' hNlen, fun h => absurd h h1⟩
    · unfold sort_zk_nodes
      rw [if_neg h1, if_neg hguard]
      simp only [hA]
    · rw [htake]; exact hN
    · rw [htake]; exact hsorted

/-- C8: for `n ≤ SD_MAX_NODES` records in the `SD_MAX_NODES` slots of the
view, `sort_zk_nodes` returns and leaves in the first `n` slots a permutation
of the `n` input records in non-decreasing order of `seq`, strictly ascending
when the `seq` values are pairwise distinct; the slots behind them keep their
content, and for `n ≤ 1` nothing changes at all. -/
theorem C8_bootstrap_sort (SD_MAX_NODES n : Nat) (s : State)
    (hn : n ≤ SD_MAX_NODES) (hslots : s.zk_nodes.length = SD_MAX_NODES) :
    ∃ s1 : State,
      sort_zk_nodes SD_MAX_NODES s.zk_nodes n s = Res.ret () s1 ∧
      (s1.zk_nodes.take n).Perm (s.zk_nodes.take n) ∧
      (s1.zk_nodes.take n).Pairwise (fun x y => x.seq ≤ y.seq) ∧
      (((s.zk_nodes.take n).map fun z => z.seq).Nodup →
        (s1.zk_nodes.take n).Pairwise (fun x y => x.seq < y.seq)) ∧
      s1.zk_nodes.drop n = s.zk_nodes.drop n ∧
      s1.nr_zk_nodes = s.nr_zk_nodes ∧
      (n ≤ 1 → s1 = s) := by
  obtain ⟨nodes, h1, h2, h3, h4, h5⟩ := sort_zk_nodes_sorted SD_MAX_NODES n s hn hslots
  refine ⟨{ s with zk_nodes := nodes }, h1, h2, h3, ?_, h4, rfl, ?_⟩
  · intro hnd
    exact sorted_strict_of_nodup _ _ h2 h3 hnd
  · intro hle
    rw [h5 hle]

theorem C8_bootstrap_sort_witness :
    ((3 : Nat) ≤ 4 ∧ unsorted_view.zk_nodes.length = 4 ∧
      unsorted_view.zk_nodes.take 3 = [nodeC, nodeA, nodeB]) ∧
    sort_zk_nodes 4 unsorted_view.zk_nodes 3 unsorted_view =
      Res.ret () { unsorted_view with zk_nodes := [nodeA, nodeB, nodeC, node0] } ∧
    ∃ s1 : State,
      sort_zk_nodes 4 unsorted_view.zk_nodes 3 unsorted_view = Res.ret () s1 ∧
      (s1.zk_nodes.take 3).Perm (unsorted_view.zk_nodes.take 3) ∧
      (s1.zk_nodes.take 3).Pairwise (fun x y => x.seq ≤ y.seq) := by
  refine ⟨by decide, by decide, ?_⟩
  obtain ⟨s1, h1, h2, h3, _⟩ := C8_bootstrap_sort 4 3 unsorted_view (by decide) (by decide)
  exact ⟨s1, h1, h2, h3⟩

/-! ## The order of the view -/

theorem member_find_of_nodup (l : List (Nat × zk_node)) (hnd : (l.map fun p => p.1).Nodup)
    (p : Nat × zk_node) (hp : p ∈ l) :
    (l.find? fun q => q.1 = p.1).map (fun q => q.2) = some p.2 := by
  induction l with
  | nil => simp at hp
  | cons x t ih =>
    rw [List.map_cons, List.nodup_cons] at hnd
    by_cases hx : x.1 = p.1
    · rw [List.find?_cons_of_pos _ (by simpa using hx)]
      rcases List.mem_cons.1 hp with h | h
      · rw [h]; rfl
      · exact absurd (List.mem_map.2 ⟨p, h, hx.symm⟩) hnd.1
    · rw [List.find?_cons_of_neg _ (by simpa using hx)]
      rcases List.mem_cons.1 hp with h | h
      · exact absurd (by rw [h]) hx
      · exact ih hnd.2 h

theorem data_init_loop_spec (ps : List (Nat × zk_node)) :
    ∀ s : State, (∀ p ∈ ps, member_get s p.1 = some p.2) →
      s.nr_zk_nodes + ps.length ≤ s.zk_nodes.length →
      ∃ (nodes : List zk_node) (k : Nat),
        data_init_loop ps s = Res.ret () { s with zk_nodes := nodes, nr_zk_nodes := k } ∧
        k = s.nr_zk_nodes + (ps.filter fun p => decide (p.2.joined ≠ 0)).length ∧
        nodes.length = s.zk_nodes.length ∧
        nodes.take k =
          view s ++ (ps.filter fun p => decide (p.2.joined ≠ 0)).map (fun p => p.2) := by
  induction ps with
  | nil =>
    intro s _ _
    exact ⟨s.zk_nodes, s.nr_zk_nodes, rfl, rfl, rfl, by simp [view]⟩
  | cons p rest ih =>
    intro s hget hroom
    have hp := hget p (List.mem_cons_self _ _)
    simp only [List.length_cons] at hroom
    rw [data_init_loop, hp]
    by_cases hj : p.2.joined = 0
    · simp only [if_pos hj]
      obtain ⟨nodes, k, h1, hk, h2, h3⟩ :=
        ih s (fun q hq => hget q (List.mem_cons_of_mem _ hq)) (by omega)
      have hf : (List.filter (fun p => decide (p.2.joined ≠ 0)) (p :: rest)) =
          List.filter (fun p => decide (p.2.joined ≠ 0)) rest :=
        List.filter_cons_of_neg (by simpa using hj)
      rw [hf]
      exact ⟨nodes, k, h1, hk, h2, h3⟩
    · simp only [if_neg hj]
      have hlt : s.nr_zk_nodes < s.zk_nodes.length := by omega
      unfold array_set
      rw [if_pos hlt]
      simp only []
      obtain ⟨nodes, k, h1, hk, h2, h3⟩ := ih
        { s with zk_nodes := s.zk_nodes.set s.nr_zk_nodes p.2,
                 nr_zk_nodes := s.nr_zk_nodes + 1 }
        (fun q hq => hget q (List.mem_cons_of_mem _ hq))
        (by simp only [List.length_set]; omega)
      have hf : (List.filter (fun p => decide (p.2.joined ≠ 0)) (p :: rest)) =
          p :: List.filter (fun p => decide (p.2.joined ≠ 0)) rest :=
        List.filter_cons_of_pos (by simpa using hj)
      have hv : view
          { s with zk_nodes := s.zk_nodes.set s.nr_zk_nodes p.2,
                   nr_zk_nodes := s.nr_zk_nodes + 1 } = view s ++ [p.2] :=
        take_set_succ _ _ _ hlt
      rw [hf, List.length_cons]
      refine ⟨nodes, k, h1, ?_, ?_, ?_⟩
      · rw [hk]
        show s.nr_zk_nodes + 1 + _ = _
        omega
      · rw [h2, List.length_set]
      · rw [h3, hv]
        simp

theorem zk_data_init_sorted (SD_MAX_NODES : Nat) (s : State)
    (hfin : s.finished = 0) (hnr : s.nr_zk_nodes = 0)
    (hslots : s.zk_nodes.length = SD_MAX_NODES) (hcap : s.member.length ≤ SD_MAX_NODES)
    (hnames : (s.member.map fun p => p.1).Nodup) :
    ∃ s1 : State,
      zk_data_init SD_MAX_NODES s = Res.ret () s1 ∧
      (view s1).Perm ((s.member.filter fun p => decide (p.2.joined ≠ 0)).map fun p => p.2) ∧
      (view s1).Pairwise (fun x y => x.seq ≤ y.seq) ∧
      s1.queue_pos = -1 ∧ s1.queue = s.queue ∧ s1.member = s.member := by
  have hf : ¬ s.finished ≠ 0 := by simpa using hfin
  -- the loop over the children
  have hloop : ∃ (nodes : List zk_node) (k : Nat),
      data_init_loop s.member.reverse { s with finished := 1, queue_pos := -1 } =
        Res.ret () { s with finished := 1, queue_pos := -1, zk_nodes := nodes,
                            nr_zk_nodes := k } ∧
      k ≤ SD_MAX_NODES ∧ nodes.length = SD_MAX_NODES ∧
      nodes.take k =
        (s.member.reverse.filter fun p => decide (p.2.joined ≠ 0)).map (fun p => p.2) := by
    obtain ⟨nodes, k, h1, hk, h2, h3⟩ := data_init_loop_spec s.member.reverse
      { s with finished := 1, queue_pos := -1 }
      (fun p hp => member_find_of_nodup s.member hnames p (List.mem_reverse.1 hp))
      (by show s.nr_zk_nodes + _ ≤ s.zk_nodes.length
          rw [hnr, hslots, List.length_reverse]; omega)
    have hv : view { s with finished := 1, queue_pos := -1 } = [] := by
      show List.take s.nr_zk_nodes _ = []
      rw [hnr]; rfl
    rw [hv, List.nil_append] at h3
    have hk2 : k ≤ SD_MAX_NODES := by
      have := List.length_filter_le (fun p : Nat × zk_node => decide (p.2.joined ≠ 0))
        s.member.reverse
      rw [List.length_reverse] at this
      have hz : ({ s with finished := 1, queue_pos := -1 } : State).nr_zk_nodes = 0 := hnr
      rw [hz] at hk
      omega
    exact ⟨nodes, k, h1, hk2, h2.trans hslots, h3⟩
  obtain ⟨nodes, k, l1, hk, l2, l3⟩ := hloop
  obtain ⟨sorted, m1, m2, m3, -⟩ := sort_zk_nodes_sorted SD_MAX_NODES k
    { s with finished := 1, queue_pos := -1, zk_nodes := nodes, nr_zk_nodes := k } hk l2
  have hrev : ((s.member.reverse.filter fun p => decide (p.2.joined ≠ 0)).map
      fun p => p.2).Perm ((s.member.filter fun p => decide (p.2.joined ≠ 0)).map fun p => p.2) := by
    rw [List.filter_reverse, List.map_reverse]
    exact List.reverse_perm _
  refine ⟨{ s with finished := 1, queue_pos := -1, zk_nodes := sorted, nr_zk_nodes := k },
    ?_, ?_, m3, rfl, rfl, rfl⟩
  · unfold zk_data_init
    rw [if_neg hf]
    simp only []
    by_cases hm : s.member.length ≠ 0
    · rw [if_pos hm, l1]
      simp only [Res.bind]
      exact m1
    · rw [if_neg hm]
      simp only [Res.bind]
      have hnil : s.member.reverse = [] := by
        rw [List.length_eq_zero.1 (not_not.1 hm)]
        rfl
      have l1' := l1
      rw [hnil, data_init_loop] at l1'
      injection l1' with _ l1''
      have e1 : s.zk_nodes = nodes := congrArg State.zk_nodes l1''
      have e2 : s.nr_zk_nodes = k := congrArg State.nr_zk_nodes l1''
      rw [l1'', e1, e2]
      exact m1
  · show (List.take _ sorted).Perm _
    exact (m2.trans (by rw [l3])).trans hrev

theorem ret_of_returned {α β : Type} (r : Res α) (f : α × State → β) (b : β)
    (h : r.returned?.map f = some b) : ∃ a s, r = Res.ret a s ∧ f (a, s) = b := by
  cases r with
  | ret a s => exact ⟨a, s, rfl, by simpa [Res.returned?] using h⟩
  | exit s => simp [Res.returned?] at h
  | panic s => simp [Res.returned?] at h
  | undefined => simp [Res.returned?] at h

theorem tick_join_view (SD_MAX_NODES : Nat)
    (check_join : sd_node → List Nat → cluster_join_result) (stack e : zk_event) (s : State)
    (htick : s.efd ≠ 0) (hring : s.nr_zk_levents = 0) (hnb : s.zk_notify_blocked = 0)
    (hentry : queue_get s s.queue_pos = some e)
    (hjoin : e.type = EVENT_JOIN) (hunblocked : e.blocked = 0)
    (hres : e.join_result ≠ CJ_RES_MASTER_TRANSFER)
    (hroom : s.nr_zk_nodes < s.zk_nodes.length) :
    ∃ s1 : State, zk_dispatch SD_MAX_NODES check_join stack s = Res.ret 0 s1 ∧
      view s1 = view s ++ [e.sender] := by
  have hne : e.type ≠ EVENT_LEAVE := by rw [hjoin]; decide
  have ht : (zk_get_event e stack).type = EVENT_JOIN := hjoin
  have hb : ¬ (zk_get_event e stack).blocked ≠ 0 := by simpa using hunblocked
  have hr : ¬ (zk_get_event e stack).join_result = CJ_RES_MASTER_TRANSFER := hres
  rw [zk_dispatch_tick _ _ _ _ htick hnb,
    zk_queue_pop_log _ _ e { s with efd := 0 } hring hentry,
    pop_log_unblocked _ _ _ hunblocked hne]
  simp only [Res.bind]
  rw [if_neg (by decide)]
  unfold dispatch_event dispatch_join_unblocked
  simp only [ht, if_neg hb, if_neg hr]
  split
  · rw [dispatch_join_append_ok]
    · exact ⟨_, rfl, take_set_succ _ _ _ hroom⟩
    · exact hroom
  · rw [dispatch_join_append_ok]
    · exact ⟨_, rfl, take_set_succ _ _ _ hroom⟩
    · exact hroom

theorem tick_leave_view (SD_MAX_NODES : Nat)
    (check_join : sd_node → List Nat → cluster_join_result) (stack lev : zk_event) (s : State)
    (htick : s.efd ≠ 0) (hnb : s.zk_notify_blocked = 0)
    (hring : s.nr_zk_levents ≠ 0) (hM : SD_MAX_NODES ≠ 0)
    (hhead : s.zk_levents[s.zk_levent_head % SD_MAX_NODES]? = some lev)
    (hleave : lev.type = EVENT_LEAVE)
    (hview : s.nr_zk_nodes ≤ s.zk_nodes.length) :
    ∃ s1 : State, zk_dispatch SD_MAX_NODES check_join stack s = Res.ret 0 s1 ∧
      view s1 = (view s).eraseP (fun x => decide (x.node = lev.sender.node)) := by
  obtain ⟨k1, k2, -⟩ :=
    pop_leave_keeps stack lev { s with efd := 0, nr_zk_levents := s.nr_zk_levents - 1 }
  have hvt : view (pop_leave stack lev
      { s with efd := 0, nr_zk_levents := s.nr_zk_levents - 1 }) = view s := by
    unfold view; rw [k1, k2]
  have hrun : zk_dispatch SD_MAX_NODES check_join stack s =
      dispatch_leave lev (pop_leave stack lev
        { s with efd := 0, nr_zk_levents := s.nr_zk_levents - 1 }) := by
    rw [zk_dispatch_tick _ _ _ _ htick hnb,
      zk_queue_pop_leave _ _ lev { s with efd := 0 } hring hM hhead]
    simp only [Res.bind]
    rw [if_neg (by decide)]
    unfold dispatch_event
    simp only [hleave]
  by_cases hex : ∃ x ∈ view s, x.node = lev.sender.node
  · obtain ⟨x, hx, hxn⟩ := hex
    obtain ⟨a, l1, l2, h1, ha, hsplit, herase⟩ :=
      @List.exists_of_eraseP _ (fun x : zk_node => decide (x.node = lev.sender.node)) _ _ hx
        (by simpa using hxn)
    obtain ⟨s1, r1, r2, -⟩ := dispatch_leave_present lev
      (pop_leave stack lev { s with efd := 0, nr_zk_levents := s.nr_zk_levents - 1 })
      l1 l2 a (by rw [k1, k2]; exact hview) (hvt.trans hsplit) (by simpa using h1)
      (by simpa using ha)
    exact ⟨s1, hrun.trans r1, by rw [r2, herase]⟩
  · have hno : ∀ x ∈ view s, x.node ≠ lev.sender.node := fun x hx hn => hex ⟨x, hx, hn⟩
    have r1 := dispatch_leave_absent lev
      (pop_leave stack lev { s with efd := 0, nr_zk_levents := s.nr_zk_levents - 1 })
      (by rw [k1, k2]; exact hview) (by rw [hvt]; exact hno)
    exact ⟨_, hrun.trans r1, by rw [hvt, List.eraseP_of_forall_not (by simpa using hno)]⟩

/-- Steps that keep the view strictly ascending in `seq`: (1) `zk_data_init`,
when the joined records of the registry have pairwise distinct `seq`; (2) the
tick that delivers an unblocked Join whose result is not `MASTER_TRANSFER`, for
a sender whose `seq` is greater than every `seq` in the view; (3) the tick that
removes the sender of a Leave. -/
theorem view_order_steps (SD_MAX_NODES : Nat)
    (check_join : sd_node → List Nat → cluster_join_result) (stack : zk_event) :
    (∀ s : State, s.finished = 0 → s.nr_zk_nodes = 0 →
      s.zk_nodes.length = SD_MAX_NODES → s.member.length ≤ SD_MAX_NODES →
      (s.member.map fun p => p.1).Nodup →
      ((s.member.filter fun p => decide (p.2.joined ≠ 0)).map fun p => p.2.seq).Nodup →
      ∃ s1 : State, zk_data_init SD_MAX_NODES s = Res.ret () s1 ∧
        (view s1).Pairwise (fun x y => x.seq < y.seq)) ∧
    (∀ (s : State) (e : zk_event), s.efd ≠ 0 → s.nr_zk_levents = 0 →
      s.zk_notify_blocked = 0 → queue_get s s.queue_pos = some e →
      e.type = EVENT_JOIN → e.blocked = 0 → e.join_result ≠ CJ_RES_MASTER_TRANSFER →
      s.nr_zk_nodes < s.zk_nodes.length →
      (view s).Pairwise (fun x y => x.seq < y.seq) →
      (∀ z ∈ view s, z.seq < e.sender.seq) →
      ∃ s1 : State, zk_dispatch SD_MAX_NODES check_join stack s = Res.ret 0 s1 ∧
        (view s1).Pairwise (fun x y => x.seq < y.seq)) ∧
    (∀ (s : State) (lev : zk_event), s.efd ≠ 0 → s.zk_notify_blocked = 0 →
      s.nr_zk_levents ≠ 0 → SD_MAX_NODES ≠ 0 →
      s.zk_levents[s.zk_levent_head % SD_MAX_NODES]? = some lev →
      lev.type = EVENT_LEAVE → s.nr_zk_nodes ≤ s.zk_nodes.length →
      (view s).Pairwise (fun x y => x.seq < y.seq) →
      ∃ s1 : State, zk_dispatch SD_MAX_NODES check_join stack s = Res.ret 0 s1 ∧
        (view s1).Pairwise (fun x y => x.seq < y.seq)) := by
  refine ⟨?_, ?_, ?_⟩
  · intro s hfin hnr hslots hcap hnames hseq
    obtain ⟨s1, h1, h2, h3, -⟩ := zk_data_init_sorted SD_MAX_NODES s hfin hnr hslots hcap hnames
    refine ⟨s1, h1, sorted_strict_of_nodup _ _ h2 h3 ?_⟩
    rw [List.map_map]
    exact hseq
  · intro s e htick hring hnb hentry hjoin hunb hres hroom hsorted hgt
    obtain ⟨s1, h1, h2⟩ := tick_join_view SD_MAX_NODES check_join stack e s htick hring hnb
      hentry hjoin hunb hres hroom
    refine ⟨s1, h1, ?_⟩
    rw [h2, List.pairwise_append]
    refine ⟨hsorted, List.pairwise_singleton _ _, ?_⟩
    intro x hx y hy
    rw [List.mem_singleton.1 hy]
    exact hgt x hx
  · intro s lev htick hnb hring hM hhead hleave hview hsorted
    obtain ⟨s1, h1, h2⟩ := tick_leave_view SD_MAX_NODES check_join stack lev s htick hnb hring
      hM hhead hleave hview
    refine ⟨s1, h1, ?_⟩
    rw [h2]
    exact hsorted.sublist (List.eraseP_sublist _)

theorem view_order_steps_example :
    (before_bootstrap.finished = 0 ∧ before_bootstrap.member.length ≤ 4 ∧
      (view join_approved).Pairwise (fun x y => x.seq < y.seq) ∧
      (∀ z ∈ view join_approved, z.seq < joinB_approved.sender.seq) ∧
      (view leave_pending).Pairwise (fun x y => x.seq < y.seq)) ∧
    (∃ s1 : State, zk_data_init 4 before_bootstrap = Res.ret () s1 ∧
      (view s1).Pairwise (fun x y => x.seq < y.seq)) ∧
    (∃ s1 : State,
      zk_dispatch 4 (fun _ _ => CJ_RES_SUCCESS) event0 join_approved = Res.ret 0 s1 ∧
      (view s1).Pairwise (fun x y => x.seq < y.seq)) ∧
    ∃ s1 : State,
      zk_dispatch 4 (fun _ _ => CJ_RES_SUCCESS) event0 leave_pending = Res.ret 0 s1 ∧
      (view s1).Pairwise (fun x y => x.seq < y.seq) := by
  obtain ⟨h1, h2, h3⟩ := view_order_steps 4 (fun _ _ => CJ_RES_SUCCESS) event0
  refine ⟨by decide, ?_, ?_, ?_⟩
  · exact h1 before_bootstrap (by decide) (by decide) (by decide) (by decide) (by decide)
      (by decide)
  · exact h2 join_approved joinB_approved (by decide) (by decide) (by decide) (by decide)
      (by decide) (by decide) (by decide) (by decide) (by decide) (by decide)
  · exact h3 leave_pending leaveB (by decide) (by decide) (by decide) (by decide) (by decide)
      (by decide) (by decide) (by decide)

/-- C7 (failing input): the joiner `B`, after bootstrap with the strictly
ascending view `[A]`, pops its own Join, which the old master approved with
`MASTER_TRANSFER`.  The transfer branch stores the record of `B` in slot 0 and
falls through to the append, which stores the sender `B` once more: the view
after the tick is `[B, B]`, two records with the same `seq`, and it is not
strictly ascending. -/
theorem C7_transfer_view_tie :
    ((view transfer_at_B).Pairwise (fun x y => x.seq < y.seq) ∧
      queue_get transfer_at_B transfer_at_B.queue_pos = some joinB_transfer ∧
      joinB_transfer.type = EVENT_JOIN ∧ joinB_transfer.blocked = 0 ∧
      joinB_transfer.join_result = CJ_RES_MASTER_TRANSFER ∧
      joinB_transfer.sender.node = transfer_at_B.this_node.node) ∧
    ∃ s1 : State,
      zk_dispatch 4 (fun _ _ => CJ_RES_SUCCESS) event0 transfer_at_B = Res.ret 0 s1 ∧
      view s1 = [nodeB, nodeB] ∧
      (∃ x y : zk_node, (view s1)[0]? = some x ∧ (view s1)[1]? = some y ∧ x.seq = y.seq) ∧
      ¬ (view s1).Pairwise (fun x y => x.seq < y.seq) := by
  refine ⟨by decide, ?_⟩
  obtain ⟨a, s1, h1, h2⟩ := ret_of_returned
    (zk_dispatch 4 (fun _ _ => CJ_RES_SUCCESS) event0 transfer_at_B)
    (fun p => (p.1, view p.2)) (0, [nodeB, nodeB]) (by decide)
  injection h2 with h3 h4
  have h5 : view s1 = [nodeB, nodeB] := h4
  subst h3
  exact ⟨s1, h1, h5, ⟨nodeB, nodeB, by rw [h5]; rfl, by rw [h5]; rfl, rfl⟩,
    by rw [h5]; decide⟩

/-! ## The blocking notify on the originator -/

theorem queue_get_of_queue_eq (s s1 : State) (pos : Int) (h : s1.queue = s.queue) :
    queue_get s1 pos = queue_get s pos := by
  unfold queue_get
  rw [h]

/-- The example run of the blocking notify: the originator `A` issues
`notify([1,2,3], cb 5)` behind one log entry, then the dispatcher ticks, the
worker runs and the dispatcher ticks again.  The callback is called between the
two rewrites of the entry and before `notify_handler`. -/
theorem notify_example_trace :
    (zk_notify 4 event0 (some [1, 2, 3]) 3 (some 5) cursor_after_entry).state?.map
      (fun s0 => (run_steps 4 (fun _ _ => CJ_RES_SUCCESS)
        [Step.tick event0, Step.work event0, Step.tick event0] s0).trace) =
      some [Action.log_create 1 (notify_entry 1 0), Action.log_set 1 (notify_entry 1 1),
        Action.queue_work, Action.block_cb 5 [1, 2, 3], Action.log_set 1 (notify_entry 0 1),
        Action.notify_handler nodeA.node [1, 2, 3] 3] := by
  rfl

/-- A notify issued while the callback of an earlier one is queued: `A`, with
the work for its Notify at position 1 queued, issues `notify([4,5,6], cb 6)`,
which goes to position 2.  The worker runs the earlier callback and unblocks
entry 1; the dispatcher delivers it and then holds at entry 2; the worker runs
`cb 6` on the payload before it unblocks entry 2, and only then the dispatcher
calls `notify_handler` for it. -/
theorem notify_queued_example_trace :
    (zk_notify 4 event0 (some [4, 5, 6]) 3 (some 6) earlier_notify_queued).state?.map
      (fun s0 => (run_steps 4 (fun _ _ => CJ_RES_SUCCESS)
        [Step.tick event0, Step.work event0, Step.tick event0, Step.tick event0,
          Step.work event0, Step.tick event0] s0).trace) =
      some [Action.log_create 2 { notify_entry 1 0 with block_cb := some 6, buf := [4, 5, 6] },
        Action.block_cb 5 [1, 2, 3], Action.log_set 1 (notify_entry 0 1),
        Action.notify_handler nodeA.node [1, 2, 3] 3,
        Action.log_set 2 { notify_entry 1 1 with block_cb := some 6, buf := [4, 5, 6] },
        Action.queue_work, Action.block_cb 6 [4, 5, 6],
        Action.log_set 2 { notify_entry 0 1 with block_cb := some 6, buf := [4, 5, 6] },
        Action.notify_handler nodeA.node [4, 5, 6] 3] := by
  rfl

/-- The same notify issued while a Leave of `B` is pending as well: the worker
pops the Leave, calls the stale callback and writes the Leave over entry 0; the
earlier Notify stays blocked, the dispatcher holds at it, and entry 2 is never
rewritten. -/
theorem notify_queued_leave_example_trace :
    (zk_notify 4 event0 (some [4, 5, 6]) 3 (some 6) earlier_notify_queued_leave).state?.map
      (fun s0 => (run_steps 4 (fun _ _ => CJ_RES_SUCCESS)
        [Step.work event0, Step.tick event0, Step.tick event0, Step.work event0,
          Step.tick event0] s0).trace) =
      some [Action.log_create 2 { notify_entry 1 0 with block_cb := some 6, buf := [4, 5, 6] },
        Action.block_cb 9 [],
        Action.log_set 0 { leave_event stale_stack nodeB with blocked := 0 }] := by
  rfl

/-- A tick on a blocked log entry that is not a Leave: the entry is popped and
handed to the `switch`, with the cursor one further. -/
theorem tick_blocked_entry (SD_MAX_NODES : Nat)
    (check_join : sd_node → List Nat → cluster_join_result) (stack e : zk_event) (s : State)
    (htick : s.efd ≠ 0) (hring : s.nr_zk_levents = 0) (hnb : s.zk_notify_blocked = 0)
    (hentry : queue_get s s.queue_pos = some e) (hblocked : e.blocked ≠ 0)
    (hne : e.type ≠ EVENT_LEAVE) :
    zk_dispatch SD_MAX_NODES check_join stack s =
      dispatch_event SD_MAX_NODES check_join (zk_get_event e stack)
        { s with efd := 0, queue_pos := s.queue_pos + 1 } := by
  rw [zk_dispatch_tick _ _ _ _ htick hnb,
    zk_queue_pop_log _ _ e { s with efd := 0 } hring hentry,
    pop_log_blocked _ _ _ hblocked hne]
  simp only [Res.bind]
  rw [if_neg (by decide)]

/-- C11 (amended): with an empty leave ring and no blocking callback
outstanding, a tick on a blocked Join or Notify at the cursor ends with the
cursor where it was: (1) Join at the master, when the sender has a member
record: the tick returns, or exits after the rewrite when the hook answers
`MASTER_TRANSFER`; (2) Join at a non-master; (3) Notify at the sender;
(4) Notify at a non-sender.  In (2) and (4) the log is also left as it is and
the trace does not grow: no host function is called and nothing is written. -/
theorem C11_blocked_event_holds_cursor (SD_MAX_NODES : Nat)
    (check_join : sd_node → List Nat → cluster_join_result) (stack e : zk_event) (s : State)
    (htick : s.efd ≠ 0) (hring : s.nr_zk_levents = 0) (hnb : s.zk_notify_blocked = 0)
    (hentry : queue_get s s.queue_pos = some e) (hblocked : e.blocked ≠ 0) :
    (e.type = EVENT_JOIN → ∀ (m : Int) (z : zk_node),
      is_master SD_MAX_NODES s s.this_node = some m → 0 ≤ m →
      member_get s (node_to_str e.sender.node) = some z →
      ∃ s1 : State,
        zk_dispatch SD_MAX_NODES check_join stack s =
          (if check_join e.sender.node (zk_get_event e stack).buf = CJ_RES_MASTER_TRANSFER
            then Res.exit s1 else Res.ret 0 s1) ∧
        s1.queue_pos = s.queue_pos) ∧
    (e.type = EVENT_JOIN → ∀ m : Int,
      is_master SD_MAX_NODES s s.this_node = some m → m < 0 →
      ∃ s1 : State,
        zk_dispatch SD_MAX_NODES check_join stack s = Res.ret 0 s1 ∧
        s1.queue_pos = s.queue_pos ∧ s1.queue = s.queue ∧ s1.trace = s.trace) ∧
    (e.type = EVENT_NOTIFY → node_cmp e.sender.node s.this_node.node = 0 →
      ∃ s1 : State,
        zk_dispatch SD_MAX_NODES check_join stack s = Res.ret 0 s1 ∧
        s1.queue_pos = s.queue_pos) ∧
    (e.type = EVENT_NOTIFY → node_cmp e.sender.node s.this_node.node ≠ 0 →
      ∃ s1 : State,
        zk_dispatch SD_MAX_NODES check_join stack s = Res.ret 0 s1 ∧
        s1.queue_pos = s.queue_pos ∧ s1.queue = s.queue ∧ s1.trace = s.trace) := by
  have hb : (zk_get_event e stack).blocked ≠ 0 := hblocked
  have hback : queue_get { s with efd := 0, queue_pos := s.queue_pos + 1 }
      (s.queue_pos + 1 - 1) = some e := by
    rw [Int.add_sub_cancel]; exact hentry
  refine ⟨?_, ?_, ?_, ?_⟩
  · intro hjoin m z hmaster hm hmember
    have ht : (zk_get_event e stack).type = EVENT_JOIN := hjoin
    have hm1 : is_master SD_MAX_NODES { s with efd := 0, queue_pos := s.queue_pos + 1 }
        s.this_node = some m := hmaster
    have hmem1 : member_get { s with efd := 0, queue_pos := s.queue_pos + 1 }
        (node_to_str (zk_get_event e stack).sender.node) = some z := hmember
    rw [tick_blocked_entry _ _ _ e s htick hring hnb hentry hblocked (by rw [hjoin]; decide)]
    unfold dispatch_event
    simp only [ht, if_pos hb]
    rw [dispatch_join_blocked_master SD_MAX_NODES check_join _ e _ m z hm1 hm hmem1 hback]
    refine ⟨_, ite_apply _ _ _ _, ?_⟩
    show s.queue_pos + 1 - 1 = s.queue_pos
    omega
  · intro hjoin m hmaster hm
    have ht : (zk_get_event e stack).type = EVENT_JOIN := hjoin
    have hm1 : is_master SD_MAX_NODES { s with efd := 0, queue_pos := s.queue_pos + 1 }
        ({ s with efd := 0, queue_pos := s.queue_pos + 1 } : State).this_node = some m := hmaster
    rw [tick_blocked_entry _ _ _ e s htick hring hnb hentry hblocked (by rw [hjoin]; decide)]
    unfold dispatch_event dispatch_join_blocked
    simp only [ht, if_pos hb, hm1, if_neg (not_le.2 hm), zk_queue_push_back_none, Res.bind]
    refine ⟨_, rfl, ?_, rfl, rfl⟩
    show s.queue_pos + 1 - 1 = s.queue_pos
    omega
  · intro hnotify hself
    have ht : (zk_get_event e stack).type = EVENT_NOTIFY := hnotify
    rw [tick_blocked_entry _ _ _ e s htick hring hnb hentry hblocked (by rw [hnotify]; decide)]
    unfold dispatch_event dispatch_notify
    simp only [ht, if_pos hb]
    by_cases hcb : e.callbacked = 0
    · have hc : node_cmp (zk_get_event e stack).sender.node
          ({ s with efd := 0, queue_pos := s.queue_pos + 1 } : State).this_node.node = 0 ∧
          (zk_get_event e stack).callbacked = 0 := ⟨hself, hcb⟩
      rw [if_pos hc, zk_queue_push_back_some _ e]
      · simp only [Res.bind]
        refine ⟨_, rfl, ?_⟩
        show s.queue_pos + 1 - 1 = s.queue_pos
        omega
      · exact hback
    · have hc : ¬ (node_cmp (zk_get_event e stack).sender.node
          ({ s with efd := 0, queue_pos := s.queue_pos + 1 } : State).this_node.node = 0 ∧
          (zk_get_event e stack).callbacked = 0) := fun h => hcb h.2
      rw [if_neg hc, zk_queue_push_back_none]
      simp only [Res.bind]
      refine ⟨_, rfl, ?_⟩
      show s.queue_pos + 1 - 1 = s.queue_pos
      omega
  · intro hnotify hother
    have ht : (zk_get_event e stack).type = EVENT_NOTIFY := hnotify
    have hc : ¬ (node_cmp (zk_get_event e stack).sender.node
        ({ s with efd := 0, queue_pos := s.queue_pos + 1 } : State).this_node.node = 0 ∧
        (zk_get_event e stack).callbacked = 0) := fun h => hother h.1
    rw [tick_blocked_entry _ _ _ e s htick hring hnb hentry hblocked (by rw [hnotify]; decide)]
    unfold dispatch_event dispatch_notify
    simp only [ht, if_pos hb]
    rw [if_neg hc, zk_queue_push_back_none]
    simp only [Res.bind]
    refine ⟨_, rfl, ?_, rfl, rfl⟩
    show s.queue_pos + 1 - 1 = s.queue_pos
    omega

theorem C11_blocked_event_holds_cursor_witness :
    (join_pending.efd ≠ 0 ∧ join_pending.nr_zk_levents = 0 ∧
      join_pending.zk_notify_blocked = 0 ∧
      queue_get join_pending join_pending.queue_pos = some joinB_blocked ∧
      joinB_blocked.blocked ≠ 0 ∧
      queue_get (notify_pending nodeA) (notify_pending nodeA).queue_pos =
        some (notify_entry 1 0)) ∧
    (∃ s1 : State,
      zk_dispatch 4 (fun _ _ => CJ_RES_SUCCESS) event0 join_pending = Res.ret 0 s1 ∧
      s1.queue_pos = join_pending.queue_pos) ∧
    (∃ s1 : State,
      zk_dispatch 4 (fun _ _ => CJ_RES_SUCCESS) event0 join_pending_at_C = Res.ret 0 s1 ∧
      s1.queue_pos = join_pending_at_C.queue_pos ∧ s1.queue = join_pending_at_C.queue ∧
      s1.trace = join_pending_at_C.trace) ∧
    (∃ s1 : State,
      zk_dispatch 4 (fun _ _ => CJ_RES_SUCCESS) event0 (notify_pending nodeA) = Res.ret 0 s1 ∧
      s1.queue_pos = (notify_pending nodeA).queue_pos) ∧
    ∃ s1 : State,
      zk_dispatch 4 (fun _ _ => CJ_RES_SUCCESS) event0 (notify_pending nodeB) = Res.ret 0 s1 ∧
      s1.queue_pos = (notify_pending nodeB).queue_pos ∧
      s1.queue = (notify_pending nodeB).queue ∧ s1.trace = (notify_pending nodeB).trace :=
  ⟨by decide,
    (C11_blocked_event_holds_cursor 4 (fun _ _ => CJ_RES_SUCCESS) event0 joinB_blocked
      join_pending (by decide) (by decide) (by decide) (by decide) (by decide)).1
      (by decide) 0 { nodeB with joined := 0 } (by decide) (by decide) (by decide),
    (C11_blocked_event_holds_cursor 4 (fun _ _ => CJ_RES_SUCCESS) event0 joinB_blocked
      join_pending_at_C (by decide) (by decide) (by decide) (by decide) (by decide)).2.1
      (by decide) (-1) (by decide) (by decide),
    (C11_blocked_event_holds_cursor 4 (fun _ _ => CJ_RES_SUCCESS) event0 (notify_entry 1 0)
      (notify_pending nodeA) (by decide) (by decide) (by decide) (by decide) (by decide)).2.2.1
      (by decide) (by decide),
    (C11_blocked_event_holds_cursor 4 (fun _ _ => CJ_RES_SUCCESS) event0 (notify_entry 1 0)
      (notify_pending nodeB) (by decide) (by decide) (by decide) (by decide) (by decide)).2.2.2
      (by decide) (by decide)⟩

/-- C11 (counterexample): master `A` with view `[A]`, an empty leave ring, no
blocking callback outstanding and the blocked Join of `B` at its cursor, when
`B` has no member record.  The tick pops the entry, calls the hook, fails to
read the record and panics: the cursor is one past the blocked entry, which
has not been rewritten. -/
theorem C11_missing_record_counterexample :
    (join_pending_no_record.efd ≠ 0 ∧ join_pending_no_record.nr_zk_levents = 0 ∧
      join_pending_no_record.zk_notify_blocked = 0 ∧
      queue_get join_pending_no_record join_pending_no_record.queue_pos = some joinB_blocked ∧
      joinB_blocked.type = EVENT_JOIN ∧ joinB_blocked.blocked ≠ 0 ∧
      is_master 4 join_pending_no_record join_pending_no_record.this_node = some 0) ∧
    (∃ s1 : State,
      zk_dispatch 4 (fun _ _ => CJ_RES_SUCCESS) event0 join_pending_no_record = Res.panic s1 ∧
      s1.queue_pos = join_pending_no_record.queue_pos + 1 ∧
      s1.queue = join_pending_no_record.queue) ∧
    ¬ ((zk_dispatch 4 (fun _ _ => CJ_RES_SUCCESS) event0 join_pending_no_record).state?.map
        fun t => t.queue_pos) = some join_pending_no_record.queue_pos := by
  refine ⟨by decide, ?_, by decide⟩
  have h : zk_dispatch 4 (fun _ _ => CJ_RES_SUCCESS) event0 join_pending_no_record =
      Res.panic { join_pending_no_record with
        efd := 0, queue_pos := 1, trace := [Action.check_join nodeB.node [7, 8]] } := by
    decide
  exact ⟨_, h, rfl, rfl⟩

/-! ## The master-transfer step -/

/-- The master-transfer branch of the dispatcher in any state whose previous
log entry exists: the view is set to `this_node`, the event is written back and
popped again, and then the sender is appended all the same. -/
theorem dispatch_join_unblocked_transfer (SD_MAX_NODES : Nat) (ev d : zk_event) (t : State)
    (hres : ev.join_result = CJ_RES_MASTER_TRANSFER) (hjoin : ev.type = EVENT_JOIN)
    (hunblocked : ev.blocked = 0) (hring : t.nr_zk_levents = 0)
    (hprev : queue_get t (t.queue_pos - 1) = some d) (hslots : 2 ≤ t.zk_nodes.length) :
    ∃ s1 : State,
      dispatch_join_unblocked SD_MAX_NODES ev t = Res.ret 0 s1 ∧
      view s1 = [{ t.this_node with joined := 1 }, ev.sender] ∧ s1.nr_zk_nodes = 2 ∧
      ∃ buf : List Nat, s1.trace = t.trace ++
        [Action.log_set (t.queue_pos - 1) (event_data ev),
         Action.join_handler ev.sender.node [t.this_node.node, ev.sender.node] 2
           CJ_RES_MASTER_TRANSFER buf] := by
  have hne : (event_data ev).type ≠ EVENT_LEAVE := by
    show ev.type ≠ EVENT_LEAVE
    rw [hjoin]; decide
  have hub : (event_data ev).blocked = 0 := hunblocked
  unfold dispatch_join_unblocked array_set
  rw [if_pos hres, if_pos (by omega)]
  simp only []
  rw [zk_queue_push_back_some _ d]
  rotate_left
  · exact hprev
  simp only [Res.bind]
  rw [zk_queue_pop_log _ _ (event_data ev)]
  rotate_left
  · exact hring
  · exact queue_get_set_self t _ _ d _ hprev rfl
  rw [pop_log_unblocked _ _ _ hub hne]
  simp only []
  have hview : ∀ u : State,
      u.zk_nodes = t.zk_nodes.set 0 { t.this_node with joined := 1 } → u.nr_zk_nodes = 1 →
      u.this_node = t.this_node →
      u.trace = t.trace ++ [Action.log_set (t.queue_pos - 1) (event_data ev)] →
      ∃ s1 : State,
        dispatch_join_append (zk_get_event (event_data ev) ev) u = Res.ret 0 s1 ∧
        view s1 = [{ t.this_node with joined := 1 }, ev.sender] ∧ s1.nr_zk_nodes = 2 ∧
        ∃ buf : List Nat, s1.trace = t.trace ++
          [Action.log_set (t.queue_pos - 1) (event_data ev),
           Action.join_handler ev.sender.node [t.this_node.node, ev.sender.node] 2
             CJ_RES_MASTER_TRANSFER buf] := by
    intro u h1 h2 h3 h4
    have hv : view u = [{ t.this_node with joined := 1 }] := by
      unfold view
      rw [h1, h2]
      rcases hz : t.zk_nodes with _ | ⟨a, rest⟩
      · rw [hz] at hslots; simp at hslots
      · rfl
    rw [dispatch_join_append_ok _ _ (by rw [h1, h2, List.length_set]; omega)]
    refine ⟨_, rfl, ?_, ?_, ?_⟩
    · show List.take (u.nr_zk_nodes + 1) (u.zk_nodes.set u.nr_zk_nodes _) = _
      rw [take_set_succ _ _ _ (by rw [h1, h2, List.length_set]; omega)]
      have hv' : List.take u.nr_zk_nodes u.zk_nodes = [{ t.this_node with joined := 1 }] := hv
      rw [hv']
      rfl
    · show u.nr_zk_nodes + 1 = 2
      rw [h2]
    · refine ⟨(zk_get_event (event_data ev) ev).buf, ?_⟩
      show u.trace ++ _ = _
      rw [h4, hv, h2, List.append_assoc]
      have hr : (zk_get_event (event_data ev) ev).join_result = CJ_RES_MASTER_TRANSFER := hres
      rw [hr]
      rfl
  split
  · exact hview _ rfl rfl rfl rfl
  · exact hview _ rfl rfl rfl rfl

/-- The tick that pops an unblocked Join carrying `MASTER_TRANSFER`, for every
view in an array of at least two slots: the view afterwards has two members,
this process and the sender, and `join_handler` is called with two nodes. -/
theorem tick_transfer_view (SD_MAX_NODES : Nat)
    (check_join : sd_node → List Nat → cluster_join_result) (stack e : zk_event) (s : State)
    (htick : s.efd ≠ 0) (hring : s.nr_zk_levents = 0) (hnb : s.zk_notify_blocked = 0)
    (hentry : queue_get s s.queue_pos = some e)
    (hjoin : e.type = EVENT_JOIN) (hunblocked : e.blocked = 0)
    (hres : e.join_result = CJ_RES_MASTER_TRANSFER) (hslots : 2 ≤ s.zk_nodes.length) :
    ∃ s1 : State,
      zk_dispatch SD_MAX_NODES check_join stack s = Res.ret 0 s1 ∧
      view s1 = [{ s.this_node with joined := 1 }, e.sender] ∧ s1.nr_zk_nodes = 2 ∧
      ∃ (d : zk_event) (buf : List Nat), s1.trace = s.trace ++
        [Action.log_set s.queue_pos d,
         Action.join_handler e.sender.node [s.this_node.node, e.sender.node] 2
           CJ_RES_MASTER_TRANSFER buf] := by
  have hne : e.type ≠ EVENT_LEAVE := by rw [hjoin]; decide
  have ht : (zk_get_event e stack).type = EVENT_JOIN := hjoin
  have hb : ¬ (zk_get_event e stack).blocked ≠ 0 := by simpa using hunblocked
  have hgen : ∀ t : State, t.nr_zk_levents = 0 → t.queue_pos = s.queue_pos + 1 →
      t.queue = s.queue → t.zk_nodes = s.zk_nodes → t.this_node = s.this_node →
      t.trace = s.trace →
      ∃ s1 : State,
        dispatch_join_unblocked SD_MAX_NODES (zk_get_event e stack) t = Res.ret 0 s1 ∧
        view s1 = [{ s.this_node with joined := 1 }, e.sender] ∧ s1.nr_zk_nodes = 2 ∧
        ∃ (d : zk_event) (buf : List Nat), s1.trace = s.trace ++
          [Action.log_set s.queue_pos d,
           Action.join_handler e.sender.node [s.this_node.node, e.sender.node] 2
             CJ_RES_MASTER_TRANSFER buf] := by
    intro t h1 h2 h3 h4 h5 h6
    have hprev : queue_get t (t.queue_pos - 1) = some e := by
      rw [h2, Int.add_sub_cancel, queue_get_of_queue_eq s t _ h3]
      exact hentry
    obtain ⟨s1, r1, r2, r3, buf, r4⟩ := dispatch_join_unblocked_transfer SD_MAX_NODES
      (zk_get_event e stack) e t hres hjoin hunblocked h1 hprev (by rw [h4]; exact hslots)
    refine ⟨s1, r1, ?_, r3, event_data (zk_get_event e stack), buf, ?_⟩
    · rw [r2, h5]; rfl
    · rw [r4, h2, Int.add_sub_cancel, h5, h6]; rfl
  rw [zk_dispatch_tick _ _ _ _ htick hnb,
    zk_queue_pop_log _ _ e { s with efd := 0 } hring hentry,
    pop_log_unblocked _ _ _ hunblocked hne]
  simp only [Res.bind]
  rw [if_neg (by decide)]
  unfold dispatch_event
  simp only [ht, if_neg hb]
  split
  · exact hgen _ hring rfl rfl rfl rfl rfl
  · exact hgen _ hring rfl rfl rfl rfl rfl

/-- C12 (failing input): the tick that pops the unblocked Join of `B` carrying
`MASTER_TRANSFER`.  At the joiner `B`, with view `[A]`, the view afterwards is
`[B, B]`; at the member `C`, with view `[A, C]`, it is `[C, B]`.  In both the
view has two members, not one, and `join_handler` is called with two nodes. -/
theorem C12_transfer_view_has_two :
    (transfer_at_B.efd ≠ 0 ∧ transfer_at_B.nr_zk_levents = 0 ∧
      transfer_at_B.zk_notify_blocked = 0 ∧
      queue_get transfer_at_B transfer_at_B.queue_pos = some joinB_transfer ∧
      queue_get transfer_at_C transfer_at_C.queue_pos = some joinB_transfer ∧
      joinB_transfer.type = EVENT_JOIN ∧ joinB_transfer.blocked = 0 ∧
      joinB_transfer.join_result = CJ_RES_MASTER_TRANSFER) ∧
    (∃ s1 : State,
      zk_dispatch 4 (fun _ _ => CJ_RES_SUCCESS) event0 transfer_at_B = Res.ret 0 s1 ∧
      view s1 = [nodeB, nodeB] ∧ s1.nr_zk_nodes = 2 ∧
      view s1 ≠ [{ transfer_at_B.this_node with joined := 1 }] ∧
      s1.trace = [Action.log_set 0 joinB_transfer,
        Action.join_handler nodeB.node [nodeB.node, nodeB.node] 2 CJ_RES_MASTER_TRANSFER
          [7, 8]]) ∧
    ∃ s1 : State,
      zk_dispatch 4 (fun _ _ => CJ_RES_SUCCESS) event0 transfer_at_C = Res.ret 0 s1 ∧
      view s1 = [nodeC, nodeB] ∧ s1.nr_zk_nodes = 2 ∧
      view s1 ≠ [{ transfer_at_C.this_node with joined := 1 }] ∧
      s1.trace = [Action.log_set 0 joinB_transfer,
        Action.join_handler nodeB.node [nodeC.node, nodeB.node] 2 CJ_RES_MASTER_TRANSFER
          [7, 8]] := by
  refine ⟨by decide, ?_, ?_⟩
  · obtain ⟨a, s1, h1, h2⟩ := ret_of_returned
      (zk_dispatch 4 (fun _ _ => CJ_RES_SUCCESS) event0 transfer_at_B)
      (fun p => (p.1, view p.2, p.2.nr_zk_nodes, p.2.trace))
      (0, [nodeB, nodeB], 2, [Action.log_set 0 joinB_transfer,
        Action.join_handler nodeB.node [nodeB.node, nodeB.node] 2 CJ_RES_MASTER_TRANSFER
          [7, 8]]) (by decide)
    simp only [Prod.mk.injEq] at h2
    obtain ⟨h3, h4, h5, h6⟩ := h2
    subst h3
    exact ⟨s1, h1, h4, h5, by rw [h4]; decide, h6⟩
  · obtain ⟨a, s1, h1, h2⟩ := ret_of_returned
      (zk_dispatch 4 (fun _ _ => CJ_RES_SUCCESS) event0 transfer_at_C)
      (fun p => (p.1, view p.2, p.2.nr_zk_nodes, p.2.trace))
      (0, [nodeC, nodeB], 2, [Action.log_set 0 joinB_transfer,
        Action.join_handler nodeB.node [nodeC.node, nodeB.node] 2 CJ_RES_MASTER_TRANSFER
          [7, 8]]) (by decide)
    simp only [Prod.mk.injEq] at h2
    obtain ⟨h3, h4, h5, h6⟩ := h2
    subst h3
    exact ⟨s1, h1, h4, h5, by rw [h4]; decide, h6⟩

/-! ## Bootstrap and records that are not joined -/

/-- In front of a registry that does not change, the loop over the names is
the loop of `zk_data_init` over the children. -/
theorem data_init_loop_at_static (s0 : State) (ps : List (Nat × zk_node)) :
    ∀ (k : Nat) (s : State), s.member = s0.member →
      data_init_loop_at (fun _ name => member_get s0 name) (ps.map fun p => p.1) k s =
        data_init_loop ps s := by
  induction ps with
  | nil => intro k s _; rfl
  | cons p rest ih =>
    intro k s hm
    have hg : member_get s p.1 = member_get s0 p.1 := by
      unfold member_get; rw [hm]
    rw [List.map_cons, data_init_loop_at, data_init_loop, hg]
    cases member_get s0 p.1 with
    | none => exact ih (k + 1) s hm
    | some z =>
      simp only []
      by_cases hj : z.joined = 0
      · rw [if_pos hj, if_pos hj]
        exact ih (k + 1) s hm
      · rw [if_neg hj, if_neg hj]
        cases array_set s.zk_nodes s.nr_zk_nodes z with
        | none => rfl
        | some nodes => exact ih (k + 1) _ hm

/-- A record read with `joined = 0` ends the visit of its child: the loop goes
on with the next child and the next read. -/
theorem data_init_loop_at_skip (get : Nat → Nat → Option zk_node) (name : Nat)
    (rest : List Nat) (k : Nat) (s : State) (z : zk_node)
    (hget : get k name = some z) (hj : z.joined = 0) :
    data_init_loop_at get (name :: rest) k s = data_init_loop_at get rest (k + 1) s := by
  rw [data_init_loop_at, hget]
  simp only [if_pos hj]

/-- C13 (failing input): bootstrap in front of the children `C, A, D, B`, read
from the last to the first, where the record of `D` shows `joined = 0` when the
loop reads it and `joined = 1` on every later read.  The loop does not read `D`
again: the call returns with the view `[A, B, C]`, without `D`. -/
theorem C13_unjoined_record_skipped :
    (late_joiner_registry 1 4 = some { nodeD with joined := 0 } ∧
      (∀ k, 2 ≤ k → late_joiner_registry k 4 = some nodeD) ∧
      before_bootstrap.finished = 0) ∧
    ∃ s1 : State,
      zk_data_init_at 4 [3, 1, 4, 2] late_joiner_registry before_bootstrap = Res.ret () s1 ∧
      view s1 = [nodeA, nodeB, nodeC] ∧ ∀ z ∈ view s1, z.node ≠ nodeD.node := by
  refine ⟨⟨by decide, ?_, by decide⟩, ?_⟩
  · intro k hk
    unfold late_joiner_registry
    rw [if_pos rfl, if_neg (by omega)]
    rfl
  · have h : zk_data_init_at 4 [3, 1, 4, 2] late_joiner_registry before_bootstrap =
        Res.ret () { before_bootstrap with
          finished := 1, queue_pos := -1,
          zk_nodes := [nodeA, nodeB, nodeC, node0], nr_zk_nodes := 3 } := by
      decide
    exact ⟨_, h, by decide, by decide⟩

/-! ## Joining -/

theorem find_node_from_defined (znodes : List zk_node) (z : zk_node) :
    ∀ (n i : Nat), i + n ≤ znodes.length → ∃ r, find_node_from znodes z n i = some r := by
  intro n
  induction n with
  | zero => intro i _; exact ⟨none, rfl⟩
  | succ n ih =>
    intro i h
    obtain ⟨a, ha⟩ : ∃ a, znodes[i]? = some a :=
      ⟨znodes[i], List.getElem?_eq_getElem (by omega)⟩
    rw [find_node_from, ha]
    simp only []
    split
    · exact ⟨_, rfl⟩
    · exact ih (i + 1) (by omega)

/-- The first call of `zk_data_init` returns; it sets the flag and the cursor
and fills the view, which fits the array, and changes nothing else. -/
theorem zk_data_init_state (SD_MAX_NODES : Nat) (s : State)
    (hfin : s.finished = 0) (hnr : s.nr_zk_nodes = 0)
    (hslots : s.zk_nodes.length = SD_MAX_NODES) (hcap : s.member.length ≤ SD_MAX_NODES)
    (hnames : (s.member.map fun p => p.1).Nodup) :
    ∃ (nodes : List zk_node) (k : Nat),
      zk_data_init SD_MAX_NODES s =
        Res.ret () { s with finished := 1, queue_pos := -1, zk_nodes := nodes,
                            nr_zk_nodes := k } ∧
      k ≤ SD_MAX_NODES ∧ nodes.length = SD_MAX_NODES := by
  have hf : ¬ s.finished ≠ 0 := by simpa using hfin
  obtain ⟨nodes, k, h1, hk, h2, -⟩ := data_init_loop_spec s.member.reverse
    { s with finished := 1, queue_pos := -1 }
    (fun p hp => member_find_of_nodup s.member hnames p (List.mem_reverse.1 hp))
    (by show s.nr_zk_nodes + _ ≤ s.zk_nodes.length
        rw [hnr, hslots, List.length_reverse]; omega)
  have hk2 : k ≤ SD_MAX_NODES := by
    have := List.length_filter_le (fun p : Nat × zk_node => decide (p.2.joined ≠ 0))
      s.member.reverse
    rw [List.length_reverse] at this
    have hz : ({ s with finished := 1, queue_pos := -1 } : State).nr_zk_nodes = 0 := hnr
    rw [hz] at hk
    omega
  have hl : nodes.length = SD_MAX_NODES := h2.trans hslots
  obtain ⟨sorted, m1, m2, -, m4, -⟩ := sort_zk_nodes_sorted SD_MAX_NODES k
    { s with finished := 1, queue_pos := -1, zk_nodes := nodes, nr_zk_nodes := k } hk2 hl
  have hsl : sorted.length = SD_MAX_NODES := by
    have e1 := congrArg List.length (List.take_append_drop k sorted)
    have e2 := congrArg List.length (List.take_append_drop k nodes)
    have e3 : (sorted.take k).length = (nodes.take k).length := m2.length_eq
    have e4 : (sorted.drop k).length = (nodes.drop k).length := congrArg List.length m4
    rw [List.length_append] at e1 e2
    omega
  refine ⟨sorted, k, ?_, hk2, hsl⟩
  unfold zk_data_init
  rw [if_neg hf]
  simp only []
  by_cases hm : s.member.length ≠ 0
  · rw [if_pos hm, h1]
    simp only [Res.bind]
    exact m1
  · rw [if_neg hm]
    simp only [Res.bind]
    have hnil : s.member.reverse = [] := by
      rw [List.length_eq_zero.1 (not_not.1 hm)]
      rfl
    have l1' := h1
    rw [hnil, data_init_loop] at l1'
    injection l1' with _ l1''
    have e1 : s.zk_nodes = nodes := congrArg State.zk_nodes l1''
    have e2 : s.nr_zk_nodes = k := congrArg State.nr_zk_nodes l1''
    rw [l1'', e1, e2]
    exact m1

/-- With the cursor not yet bootstrapped, `zk_queue_seq` appends the Ignore
marker, sets the cursor to its position and signals the wake object. -/
theorem zk_queue_seq_first (s : State) (hpos : s.queue_pos < 0) :
    zk_queue_seq s = Res.ret (s.queue.length : Int)
      { s with queue := s.queue ++ [event0],
               trace := s.trace ++ [Action.log_create s.queue.length event0],
               queue_pos := (s.queue.length : Int), efd := s.efd + 1 } := by
  unfold zk_queue_seq zk_queue_push
  simp only []
  rw [if_pos hpos, if_pos trivial]
  rfl

/-- C14: at the first call of `join`, when the registry already holds a record
named after `self_node`, whatever its `joined` flag, the process panics; the
registry is left as it was, and the log is the old log with at most entries
added that are not a Join. -/
theorem C14_stale_session_panics (SD_MAX_NODES : Nat) (stack : zk_event) (cid : Nat)
    (myself : sd_node) (payload : Option (List Nat)) (payload_len : Nat) (s : State)
    (z : zk_node)
    (hfin : s.finished = 0) (hnr : s.nr_zk_nodes = 0)
    (hslots : s.zk_nodes.length = SD_MAX_NODES) (hcap : s.member.length ≤ SD_MAX_NODES)
    (hnames : (s.member.map fun p => p.1).Nodup)
    (hrec : member_get s (node_to_str myself) = some z) :
    ∃ s1 : State,
      zk_join SD_MAX_NODES stack cid myself payload payload_len s = Res.panic s1 ∧
      s1.member = s.member ∧
      s1.queue.take s.queue.length = s.queue ∧
      ∀ e ∈ s1.queue.drop s.queue.length, e.type ≠ EVENT_JOIN := by
  obtain ⟨nodes, k, h1, hk, hl⟩ := zk_data_init_state SD_MAX_NODES s hfin hnr hslots hcap hnames
  obtain ⟨r, hr⟩ := find_node_from_defined nodes
    { s.this_node with node := myself } k 0 (by omega)
  unfold zk_join
  rw [h1]
  simp only [Res.bind]
  have hfind : find_node nodes k { s.this_node with node := myself } = some r := hr
  rw [hfind]
  cases r with
  | some i =>
    refine ⟨_, rfl, rfl, ?_, ?_⟩
    · show s.queue.take s.queue.length = s.queue
      exact List.take_length _
    · intro e he
      have : s.queue.drop s.queue.length = [] := List.drop_length _
      change e ∈ s.queue.drop s.queue.length at he
      rw [this] at he
      cases he
  | none =>
    simp only []
    unfold zk_join_register
    rw [zk_queue_seq_first]
    rotate_left
    · show (-1 : Int) < 0
      decide
    simp only [Res.bind]
    have hm : member_get
        { s with finished := 1, queue_pos := (s.queue.length : Int), zk_nodes := nodes,
                 nr_zk_nodes := k, queue := s.queue ++ [event0],
                 trace := s.trace ++ [Action.log_create s.queue.length event0],
                 efd := s.efd + 1,
                 this_node := { seq := (s.queue.length : Int), joined := 0, clientid := cid,
                                node := myself } }
        (node_to_str myself) = some z := hrec
    rw [hm]
    refine ⟨_, rfl, rfl, ?_, ?_⟩
    · show (s.queue ++ [event0]).take s.queue.length = s.queue
      exact List.take_left _ _
    · intro e he
      change e ∈ (s.queue ++ [event0]).drop s.queue.length at he
      rw [List.drop_left] at he
      rw [List.mem_singleton.1 he]
      decide

theorem C14_stale_session_panics_witness :
    ((stale_registry 1).finished = 0 ∧ (stale_registry 1).nr_zk_nodes = 0 ∧
      (stale_registry 1).zk_nodes.length = 4 ∧ (stale_registry 1).member.length ≤ 4 ∧
      member_get (stale_registry 1) (node_to_str nodeB.node) = some nodeB ∧
      member_get (stale_registry 0) (node_to_str nodeB.node) =
        some { nodeB with joined := 0 }) ∧
    (∃ s1 : State,
      zk_join 4 event0 99 nodeB.node (some [7, 8]) 2 (stale_registry 1) = Res.panic s1 ∧
      s1.member = (stale_registry 1).member ∧
      s1.queue.take (stale_registry 1).queue.length = (stale_registry 1).queue ∧
      ∀ e ∈ s1.queue.drop (stale_registry 1).queue.length, e.type ≠ EVENT_JOIN) ∧
    (∃ s1 : State,
      zk_join 4 event0 99 nodeB.node (some [7, 8]) 2 (stale_registry 0) = Res.panic s1 ∧
      s1.member = (stale_registry 0).member ∧
      s1.queue.take (stale_registry 0).queue.length = (stale_registry 0).queue ∧
      ∀ e ∈ s1.queue.drop (stale_registry 0).queue.length, e.type ≠ EVENT_JOIN) ∧
    ((zk_join 4 event0 99 nodeB.node (some [7, 8]) 2 (stale_registry 1)).state?.map
        fun t => t.queue) = some [event0] ∧
    ((zk_join 4 event0 99 nodeB.node (some [7, 8]) 2 (stale_registry 0)).state?.map
        fun t => t.queue) = some [event0, event0] :=
  ⟨by decide,
    C14_stale_session_panics 4 event0 99 nodeB.node (some [7, 8]) 2 (stale_registry 1) nodeB
      (by decide) (by decide) (by decide) (by decide) (by decide) (by decide),
    C14_stale_session_panics 4 event0 99 nodeB.node (some [7, 8]) 2 (stale_registry 0)
      { nodeB with joined := 0 }
      (by decide) (by decide) (by decide) (by decide) (by decide) (by decide),
    by decide, by decide⟩

/-! ## The watcher -/

theorem drop_take_succ {α : Type} (l : List α) (i n : Nat) (h : i < l.length) :
    (l.drop i).take (n + 1) = l[i] :: (l.drop (i + 1)).take n := by
  rw [List.drop_eq_getElem_cons h, List.take_succ_cons]

/-- The scan of the watcher finds what `find?` finds in the scanned slots. -/
theorem watcher_scan_spec (znodes : List zk_node) (p : Nat) :
    ∀ (n i : Nat), i + n ≤ znodes.length →
      (∀ z, ((znodes.drop i).take n).find? (fun x => decide (node_to_str x.node = p)) = some z →
        ∃ j, watcher_scan znodes p n i = some (some j) ∧ znodes[j]? = some z) ∧
      (((znodes.drop i).take n).find? (fun x => decide (node_to_str x.node = p)) = none →
        watcher_scan znodes p n i = some none) := by
  intro n
  induction n with
  | zero =>
    intro i _
    refine ⟨?_, fun _ => rfl⟩
    intro z hz
    simp at hz
  | succ n ih =>
    intro i h
    have hi : i < znodes.length := by omega
    have hget : znodes[i]? = some znodes[i] := List.getElem?_eq_getElem hi
    obtain ⟨ih1, ih2⟩ := ih (i + 1) (by omega)
    rw [drop_take_succ _ _ _ hi, watcher_scan, hget]
    simp only []
    by_cases hp : p = node_to_str znodes[i].node
    · rw [if_pos hp, List.find?_cons_of_pos _ (by simpa using hp.symm)]
      refine ⟨?_, fun h => by cases h⟩
      intro z hz
      injection hz with hz
      exact ⟨i, rfl, by rw [hget, hz]⟩
    · rw [if_neg hp, List.find?_cons_of_neg _ (by simpa using fun h => hp h.symm)]
      exact ⟨ih1, ih2⟩

/-- The Leave branch of `add_event` in a ring of `SD_MAX_NODES` slots: the
event is stored in the slot of the tail, the count and the tail go up by one
and the wake object is signalled. -/
theorem add_event_leave_state (SD_MAX_NODES : Nat) (stack : zk_event) (znode : zk_node)
    (s : State) (hM : SD_MAX_NODES ≠ 0) (hslots : s.zk_levents.length = SD_MAX_NODES) :
    add_event SD_MAX_NODES stack EVENT_LEAVE znode none 0 none s =
      Res.ret 0
        { s with zk_levents := s.zk_levents.set (s.zk_levent_tail % SD_MAX_NODES)
                   (leave_event stack znode),
                 nr_zk_levents := s.nr_zk_levents + 1,
                 zk_levent_tail := (s.zk_levent_tail + 1) % 2 ^ 32,
                 efd := s.efd + 1 } := by
  have hlt : s.zk_levent_tail % SD_MAX_NODES < s.zk_levents.length := by
    rw [hslots]; exact Nat.mod_lt _ (Nat.pos_of_ne_zero hM)
  unfold add_event
  simp only [if_neg hM, if_pos hlt]
  rfl

/-- C15: for every view that fits its array and every deletion event on the
member child `name`, when a record of the view has that name, the watcher
returns after it has stored one Leave whose sender is the first such record in
the slot of the ring's tail, with the count and the tail one up and the wake
object signalled; the view, the cursor, the log and the trace are as before, and
in a consistent ring with a free slot the pending events are the old ones
followed by the new one.  A session event (negative kind) or a child event
leaves the whole state as it is. -/
theorem C15_watcher_enqueues_leave (SD_MAX_NODES : Nat) (stack : zk_event) (name : Nat)
    (s : State) (z : zk_node)
    (hM : SD_MAX_NODES ≠ 0) (hslots : s.zk_levents.length = SD_MAX_NODES)
    (hview : s.nr_zk_nodes ≤ s.zk_nodes.length)
    (hfound : (view s).find? (fun x => decide (node_to_str x.node = name)) = some z) :
    (∃ s1 : State,
      watcher SD_MAX_NODES stack ZOO_DELETED_EVENT (some name) s = Res.ret () s1 ∧
      s1.zk_levents =
        s.zk_levents.set (s.zk_levent_tail % SD_MAX_NODES) (leave_event stack z) ∧
      (leave_event stack z).type = EVENT_LEAVE ∧ (leave_event stack z).sender = z ∧
      s1.nr_zk_levents = s.nr_zk_levents + 1 ∧
      s1.zk_levent_tail = (s.zk_levent_tail + 1) % 2 ^ 32 ∧
      s1.zk_levent_head = s.zk_levent_head ∧
      view s1 = view s ∧ s1.queue_pos = s.queue_pos ∧ s1.queue = s.queue ∧
      s1.trace = s.trace ∧ s1.efd = s.efd + 1 ∧
      (ring_ok SD_MAX_NODES s → s.nr_zk_levents < SD_MAX_NODES →
        pending SD_MAX_NODES s1 = pending SD_MAX_NODES s ++ [leave_event stack z])) ∧
    ∀ (type : Int) (path : Option Nat), type < 0 ∨ type = ZOO_CHILD_EVENT →
      watcher SD_MAX_NODES stack type path s = Res.ret () s := by
  constructor
  · have hv : (s.zk_nodes.drop 0).take s.nr_zk_nodes = view s := rfl
    obtain ⟨j, hj, hz⟩ := (watcher_scan_spec s.zk_nodes name s.nr_zk_nodes 0 (by omega)).1 z
      (by rw [hv]; exact hfound)
    have hrun : watcher SD_MAX_NODES stack ZOO_DELETED_EVENT (some name) s =
        Res.ret ()
          { s with zk_levents := s.zk_levents.set (s.zk_levent_tail % SD_MAX_NODES)
                     (leave_event stack z),
                   nr_zk_levents := s.nr_zk_levents + 1,
                   zk_levent_tail := (s.zk_levent_tail + 1) % 2 ^ 32,
                   efd := s.efd + 1 } := by
      unfold watcher
      rw [if_neg (by decide), if_pos rfl]
      simp only [hj, hz]
      rw [add_event_leave_state _ _ _ _ hM hslots]
      rfl
    refine ⟨_, hrun, rfl, rfl, rfl, rfl, rfl, rfl, rfl, rfl, rfl, rfl, rfl, ?_⟩
    intro hok hroom
    obtain ⟨s1, h1, -, h3, -⟩ := add_event_leave SD_MAX_NODES stack z s hok hroom
    rw [add_event_leave_state _ _ _ _ hM hslots] at h1
    injection h1 with _ h1
    rw [h1]
    exact h3
  · intro type path ht
    unfold watcher
    rw [if_pos ht]

theorem C15_watcher_enqueues_leave_witness :
    ((4 : Nat) ≠ 0 ∧ view_three.zk_levents.length = 4 ∧
      view_three.nr_zk_nodes ≤ view_three.zk_nodes.length ∧
      (view view_three).find? (fun x => decide (node_to_str x.node = 2)) = some nodeB ∧
      ring_ok 4 view_three ∧ pending 4 view_three = []) ∧
    (∃ s1 : State,
      watcher 4 event0 ZOO_DELETED_EVENT (some 2) view_three = Res.ret () s1 ∧
      s1.zk_levents = [leaveB, event0, event0, event0] ∧
      s1.nr_zk_levents = 1 ∧ pending 4 s1 = [leaveB] ∧
      view s1 = [nodeA, nodeB, nodeC] ∧ s1.queue_pos = 0 ∧ s1.queue = []) ∧
    watcher 4 event0 ZOO_SESSION_EVENT none view_three = Res.ret () view_three ∧
    watcher 4 event0 ZOO_CHILD_EVENT none view_three = Res.ret () view_three := by
  have hring : ring_ok 4 view_three :=
    ⟨by decide, by norm_num, by decide, by decide, by decide, by decide, by decide⟩
  have hpend : pending 4 view_three = [] := by decide
  obtain ⟨⟨s1, h1, h2, -, -, h5, -, -, h8, h9, h10, -, -, h13⟩, hs⟩ :=
    C15_watcher_enqueues_leave 4 event0 2 view_three nodeB (by decide) (by decide) (by decide)
      (by decide)
  refine ⟨⟨by decide, by decide, by decide, by decide, hring, hpend⟩,
    ⟨s1, h1, h2, h5, ?_, h8, h9, h10⟩, hs _ _ (Or.inl (by decide)), hs _ _ (Or.inr rfl)⟩
  rw [h13 hring (by decide), hpend]
  rfl

/-! ## The leave fast path and a crash during a join -/

/-- The cursor after the leave branch of `zk_queue_pop`: one further when the
entry at the cursor is blocked and was sent by the node of the Leave. -/
theorem pop_leave_skip (ev lev d : zk_event) (s : State)
    (hq : queue_get s s.queue_pos = some d)
    (hsame : node_cmp d.sender.node lev.sender.node = 0) (hb : d.blocked ≠ 0) :
    (pop_leave ev lev s).queue_pos = s.queue_pos + 1 := by
  have hc : node_cmp (zk_get_event d ev).sender.node lev.sender.node = 0 ∧
      (zk_get_event d ev).blocked ≠ 0 := ⟨hsame, hb⟩
  unfold pop_leave
  rw [hq]
  simp only [if_pos hc]
  split
  · rfl
  · split <;> rfl

/-- The cursor after the leave branch of `zk_queue_pop`: unchanged when there
is no entry at the cursor, or the entry is not blocked, or its sender is
another node. -/
theorem pop_leave_stay (ev lev : zk_event) (s : State)
    (h : ∀ d, queue_get s s.queue_pos = some d →
      ¬ (node_cmp d.sender.node lev.sender.node = 0 ∧ d.blocked ≠ 0)) :
    (pop_leave ev lev s).queue_pos = s.queue_pos := by
  unfold pop_leave
  cases hq : queue_get s s.queue_pos with
  | none =>
    simp only []
    split <;> rfl
  | some d =>
    have hc : ¬ (node_cmp (zk_get_event d ev).sender.node lev.sender.node = 0 ∧
        (zk_get_event d ev).blocked ≠ 0) := h d hq
    simp only [if_neg hc]
    rfl

/-- A deletion event for a member child whose name no record of the view has:
the watcher stores nothing and signals the wake object. -/
theorem watcher_absent (SD_MAX_NODES : Nat) (stack : zk_event) (name : Nat) (s : State)
    (hview : s.nr_zk_nodes ≤ s.zk_nodes.length)
    (habsent : ∀ x ∈ view s, node_to_str x.node ≠ name) :
    watcher SD_MAX_NODES stack ZOO_DELETED_EVENT (some name) s = Res.ret () (eventfd_write s) := by
  have hv : (s.zk_nodes.drop 0).take s.nr_zk_nodes = view s := rfl
  have hnone : ((s.zk_nodes.drop 0).take s.nr_zk_nodes).find?
      (fun x => decide (node_to_str x.node = name)) = none := by
    rw [hv, List.find?_eq_none]
    intro x hx
    simpa using habsent x hx
  have hscan := (watcher_scan_spec s.zk_nodes name s.nr_zk_nodes 0 (by omega)).2 hnone
  unfold watcher
  rw [if_neg (by decide), if_pos rfl]
  simp only [hscan]

/-- Let the view fit its array and hold no record of the sender of `e`, the
blocked entry at the cursor.  (1) A deletion event for the member child of that
node enqueues nothing: the watcher, which looks the name up in the view only,
returns with the state as it was but for one more wake signal.  (2) Were a Leave
of that node at the head of the leave ring, the tick would take it, move the
cursor one past the blocked entry and discard the Leave without a call of
`leave_handler`, the view and the log unchanged. -/
theorem crash_during_join_steps (SD_MAX_NODES : Nat)
    (check_join : sd_node → List Nat → cluster_join_result) (stack : zk_event)
    (e : zk_event) (s : State)
    (hview : s.nr_zk_nodes ≤ s.zk_nodes.length)
    (hentry : queue_get s s.queue_pos = some e)
    (hblocked : e.blocked ≠ 0)
    (habsent : ∀ x ∈ view s, x.node ≠ e.sender.node) :
    watcher SD_MAX_NODES stack ZOO_DELETED_EVENT (some (node_to_str e.sender.node)) s =
      Res.ret () (eventfd_write s) ∧
    ∀ lev : zk_event, s.efd ≠ 0 → s.zk_notify_blocked = 0 → s.nr_zk_levents ≠ 0 →
      SD_MAX_NODES ≠ 0 → s.zk_levents[s.zk_levent_head % SD_MAX_NODES]? = some lev →
      lev.type = EVENT_LEAVE → lev.sender.node = e.sender.node →
      ∃ s1 : State,
        zk_dispatch SD_MAX_NODES check_join stack s = Res.ret 0 s1 ∧
        s1.queue_pos = s.queue_pos + 1 ∧ view s1 = view s ∧ s1.trace = s.trace ∧
        s1.queue = s.queue ∧ s1.nr_zk_levents = s.nr_zk_levents - 1 := by
  constructor
  · apply watcher_absent _ _ _ _ hview
    intro x hx hn
    apply habsent x hx
    cases hxn : x.node
    cases hen : e.sender.node
    rw [hxn, hen] at hn
    exact congrArg sd_node.mk hn
  · intro lev htick hnb hring hM hhead hleave hsender
    obtain ⟨k1, k2, k3, k4, -, -, k7, -⟩ :=
      pop_leave_keeps stack lev { s with efd := 0, nr_zk_levents := s.nr_zk_levents - 1 }
    have hcur := pop_leave_skip stack lev e
      { s with efd := 0, nr_zk_levents := s.nr_zk_levents - 1 } hentry
      ((node_cmp_eq_zero _ _).2 hsender.symm) hblocked
    have hvt : view (pop_leave stack lev
        { s with efd := 0, nr_zk_levents := s.nr_zk_levents - 1 }) = view s := by
      unfold view; rw [k1, k2]
    have hrun : zk_dispatch SD_MAX_NODES check_join stack s =
        dispatch_leave lev (pop_leave stack lev
          { s with efd := 0, nr_zk_levents := s.nr_zk_levents - 1 }) := by
      rw [zk_dispatch_tick _ _ _ _ htick hnb,
        zk_queue_pop_leave _ _ lev { s with efd := 0 } hring hM hhead]
      simp only [Res.bind]
      rw [if_neg (by decide)]
      unfold dispatch_event
      simp only [hleave]
    have r1 := dispatch_leave_absent lev
      (pop_leave stack lev { s with efd := 0, nr_zk_levents := s.nr_zk_levents - 1 })
      (by rw [k1, k2]; exact hview)
      (by rw [hvt, hsender]; exact habsent)
    exact ⟨_, hrun.trans r1, hcur, hvt, k3, k4, k7⟩

theorem crash_during_join_steps_example :
    (view join_pending_no_record = [nodeA] ∧
      queue_get join_pending_no_record join_pending_no_record.queue_pos = some joinB_blocked ∧
      joinB_blocked.blocked ≠ 0 ∧
      view crash_leave_pending = [nodeA] ∧
      queue_get crash_leave_pending crash_leave_pending.queue_pos = some joinB_blocked ∧
      pending 4 crash_leave_pending = [leaveB]) ∧
    watcher 4 event0 ZOO_DELETED_EVENT (some 2) join_pending_no_record =
      Res.ret () (eventfd_write join_pending_no_record) ∧
    ∃ s1 : State,
      zk_dispatch 4 (fun _ _ => CJ_RES_SUCCESS) event0 crash_leave_pending = Res.ret 0 s1 ∧
      s1.queue_pos = crash_leave_pending.queue_pos + 1 ∧
      view s1 = view crash_leave_pending ∧ s1.trace = crash_leave_pending.trace ∧
      s1.queue = crash_leave_pending.queue ∧
      s1.nr_zk_levents = crash_leave_pending.nr_zk_levents - 1 :=
  ⟨by decide,
    (crash_during_join_steps 4 (fun _ _ => CJ_RES_SUCCESS) event0 joinB_blocked
      join_pending_no_record (by decide) (by decide) (by decide) (by decide)).1,
    (crash_during_join_steps 4 (fun _ _ => CJ_RES_SUCCESS) event0 joinB_blocked
      crash_leave_pending (by decide) (by decide) (by decide) (by decide)).2 leaveB
      (by decide) (by decide) (by decide) (by decide) (by decide) (by decide) (by decide)⟩

/-- C16 (failing input): master `A` with view `[A]` and the blocked Join of
`B` at its cursor; the member child of `B` has been deleted.  The watcher, called
with the deletion event for that child, finds no record of `B` in the view and
enqueues no Leave: the ring is as empty as before.  The tick that follows does
not skip the Join through the leave branch of the pop: it pops the Join, calls
the join hook and panics at the read of the missing record. -/
theorem C16_watcher_misses_joiner :
    (view join_pending_no_record = [nodeA] ∧
      queue_get join_pending_no_record join_pending_no_record.queue_pos = some joinB_blocked ∧
      joinB_blocked.type = EVENT_JOIN ∧ joinB_blocked.blocked ≠ 0 ∧
      joinB_blocked.sender.node = nodeB.node ∧ node_to_str nodeB.node = 2 ∧
      is_master 4 join_pending_no_record join_pending_no_record.this_node = some 0 ∧
      join_pending_no_record.nr_zk_levents = 0) ∧
    ∃ s1 : State,
      watcher 4 event0 ZOO_DELETED_EVENT (some 2) join_pending_no_record = Res.ret () s1 ∧
      s1.nr_zk_levents = 0 ∧ pending 4 s1 = [] ∧
      s1.zk_levents = join_pending_no_record.zk_levents ∧
      ∃ s2 : State,
        zk_dispatch 4 (fun _ _ => CJ_RES_SUCCESS) event0 s1 = Res.panic s2 ∧
        s2.trace = [Action.check_join nodeB.node [7, 8]] := by
  refine ⟨by decide, eventfd_write join_pending_no_record, by decide, by decide, by decide,
    by decide, ?_⟩
  have h : zk_dispatch 4 (fun _ _ => CJ_RES_SUCCESS) event0
      (eventfd_write join_pending_no_record) =
      Res.panic { join_pending_no_record with
        efd := 0, queue_pos := 1, trace := [Action.check_join nodeB.node [7, 8]] } := by
    decide
  exact ⟨_, h, rfl⟩

/-! ## Solo bootstrap -/

/-- A fresh process joins in front of an empty registry: `zk_join` returns 0
and leaves the state `solo_joined`. -/
theorem zk_join_solo (SD_MAX_NODES : Nat) (log : List zk_event) (stack : zk_event) (cid : Nat)
    (myself : sd_node) (p : List Nat) (len : Nat)
    (hmax : len ≤ MAX_EVENT_BUF_SIZE) (hpay : len ≤ p.length) :
    zk_join SD_MAX_NODES stack cid myself (some p) len
        (zk_init (process_start SD_MAX_NODES log [])) =
      Res.ret 0 (solo_joined SD_MAX_NODES log stack cid myself p len) := by
  have hdata : zk_data_init SD_MAX_NODES (zk_init (process_start SD_MAX_NODES log [])) =
      Res.ret () { zk_init (process_start SD_MAX_NODES log []) with
        finished := 1, queue_pos := -1 } := by
    unfold zk_data_init sort_zk_nodes
    rfl
  have htake : (p.take len ++ stack.buf.drop len).take len = p.take len := by
    rw [List.take_append_of_le_length (by simp; omega), List.take_take, Nat.min_self]
  unfold zk_join
  rw [hdata]
  simp only [Res.bind]
  have hfind : find_node (List.replicate SD_MAX_NODES node0) 0
      { node0 with node := myself } = some none := rfl
  have hfind' : find_node
      ({ zk_init (process_start SD_MAX_NODES log []) with
         finished := 1, queue_pos := -1,
         this_node := { node0 with node := myself } } : State).zk_nodes
      ({ zk_init (process_start SD_MAX_NODES log []) with
         finished := 1, queue_pos := -1,
         this_node := { node0 with node := myself } } : State).nr_zk_nodes
      { node0 with node := myself } = some none := hfind
  rw [show ({ zk_init (process_start SD_MAX_NODES log []) with
         finished := 1, queue_pos := -1 } : State).this_node = node0 from rfl]
  rw [hfind']
  simp only []
  unfold zk_join_register
  rw [zk_queue_seq_first]
  rotate_left
  · show (-1 : Int) < 0
    decide
  simp only [Res.bind]
  unfold add_event add_event_push zk_queue_push
  simp only [if_neg (Nat.not_lt.2 hmax)]
  unfold solo_joined join_entry join_record event_data member_get
  have hlog : ¬ ((log.length : Int) < 0) := by omega
  simp [htake, zk_init, process_start, Res.bind, hlog]

/-- A tick on an unblocked Ignore entry that has a successor in the log: the
entry is dropped, the cursor moves on and the wake object is signalled again. -/
theorem tick_ignore (SD_MAX_NODES : Nat)
    (check_join : sd_node → List Nat → cluster_join_result) (stack e : zk_event) (s : State)
    (htick : s.efd ≠ 0) (hring : s.nr_zk_levents = 0) (hnb : s.zk_notify_blocked = 0)
    (hentry : queue_get s s.queue_pos = some e)
    (hign : e.type = EVENT_IGNORE) (hunblocked : e.blocked = 0)
    (hnext : (queue_get s (s.queue_pos + 1)).isSome = true) :
    zk_dispatch SD_MAX_NODES check_join stack s =
      Res.ret 0 { s with efd := 1, queue_pos := s.queue_pos + 1 } := by
  have hne : e.type ≠ EVENT_LEAVE := by rw [hign]; decide
  have ht : (zk_get_event e stack).type = EVENT_IGNORE := hign
  have hnext' : (queue_get { s with efd := 0 } (s.queue_pos + 1)).isSome = true := hnext
  rw [zk_dispatch_tick _ _ _ _ htick hnb,
    zk_queue_pop_log _ _ e { s with efd := 0 } hring hentry,
    pop_log_unblocked _ _ _ hunblocked hne]
  simp only [Res.bind]
  rw [if_neg (by decide), if_pos hnext']
  unfold dispatch_event
  simp only [ht]
  rfl

/-- A tick of the master on a blocked Join whose sender has a member record,
when the hook does not answer `MASTER_TRANSFER`. -/
theorem tick_join_approve (SD_MAX_NODES : Nat)
    (check_join : sd_node → List Nat → cluster_join_result) (stack e : zk_event)
    (s : State) (m : Int) (z : zk_node)
    (htick : s.efd ≠ 0) (hring : s.nr_zk_levents = 0) (hnb : s.zk_notify_blocked = 0)
    (hmaster : is_master SD_MAX_NODES s s.this_node = some m) (hm : 0 ≤ m)
    (hentry : queue_get s s.queue_pos = some e)
    (hjoin : e.type = EVENT_JOIN) (hblocked : e.blocked ≠ 0)
    (hlen : e.buf.length = e.buf_len) (hmax : e.buf_len ≤ MAX_EVENT_BUF_SIZE)
    (hmember : member_get s (node_to_str e.sender.node) = some z)
    (hres : check_join e.sender.node (zk_get_event e stack).buf ≠ CJ_RES_MASTER_TRANSFER) :
    zk_dispatch SD_MAX_NODES check_join stack s =
      Res.ret 0
      { s with
        efd := 0,
        member := member_set s (node_to_str e.sender.node) { z with joined := 1 },
        queue := s.queue.set s.queue_pos.toNat
          { e with join_result := check_join e.sender.node (zk_get_event e stack).buf,
                   blocked := 0, sender := { e.sender with joined := 1 } },
        trace := s.trace ++
          [Action.check_join e.sender.node (zk_get_event e stack).buf,
           Action.member_set (node_to_str e.sender.node) { z with joined := 1 },
           Action.log_set s.queue_pos
             { e with join_result := check_join e.sender.node (zk_get_event e stack).buf,
                      blocked := 0, sender := { e.sender with joined := 1 } }] } := by
  have hne : e.type ≠ EVENT_LEAVE := by rw [hjoin]; decide
  have hdata : event_data
      { zk_get_event e stack with
        join_result := check_join e.sender.node (zk_get_event e stack).buf,
        blocked := 0, sender := { e.sender with joined := 1 } } =
      { e with join_result := check_join e.sender.node (zk_get_event e stack).buf,
               blocked := 0, sender := { e.sender with joined := 1 } } := by
    have := take_zk_get_event e stack hlen hmax
    unfold event_data
    simpa [zk_get_event] using this
  have hmem1 : member_get { s with efd := 0, queue_pos := s.queue_pos + 1 }
      (node_to_str (zk_get_event e stack).sender.node) = some z := hmember
  have hback : queue_get { s with efd := 0, queue_pos := s.queue_pos + 1 }
      (s.queue_pos + 1 - 1) = some e := by
    rw [Int.add_sub_cancel]; exact hentry
  have hm1 : is_master SD_MAX_NODES { s with efd := 0, queue_pos := s.queue_pos + 1 }
      s.this_node = some m := hmaster
  have ht : (zk_get_event e stack).type = EVENT_JOIN := hjoin
  have hb : (zk_get_event e stack).blocked ≠ 0 := hblocked
  have hsender : (zk_get_event e stack).sender = e.sender := rfl
  have hres' : ¬ check_join (zk_get_event e stack).sender.node (zk_get_event e stack).buf =
      CJ_RES_MASTER_TRANSFER := hres
  rw [tick_blocked_entry _ _ _ e s htick hring hnb hentry hblocked hne]
  unfold dispatch_event
  simp only [ht, if_pos hb]
  rw [dispatch_join_blocked_master SD_MAX_NODES check_join _ e _ m z hm1 hm hmem1 hback,
    if_neg hres']
  rw [hsender, hdata]
  simp only [Int.add_sub_cancel, List.append_assoc, List.singleton_append]
  rfl

/-- A tick on an unblocked Join at the end of the log whose result is not
`MASTER_TRANSFER`, with a free slot behind the view. -/
theorem tick_join_append (SD_MAX_NODES : Nat)
    (check_join : sd_node → List Nat → cluster_join_result) (stack e : zk_event) (s : State)
    (htick : s.efd ≠ 0) (hring : s.nr_zk_levents = 0) (hnb : s.zk_notify_blocked = 0)
    (hentry : queue_get s s.queue_pos = some e)
    (hjoin : e.type = EVENT_JOIN) (hunblocked : e.blocked = 0)
    (hres : e.join_result ≠ CJ_RES_MASTER_TRANSFER)
    (hroom : s.nr_zk_nodes < s.zk_nodes.length)
    (hlast : queue_get s (s.queue_pos + 1) = none) :
    zk_dispatch SD_MAX_NODES check_join stack s =
      Res.ret 0
      { s with
        efd := 0, queue_pos := s.queue_pos + 1,
        zk_nodes := s.zk_nodes.set s.nr_zk_nodes e.sender,
        nr_zk_nodes := s.nr_zk_nodes + 1,
        trace := s.trace ++
          [Action.join_handler e.sender.node ((view s ++ [e.sender]).map fun z => z.node)
            (s.nr_zk_nodes + 1) e.join_result (zk_get_event e stack).buf] } := by
  have hne : e.type ≠ EVENT_LEAVE := by rw [hjoin]; decide
  have ht : (zk_get_event e stack).type = EVENT_JOIN := hjoin
  have hb : ¬ (zk_get_event e stack).blocked ≠ 0 := by simpa using hunblocked
  have hr : ¬ (zk_get_event e stack).join_result = CJ_RES_MASTER_TRANSFER := hres
  have hnext : ¬ (queue_get { s with efd := 0 } (s.queue_pos + 1)).isSome = true := by
    have : queue_get { s with efd := 0 } (s.queue_pos + 1) = none := hlast
    rw [this]
    decide
  rw [zk_dispatch_tick _ _ _ _ htick hnb,
    zk_queue_pop_log _ _ e { s with efd := 0 } hring hentry,
    pop_log_unblocked _ _ _ hunblocked hne]
  simp only [Res.bind]
  rw [if_neg (by decide), if_neg hnext]
  unfold dispatch_event dispatch_join_unblocked
  simp only [ht, if_neg hb, if_neg hr]
  rw [dispatch_join_append_ok]
  · rfl
  · exact hroom

theorem queue_get_nat (s : State) (n : Nat) : queue_get s (n : Int) = s.queue[n]? := by
  unfold queue_get
  rw [if_pos (by omega)]
  rfl

theorem queue_get_nat_succ (s : State) (n : Nat) :
    queue_get s ((n : Int) + 1) = s.queue[n + 1]? := by
  have h : ((n : Int) + 1) = ((n + 1 : Nat) : Int) := by push_cast; rfl
  rw [h, queue_get_nat]

theorem getElem?_append_pair {α : Type} (l : List α) (a b : α) :
    (l ++ [a, b])[l.length]? = some a ∧ (l ++ [a, b])[l.length + 1]? = some b ∧
      (l ++ [a, b])[l.length + 2]? = none := by
  refine ⟨?_, ?_, ?_⟩
  · rw [List.getElem?_append_right (le_refl _)]
    simp
  · rw [List.getElem?_append_right (by omega)]
    simp
  · rw [List.getElem?_eq_none]
    simp

theorem set_append_pair {α : Type} (l : List α) (a b c : α) :
    (l ++ [a, b]).set (l.length + 1) c = l ++ [a, c] := by
  rw [List.set_append_right _ _ (by omega)]
  simp

/-- C17 (amended): a fresh process, after `init` in front of an empty registry
(and any log), calls `join(myself, p)`, and the hook never answers
`MASTER_TRANSFER`.  The join returns with one member record, `joined = 0`.
The first tick only consumes the Ignore marker: registry, view and trace are as
before.  The second tick approves the Join: the registry holds exactly that
one record, now with `joined = 1`.  After the change watch has signalled the
wake object, the third tick puts the record into the view, which is then
`[myself]` of length 1, and calls `join_handler` once, with the node, the view
`[myself]`, the length 1, the hook's result and the payload. -/
theorem C17_solo_bootstrap (SD_MAX_NODES : Nat)
    (check_join : sd_node → List Nat → cluster_join_result)
    (stackJ st1 st2 stw st3 : zk_event) (cid : Nat) (myself : sd_node) (p : List Nat)
    (len : Nat) (log : List zk_event)
    (hM : 1 ≤ SD_MAX_NODES) (hmax : len ≤ MAX_EVENT_BUF_SIZE) (hpay : len ≤ p.length)
    (hres : ∀ b, check_join myself b ≠ CJ_RES_MASTER_TRANSFER) :
    ∃ sJ s1 s2 sw s3 : State,
      zk_join SD_MAX_NODES stackJ cid myself (some p) len
        (zk_init (process_start SD_MAX_NODES log [])) = Res.ret 0 sJ ∧
      sJ.member = [(node_to_str myself, join_record log.length cid myself)] ∧
      zk_dispatch SD_MAX_NODES check_join st1 sJ = Res.ret 0 s1 ∧
      s1.member = sJ.member ∧ s1.trace = sJ.trace ∧ view s1 = [] ∧
      zk_dispatch SD_MAX_NODES check_join st2 s1 = Res.ret 0 s2 ∧
      s2.member =
        [(node_to_str myself, { join_record log.length cid myself with joined := 1 })] ∧
      view s2 = [] ∧
      (∀ a ∈ s2.trace, ∀ n es k r b, a ≠ Action.join_handler n es k r b) ∧
      watcher SD_MAX_NODES stw ZOO_CHANGED_EVENT none s2 = Res.ret () sw ∧
      zk_dispatch SD_MAX_NODES check_join st3 sw = Res.ret 0 s3 ∧
      s3.member = s2.member ∧
      view s3 = [{ join_record log.length cid myself with joined := 1 }] ∧
      s3.nr_zk_nodes = 1 ∧
      ∃ (r : cluster_join_result) (buf : List Nat),
        s3.trace = s2.trace ++ [Action.join_handler myself [myself] 1 r buf] ∧
        r ≠ CJ_RES_MASTER_TRANSFER ∧ buf.take len = p.take len := by
  have hJ := zk_join_solo SD_MAX_NODES log stackJ cid myself p len hmax hpay
  have hplen : (p.take len).length = len := by simp; omega
  have hn1 : ((log.length : Int) + 1).toNat = log.length + 1 := by omega
  -- the first tick pops the Ignore marker
  obtain ⟨s1, h1, a1, a2, a3, a4, a5, a6, a7, a8, a9, a10⟩ : ∃ s1 : State,
      zk_dispatch SD_MAX_NODES check_join st1
        (solo_joined SD_MAX_NODES log stackJ cid myself p len) = Res.ret 0 s1 ∧
      s1.efd = 1 ∧ s1.queue_pos = (log.length : Int) + 1 ∧
      s1.queue = log ++ [event0, join_entry stackJ (join_record log.length cid myself) p len] ∧
      s1.member = [(node_to_str myself, join_record log.length cid myself)] ∧
      s1.nr_zk_levents = 0 ∧ s1.zk_notify_blocked = 0 ∧ s1.nr_zk_nodes = 0 ∧
      s1.zk_nodes = List.replicate SD_MAX_NODES node0 ∧
      s1.this_node = join_record log.length cid myself ∧
      s1.trace = (solo_joined SD_MAX_NODES log stackJ cid myself p len).trace :=
    ⟨_, tick_ignore SD_MAX_NODES check_join st1 event0
      (solo_joined SD_MAX_NODES log stackJ cid myself p len)
      (by show (1 : Nat) ≠ 0; decide) rfl rfl
      (by rw [show (solo_joined SD_MAX_NODES log stackJ cid myself p len).queue_pos =
            (log.length : Int) from rfl, queue_get_nat]
          exact (getElem?_append_pair _ _ _).1)
      rfl rfl
      (by rw [show (solo_joined SD_MAX_NODES log stackJ cid myself p len).queue_pos =
            (log.length : Int) from rfl, queue_get_nat_succ]
          show ((log ++ [event0, _])[log.length + 1]?).isSome = true
          rw [(getElem?_append_pair _ _ _).2.1]
          rfl),
      rfl, rfl, rfl, rfl, rfl, rfl, rfl, rfl, rfl, rfl⟩
  -- the second tick approves the Join
  have hmaster : is_master SD_MAX_NODES s1 s1.this_node = some 0 := by
    unfold is_master
    rw [if_pos a7]
  have hentry1 : queue_get s1 s1.queue_pos =
      some (join_entry stackJ (join_record log.length cid myself) p len) := by
    rw [a2, queue_get_nat_succ, a3]
    exact (getElem?_append_pair _ _ _).2.1
  have hmember1 : member_get s1
      (node_to_str (join_entry stackJ (join_record log.length cid myself) p len).sender.node) =
      some (join_record log.length cid myself) := by
    unfold member_get
    rw [a4]
    simp [join_entry, join_record]
  obtain ⟨s2, h2, b1, b2, b3, b4, b5, b6, b7, b8, b9, b10⟩ : ∃ s2 : State,
      zk_dispatch SD_MAX_NODES check_join st2 s1 = Res.ret 0 s2 ∧
      s2.efd = 0 ∧ s2.queue_pos = s1.queue_pos ∧
      s2.queue = s1.queue.set s1.queue_pos.toNat
        { join_entry stackJ (join_record log.length cid myself) p len with
          join_result := check_join myself
            (zk_get_event (join_entry stackJ (join_record log.length cid myself) p len)
              st2).buf,
          blocked := 0,
          sender := { join_record log.length cid myself with joined := 1 } } ∧
      s2.member = member_set s1 (node_to_str myself)
        { join_record log.length cid myself with joined := 1 } ∧
      s2.nr_zk_levents = s1.nr_zk_levents ∧ s2.zk_notify_blocked = s1.zk_notify_blocked ∧
      s2.nr_zk_nodes = s1.nr_zk_nodes ∧ s2.zk_nodes = s1.zk_nodes ∧
      s2.this_node = s1.this_node ∧
      s2.trace = s1.trace ++
        [Action.check_join myself
           (zk_get_event (join_entry stackJ (join_record log.length cid myself) p len) st2).buf,
         Action.member_set (node_to_str myself)
           { join_record log.length cid myself with joined := 1 },
         Action.log_set s1.queue_pos
           { join_entry stackJ (join_record log.length cid myself) p len with
             join_result := check_join myself
               (zk_get_event (join_entry stackJ (join_record log.length cid myself) p len)
                 st2).buf,
             blocked := 0,
             sender := { join_record log.length cid myself with joined := 1 } }] :=
    ⟨_, tick_join_approve SD_MAX_NODES check_join st2
      (join_entry stackJ (join_record log.length cid myself) p len) s1 0
      (join_record log.length cid myself)
      (by rw [a1]; decide) a5 a6 hmaster (le_refl _) hentry1 rfl
      (by show (1 : Int) ≠ 0; decide) hplen hmax hmember1 (hres _),
      rfl, rfl, rfl, rfl, rfl, rfl, rfl, rfl, rfl, rfl⟩
  have hq2 : s2.queue = log ++ [event0,
      { join_entry stackJ (join_record log.length cid myself) p len with
        join_result := check_join myself
          (zk_get_event (join_entry stackJ (join_record log.length cid myself) p len) st2).buf,
        blocked := 0,
        sender := { join_record log.length cid myself with joined := 1 } }] := by
    rw [b3, a2, hn1, a3, set_append_pair]
  have hm2 : s2.member =
      [(node_to_str myself, { join_record log.length cid myself with joined := 1 })] := by
    rw [b4]
    unfold member_set
    rw [a4]
    simp
  have hv2 : view s2 = [] := by
    unfold view
    rw [b7, a7]
    rfl
  -- the watch on the rewritten entry wakes the dispatcher
  have hw : watcher SD_MAX_NODES stw ZOO_CHANGED_EVENT none s2 =
      Res.ret () (eventfd_write s2) := by
    unfold watcher
    rw [if_neg (by decide), if_neg (by decide)]
  -- the third tick delivers the Join
  have hentry2 : queue_get (eventfd_write s2) (eventfd_write s2).queue_pos =
      some { join_entry stackJ (join_record log.length cid myself) p len with
        join_result := check_join myself
          (zk_get_event (join_entry stackJ (join_record log.length cid myself) p len) st2).buf,
        blocked := 0,
        sender := { join_record log.length cid myself with joined := 1 } } := by
    show queue_get (eventfd_write s2) s2.queue_pos = _
    rw [b2, a2, queue_get_nat_succ]
    show s2.queue[log.length + 1]? = _
    rw [hq2]
    exact (getElem?_append_pair _ _ _).2.1
  have hlast : queue_get (eventfd_write s2) ((eventfd_write s2).queue_pos + 1) = none := by
    show queue_get (eventfd_write s2) (s2.queue_pos + 1) = _
    rw [b2, a2]
    have hc : ((log.length : Int) + 1 + 1) = ((log.length + 1 : Nat) : Int) + 1 := by
      push_cast; rfl
    rw [hc, queue_get_nat_succ]
    show s2.queue[log.length + 1 + 1]? = _
    rw [hq2]
    exact (getElem?_append_pair _ _ _).2.2
  have h3 := tick_join_append SD_MAX_NODES check_join st3 _ (eventfd_write s2)
    (by show s2.efd + 1 ≠ 0; omega) (b5.trans a5) (b6.trans a6) hentry2 rfl rfl (hres _)
    (by show s2.nr_zk_nodes < s2.zk_nodes.length
        rw [b7, a7, b8, a8, List.length_replicate]; omega)
    hlast
  refine ⟨_, s1, s2, eventfd_write s2, _, hJ, rfl, h1, a4, a10, ?_, h2, hm2, hv2, ?_, hw, h3,
    rfl, ?_, ?_, ?_⟩
  · unfold view
    rw [a7]
    rfl
  · intro a ha n es k r b
    rw [b10, a10] at ha
    have ha' : a ∈ [Action.log_create log.length event0,
        Action.log_create (log.length + 1)
          (join_entry stackJ (join_record log.length cid myself) p len)] ++
        [Action.check_join myself
           (zk_get_event (join_entry stackJ (join_record log.length cid myself) p len) st2).buf,
         Action.member_set (node_to_str myself)
           { join_record log.length cid myself with joined := 1 },
         Action.log_set s1.queue_pos
           { join_entry stackJ (join_record log.length cid myself) p len with
             join_result := check_join myself
               (zk_get_event (join_entry stackJ (join_record log.length cid myself) p len)
                 st2).buf,
             blocked := 0,
             sender := { join_record log.length cid myself with joined := 1 } }] := ha
    simp only [List.mem_append, List.mem_cons, List.mem_singleton, List.not_mem_nil,
      or_false] at ha'
    rcases ha' with (h | h) | h | h | h <;> rw [h] <;> exact fun hc => Action.noConfusion hc
  · show List.take (s2.nr_zk_nodes + 1) (s2.zk_nodes.set s2.nr_zk_nodes _) = _
    rw [b7, a7, b8, a8]
    cases SD_MAX_NODES with
    | zero => omega
    | succ k => rfl
  · show s2.nr_zk_nodes + 1 = 1
    rw [b7, a7]
  · refine ⟨check_join myself
        (zk_get_event (join_entry stackJ (join_record log.length cid myself) p len) st2).buf,
      (zk_get_event
        { join_entry stackJ (join_record log.length cid myself) p len with
          join_result := check_join myself
            (zk_get_event (join_entry stackJ (join_record log.length cid myself) p len)
              st2).buf,
          blocked := 0,
          sender := { join_record log.length cid myself with joined := 1 } } st3).buf,
      ?_, hres _, ?_⟩
    · have hv : view (eventfd_write s2) = [] := hv2
      have hnr : (eventfd_write s2).nr_zk_nodes = 0 := b7.trans a7
      simp only [hv, hnr, List.nil_append, List.map_cons, List.map_nil, Nat.zero_add]
      rfl
    · exact take_zk_get_event
        { join_entry stackJ (join_record log.length cid myself) p len with
          join_result := check_join myself
            (zk_get_event (join_entry stackJ (join_record log.length cid myself) p len)
              st2).buf,
          blocked := 0,
          sender := { join_record log.length cid myself with joined := 1 } } st3 hplen hmax

theorem C17_solo_bootstrap_witness :
    ((1 : Nat) ≤ 4 ∧ (2 : Nat) ≤ MAX_EVENT_BUF_SIZE ∧ 2 ≤ [1, 2].length) ∧
    ∃ sJ s1 s2 sw s3 : State,
      zk_join 4 event0 77 nodeA.node (some [1, 2]) 2 (zk_init (process_start 4 [] [])) =
        Res.ret 0 sJ ∧
      zk_dispatch 4 (fun _ _ => CJ_RES_SUCCESS) event0 sJ = Res.ret 0 s1 ∧
      s1.member = [(1, join_record 0 77 nodeA.node)] ∧
      zk_dispatch 4 (fun _ _ => CJ_RES_SUCCESS) event0 s1 = Res.ret 0 s2 ∧
      s2.member = [(1, { join_record 0 77 nodeA.node with joined := 1 })] ∧
      watcher 4 event0 ZOO_CHANGED_EVENT none s2 = Res.ret () sw ∧
      zk_dispatch 4 (fun _ _ => CJ_RES_SUCCESS) event0 sw = Res.ret 0 s3 ∧
      view s3 = [{ join_record 0 77 nodeA.node with joined := 1 }] ∧
      ∃ (r : cluster_join_result) (buf : List Nat),
        s3.trace = s2.trace ++ [Action.join_handler nodeA.node [nodeA.node] 1 r buf] ∧
        buf.take 2 = [1, 2] := by
  refine ⟨by decide, ?_⟩
  obtain ⟨sJ, s1, s2, sw, s3, h1, h2, h3, h4, -, -, h7, h8, -, -, h11, h12, -, h14, -, r, buf,
      h16, -, h18⟩ :=
    C17_solo_bootstrap 4 (fun _ _ => CJ_RES_SUCCESS) event0 event0 event0 event0 event0 77
      nodeA.node [1, 2] 2 [] (by decide) (by decide) (by decide) (fun _ h => cluster_join_result.noConfusion h)
  exact ⟨sJ, s1, s2, sw, s3, h1, h3, h4.trans h2, h7, h8, h11, h12, h14, r, buf, h16, h18⟩

/-- C17 (counterexample): a fresh process in front of an empty registry and an
empty log calls `join`, and the dispatcher ticks once.  The tick consumes the
Ignore marker that the join has put in front of the Join: afterwards the one
member record still has `joined = 0`, the view is empty and `join_handler` has
not been called (the trace holds the two log appends of the join only). -/
theorem C17_one_tick_counterexample :
    zk_join 4 event0 77 nodeA.node (some [1, 2]) 2 (zk_init (process_start 4 [] [])) =
      Res.ret 0 (solo_joined 4 [] event0 77 nodeA.node [1, 2] 2) ∧
    zk_dispatch 4 (fun _ _ => CJ_RES_SUCCESS) event0
        (solo_joined 4 [] event0 77 nodeA.node [1, 2] 2) =
      Res.ret 0 { solo_joined 4 [] event0 77 nodeA.node [1, 2] 2 with
        efd := 1, queue_pos := 1 } ∧
    ({ solo_joined 4 [] event0 77 nodeA.node [1, 2] 2 with
        efd := 1, queue_pos := 1 } : State).member =
      [(1, { seq := 0, joined := 0, clientid := 77, node := nodeA.node })] ∧
    view ({ solo_joined 4 [] event0 77 nodeA.node [1, 2] 2 with
        efd := 1, queue_pos := 1 } : State) = [] ∧
    ({ solo_joined 4 [] event0 77 nodeA.node [1, 2] 2 with
        efd := 1, queue_pos := 1 } : State).trace =
      [Action.log_create 0 event0,
       Action.log_create 1 (join_entry event0 (join_record 0 77 nodeA.node) [1, 2] 2)] ∧
    ¬ ∃ s1 : State,
      zk_dispatch 4 (fun _ _ => CJ_RES_SUCCESS) event0
        (solo_joined 4 [] event0 77 nodeA.node [1, 2] 2) = Res.ret 0 s1 ∧
      ∃ z, member_get s1 1 = some z ∧ z.joined ≠ 0 := by
  have h : zk_dispatch 4 (fun _ _ => CJ_RES_SUCCESS) event0
      (solo_joined 4 [] event0 77 nodeA.node [1, 2] 2) =
      Res.ret 0 { solo_joined 4 [] event0 77 nodeA.node [1, 2] 2 with
        efd := 1, queue_pos := 1 } := by decide
  refine ⟨by decide, h, by decide, by decide, by decide, ?_⟩
  rintro ⟨s1, h1, z, hz, hj⟩
  rw [h] at h1
  injection h1 with _ h1
  rw [← h1] at hz
  have hz' : some (join_record 0 77 nodeA.node) = some z := hz
  injection hz' with hz'
  rw [← hz'] at hj
  exact hj rfl

/-! ## The event assembler -/

/-- The call of `zk_queue_push` at the end of `add_event` for an event whose
`buf_len` is within the capacity of the buffer. -/
theorem add_event_push_ok (ev : zk_event) (s : State)
    (hmax : ev.buf_len ≤ MAX_EVENT_BUF_SIZE) :
    add_event_push ev s = (zk_queue_push ev s).bind fun _ s1 => .ret 0 s1 := by
  unfold add_event_push
  rw [if_neg (Nat.not_lt.2 hmax)]

/-- The event that `add_event` assembles before the `switch`, the four fields
it sets and the payload copied over the start of the buffer, and what the
`switch` does with it. -/
theorem add_event_copied (SD_MAX_NODES : Nat) (stack : zk_event) (type : zk_event_type)
    (znode : zk_node) (buf : Option (List Nat)) (len : Nat) (cb : Option Nat) (s : State)
    (hmax : len ≤ MAX_EVENT_BUF_SIZE) (hpay : ∀ b, buf = some b → len ≤ b.length) :
    ∃ ev : zk_event,
      ev.type = type ∧ ev.sender = znode ∧ ev.buf_len = len ∧ ev.callbacked = 0 ∧
      ev.blocked = 0 ∧ (∀ b, buf = some b → ev.buf.take len = b.take len) ∧
      add_event SD_MAX_NODES stack type znode buf len cb s =
        (match type with
          | EVENT_JOIN => add_event_push { ev with blocked := 1 } s
          | EVENT_LEAVE =>
            if SD_MAX_NODES = 0 then .undefined
            else if s.zk_levent_tail % SD_MAX_NODES < s.zk_levents.length then
              .ret 0 (eventfd_write
                { s with zk_levents := s.zk_levents.set (s.zk_levent_tail % SD_MAX_NODES) ev,
                         nr_zk_levents := s.nr_zk_levents + 1,
                         zk_levent_tail := (s.zk_levent_tail + 1) % 2 ^ 32 })
            else .undefined
          | EVENT_NOTIFY =>
            add_event_push { ev with blocked := if cb.isSome then 1 else 0, block_cb := cb } s
          | EVENT_IGNORE => add_event_push ev s) := by
  cases buf with
  | none =>
    refine ⟨{ stack with type := type, sender := znode, buf_len := len, callbacked := 0,
                         blocked := 0 }, rfl, rfl, rfl, rfl, rfl, ?_, ?_⟩
    · intro b hb
      cases hb
    · cases type <;> rfl
  | some b =>
    have h2 := hpay b rfl
    refine ⟨{ stack with type := type, sender := znode, buf_len := len, callbacked := 0,
                         blocked := 0, buf := b.take len ++ stack.buf.drop len },
      rfl, rfl, rfl, rfl, rfl, ?_, ?_⟩
    · intro b' hb
      injection hb with hb
      subst hb
      show (b.take len ++ stack.buf.drop len).take len = b.take len
      rw [List.take_append_of_le_length (by simp; omega), List.take_take, Nat.min_self]
    · have hrun : add_event SD_MAX_NODES stack type znode (some b) len cb s =
          (match (if MAX_EVENT_BUF_SIZE < len then (none : Option zk_event)
              else some { stack with type := type, sender := znode, buf_len := len,
                                     callbacked := 0, blocked := 0,
                                     buf := b.take len ++ stack.buf.drop len }) with
            | none => Res.undefined
            | some ev =>
              match type with
              | EVENT_JOIN => add_event_push { ev with blocked := 1 } s
              | EVENT_LEAVE =>
                if SD_MAX_NODES = 0 then .undefined
                else if s.zk_levent_tail % SD_MAX_NODES < s.zk_levents.length then
                  .ret 0 (eventfd_write
                    { s with
                      zk_levents := s.zk_levents.set (s.zk_levent_tail % SD_MAX_NODES) ev,
                      nr_zk_levents := s.nr_zk_levents + 1,
                      zk_levent_tail := (s.zk_levent_tail + 1) % 2 ^ 32 })
                else .undefined
              | EVENT_NOTIFY =>
                add_event_push
                  { ev with blocked := if cb.isSome then 1 else 0, block_cb := cb } s
              | EVENT_IGNORE => add_event_push ev s) := rfl
      rw [hrun, if_neg (Nat.not_lt.2 hmax)]

/-- An append to the log by a process whose cursor is bootstrapped. -/
theorem zk_queue_push_booted (ev : zk_event) (s : State) (hboot : 0 ≤ s.queue_pos) :
    zk_queue_push ev s =
      Res.ret (s.queue.length : Int)
        { s with queue := s.queue ++ [event_data ev],
                 trace := s.trace ++ [Action.log_create s.queue.length (event_data ev)] } := by
  unfold zk_queue_push
  simp only []
  rw [if_neg (by simpa using hboot)]

/-- C18: a call of `add_event` by a process whose cursor is bootstrapped, with
`buf_len ≤ 64 KiB` and no payload or a payload of at least `buf_len` bytes,
returns 0.  For a Leave, in a ring of `SD_MAX_NODES` slots, the log and the
cursor are unchanged and one event of kind Leave with the given sender is stored
in the slot of the ring's tail; the count and the tail go up by one.  For a
Join, a Notify or an Ignore the ring is unchanged and one entry is appended to
the log: it has the given kind, sender and payload and `callbacked = 0`;
`blocked` is 1 for a Join, 1 for a Notify with a callback and 0 for one without,
and 0 for an Ignore. -/
theorem C18_add_event_routing (SD_MAX_NODES : Nat) (stack : zk_event) (znode : zk_node)
    (buf : Option (List Nat)) (len : Nat) (cb : Option Nat) (s : State)
    (hboot : 0 ≤ s.queue_pos) (hmax : len ≤ MAX_EVENT_BUF_SIZE)
    (hpay : ∀ b, buf = some b → len ≤ b.length) :
    (SD_MAX_NODES ≠ 0 → s.zk_levents.length = SD_MAX_NODES →
      ∃ (s1 : State) (ev : zk_event),
        add_event SD_MAX_NODES stack EVENT_LEAVE znode buf len cb s = Res.ret 0 s1 ∧
        s1.queue = s.queue ∧ s1.queue_pos = s.queue_pos ∧
        s1.zk_levents = s.zk_levents.set (s.zk_levent_tail % SD_MAX_NODES) ev ∧
        ev.type = EVENT_LEAVE ∧ ev.sender = znode ∧
        s1.nr_zk_levents = s.nr_zk_levents + 1 ∧
        s1.zk_levent_tail = (s.zk_levent_tail + 1) % 2 ^ 32 ∧
        s1.zk_levent_head = s.zk_levent_head) ∧
    ∀ type : zk_event_type, type ≠ EVENT_LEAVE →
      ∃ (s1 : State) (e : zk_event),
        add_event SD_MAX_NODES stack type znode buf len cb s = Res.ret 0 s1 ∧
        s1.queue = s.queue ++ [e] ∧ s1.queue_pos = s.queue_pos ∧
        s1.zk_levents = s.zk_levents ∧ s1.nr_zk_levents = s.nr_zk_levents ∧
        s1.zk_levent_head = s.zk_levent_head ∧ s1.zk_levent_tail = s.zk_levent_tail ∧
        e.type = type ∧ e.sender = znode ∧ e.callbacked = 0 ∧ e.buf_len = len ∧
        (∀ b, buf = some b → e.buf = b.take len) ∧
        (type = EVENT_JOIN → e.blocked = 1) ∧
        (type = EVENT_NOTIFY → e.blocked = (if cb.isSome then 1 else 0) ∧ e.block_cb = cb) ∧
        (type = EVENT_IGNORE → e.blocked = 0) := by
  constructor
  · intro hM hslots
    obtain ⟨ev, e1, e2, -, -, -, -, hrun⟩ :=
      add_event_copied SD_MAX_NODES stack EVENT_LEAVE znode buf len cb s hmax hpay
    have hlt : s.zk_levent_tail % SD_MAX_NODES < s.zk_levents.length := by
      rw [hslots]; exact Nat.mod_lt _ (Nat.pos_of_ne_zero hM)
    rw [hrun]
    simp only [if_neg hM, if_pos hlt]
    exact ⟨_, ev, rfl, rfl, rfl, rfl, e1, e2, rfl, rfl, rfl⟩
  · intro type htype
    obtain ⟨ev, e1, e2, e3, e4, e5, e7, hrun⟩ :=
      add_event_copied SD_MAX_NODES stack type znode buf len cb s hmax hpay
    have hbuf : ∀ b, buf = some b → ev.buf.take ev.buf_len = b.take len := by
      intro b hb
      rw [e3]
      exact e7 b hb
    have hm : ev.buf_len ≤ MAX_EVENT_BUF_SIZE := by rw [e3]; exact hmax
    rw [hrun]
    cases type with
    | EVENT_LEAVE => exact absurd rfl htype
    | EVENT_JOIN =>
      simp only []
      rw [add_event_push_ok { ev with blocked := 1 } s hm]
      simp only [zk_queue_push_booted _ _ hboot, Res.bind]
      exact ⟨_, _, rfl, rfl, rfl, rfl, rfl, rfl, rfl, e1, e2, e4, e3, hbuf, fun _ => rfl,
        fun h => zk_event_type.noConfusion h, fun h => zk_event_type.noConfusion h⟩
    | EVENT_NOTIFY =>
      simp only []
      rw [add_event_push_ok
        { ev with blocked := if cb.isSome then 1 else 0, block_cb := cb } s hm]
      simp only [zk_queue_push_booted _ _ hboot, Res.bind]
      exact ⟨_, _, rfl, rfl, rfl, rfl, rfl, rfl, rfl, e1, e2, e4, e3, hbuf,
        fun h => zk_event_type.noConfusion h, fun _ => ⟨rfl, rfl⟩,
        fun h => zk_event_type.noConfusion h⟩
    | EVENT_IGNORE =>
      simp only []
      rw [add_event_push_ok _ _ hm]
      simp only [zk_queue_push_booted _ _ hboot, Res.bind]
      exact ⟨_, _, rfl, rfl, rfl, rfl, rfl, rfl, rfl, e1, e2, e4, e3, hbuf,
        fun h => zk_event_type.noConfusion h, fun h => zk_event_type.noConfusion h,
        fun _ => e5⟩

theorem C18_add_event_routing_witness :
    (0 ≤ cursor_after_entry.queue_pos ∧ (3 : Nat) ≤ MAX_EVENT_BUF_SIZE ∧
      (4 : Nat) ≠ 0 ∧ cursor_after_entry.zk_levents.length = 4) ∧
    (∃ (s1 : State) (ev : zk_event),
      add_event 4 event0 EVENT_LEAVE nodeB (some [1, 2, 3]) 3 (some 5) cursor_after_entry =
        Res.ret 0 s1 ∧
      s1.queue = cursor_after_entry.queue ∧ s1.queue_pos = cursor_after_entry.queue_pos ∧
      s1.zk_levents = cursor_after_entry.zk_levents.set 0 ev ∧
      ev.type = EVENT_LEAVE ∧ ev.sender = nodeB ∧ s1.nr_zk_levents = 1) ∧
    (∃ (s1 : State) (e : zk_event),
      add_event 4 event0 EVENT_NOTIFY nodeB (some [1, 2, 3]) 3 (some 5) cursor_after_entry =
        Res.ret 0 s1 ∧
      s1.queue = cursor_after_entry.queue ++ [e] ∧
      s1.zk_levents = cursor_after_entry.zk_levents ∧ s1.nr_zk_levents = 0 ∧
      e.type = EVENT_NOTIFY ∧ e.sender = nodeB ∧ e.callbacked = 0 ∧ e.buf = [1, 2, 3] ∧
      e.blocked = 1 ∧ e.block_cb = some 5) ∧
    ∃ (s1 : State) (e : zk_event),
      add_event 4 event0 EVENT_JOIN nodeB none 0 none cursor_after_entry = Res.ret 0 s1 ∧
      s1.queue = cursor_after_entry.queue ++ [e] ∧ e.type = EVENT_JOIN ∧ e.blocked = 1 := by
  have hpay : ∀ b, some [1, 2, 3] = some b → 3 ≤ b.length := by
    intro b hb
    injection hb with hb
    subst hb
    decide
  refine ⟨by decide, ?_, ?_, ?_⟩
  · obtain ⟨s1, ev, h1, h2, h3, h4, h5, h6, h7, -⟩ :=
      (C18_add_event_routing 4 event0 nodeB (some [1, 2, 3]) 3 (some 5) cursor_after_entry
        (by decide) (by decide) hpay).1 (by decide) (by decide)
    exact ⟨s1, ev, h1, h2, h3, h4, h5, h6, h7⟩
  · obtain ⟨s1, e, h1, h2, -, h4, h5, -, -, h8, h9, h10, -, h12, -, h14, -⟩ :=
      (C18_add_event_routing 4 event0 nodeB (some [1, 2, 3]) 3 (some 5) cursor_after_entry
        (by decide) (by decide) hpay).2 EVENT_NOTIFY (by decide)
    exact ⟨s1, e, h1, h2, h4, h5, h8, h9, h10, h12 _ rfl, (h14 rfl).1, (h14 rfl).2⟩
  · obtain ⟨s1, e, h1, h2, -, -, -, -, -, h8, -, -, -, -, h13, -⟩ :=
      (C18_add_event_routing 4 event0 nodeB none 0 none cursor_after_entry
        (by decide) (by decide) (fun b hb => Option.noConfusion hb)).2 EVENT_JOIN (by decide)
    exact ⟨s1, e, h1, h2, h8, h13 rfl⟩

/-- A call of `add_event` with a `NULL` payload and a `buf_len` beyond the
capacity of the buffer: for a kind that goes to the log the behaviour is
undefined, whatever the state. -/
theorem add_event_null_overlong (SD_MAX_NODES : Nat) (stack : zk_event) (znode : zk_node)
    (len : Nat) (cb : Option Nat) (s : State) (hlong : MAX_EVENT_BUF_SIZE < len)
    (type : zk_event_type) (htype : type ≠ EVENT_LEAVE) :
    add_event SD_MAX_NODES stack type znode none len cb s = Res.undefined := by
  cases type with
  | EVENT_LEAVE => exact absurd rfl htype
  | EVENT_JOIN => exact if_pos hlong
  | EVENT_NOTIFY => exact if_pos hlong
  | EVENT_IGNORE => exact if_pos hlong

/-! ## The two special cases of the pop -/

/-- C19: in every state with a non-empty leave ring (an array of
`SD_MAX_NODES > 0` slots), `zk_queue_pop` returns 0 with the event in the head
slot, the count is one less and the head one further (modulo `2 ^ 32`); the
cursor is one further when there is a log entry at the cursor that is blocked
and whose sender has the node identity of the Leave's sender, and is unchanged
otherwise; the log, the slots of the ring, the view and the trace are
unchanged. -/
theorem C19_leave_fast_path (SD_MAX_NODES : Nat) (ev : zk_event) (s : State)
    (hring : s.nr_zk_levents ≠ 0) (hM : SD_MAX_NODES ≠ 0)
    (hslots : s.zk_levents.length = SD_MAX_NODES) :
    ∃ (lev : zk_event) (s1 : State),
      s.zk_levents[s.zk_levent_head % SD_MAX_NODES]? = some lev ∧
      zk_queue_pop SD_MAX_NODES ev s = Res.ret (0, lev) s1 ∧
      s1.nr_zk_levents = s.nr_zk_levents - 1 ∧
      s1.zk_levent_head = (s.zk_levent_head + 1) % 2 ^ 32 ∧
      ((∃ d, queue_get s s.queue_pos = some d ∧
          node_cmp d.sender.node lev.sender.node = 0 ∧ d.blocked ≠ 0) →
        s1.queue_pos = s.queue_pos + 1) ∧
      ((¬ ∃ d, queue_get s s.queue_pos = some d ∧
          node_cmp d.sender.node lev.sender.node = 0 ∧ d.blocked ≠ 0) →
        s1.queue_pos = s.queue_pos) ∧
      s1.queue = s.queue ∧ s1.zk_levents = s.zk_levents ∧
      s1.zk_levent_tail = s.zk_levent_tail ∧ view s1 = view s ∧ s1.trace = s.trace := by
  have hlt : s.zk_levent_head % SD_MAX_NODES < s.zk_levents.length := by
    rw [hslots]; exact Nat.mod_lt _ (Nat.pos_of_ne_zero hM)
  obtain ⟨k1, k2, k3, k4, -, k6, k7, k8, k9, -⟩ :=
    pop_leave_keeps ev (s.zk_levents[s.zk_levent_head % SD_MAX_NODES])
      { s with nr_zk_levents := s.nr_zk_levents - 1 }
  refine ⟨s.zk_levents[s.zk_levent_head % SD_MAX_NODES], _, List.getElem?_eq_getElem hlt,
    zk_queue_pop_leave _ _ _ s hring hM (List.getElem?_eq_getElem hlt), k7, k8, ?_, ?_, k4, k6,
    k9, ?_, k3⟩
  · rintro ⟨d, hd, hsame, hb⟩
    exact pop_leave_skip ev _ d { s with nr_zk_levents := s.nr_zk_levents - 1 } hd hsame hb
  · intro hno
    exact pop_leave_stay ev _ { s with nr_zk_levents := s.nr_zk_levents - 1 }
      (fun d hd hc => hno ⟨d, hd, hc.1, hc.2⟩)
  · unfold view
    rw [k1, k2]

theorem C19_leave_fast_path_witness :
    (crash_leave_pending.nr_zk_levents ≠ 0 ∧ (4 : Nat) ≠ 0 ∧
      crash_leave_pending.zk_levents.length = 4 ∧
      queue_get crash_leave_pending crash_leave_pending.queue_pos = some joinB_blocked ∧
      node_cmp joinB_blocked.sender.node leaveB.sender.node = 0 ∧
      joinB_blocked.blocked ≠ 0 ∧
      leave_pending.nr_zk_levents ≠ 0 ∧
      queue_get leave_pending leave_pending.queue_pos = none) ∧
    (∃ s1 : State,
      zk_queue_pop 4 event0 crash_leave_pending = Res.ret (0, leaveB) s1 ∧
      s1.nr_zk_levents = 0 ∧ s1.zk_levent_head = 1 ∧
      s1.queue_pos = crash_leave_pending.queue_pos + 1 ∧
      s1.queue = crash_leave_pending.queue) ∧
    ∃ s1 : State,
      zk_queue_pop 4 event0 leave_pending = Res.ret (0, leaveB) s1 ∧
      s1.nr_zk_levents = 0 ∧ s1.zk_levent_head = 1 ∧
      s1.queue_pos = leave_pending.queue_pos ∧ s1.queue = leave_pending.queue := by
  refine ⟨by decide, ?_, ?_⟩
  · obtain ⟨lev, s1, h0, h1, h2, h3, h4, -, h6, -⟩ :=
      C19_leave_fast_path 4 event0 crash_leave_pending (by decide) (by decide) (by decide)
    have hl : lev = leaveB := by
      have : some leaveB = some lev := h0
      injection this with this
      exact this.symm
    subst hl
    exact ⟨s1, h1, h2, h3, h4 ⟨joinB_blocked, by decide, by decide, by decide⟩, h6⟩
  · obtain ⟨lev, s1, h0, h1, h2, h3, -, h5, h6, -⟩ :=
      C19_leave_fast_path 4 event0 leave_pending (by decide) (by decide) (by decide)
    have hl : lev = leaveB := by
      have : some leaveB = some lev := h0
      injection this with this
      exact this.symm
    subst hl
    refine ⟨s1, h1, h2, h3, h5 ?_, h6⟩
    rintro ⟨d, hd, -⟩
    have : (none : Option zk_event) = some d := hd
    cases this

/-- The log branch of the pop on a Leave entry: the answer is -1 and the
cursor is one further; nothing else but the wake counter can change. -/
theorem pop_log_leave (ev d : zk_event) (s : State) (hleave : d.type = EVENT_LEAVE) :
    ∃ s1 : State,
      pop_log ev d s = Res.ret (-1, zk_get_event d ev) s1 ∧
      s1.queue_pos = s.queue_pos + 1 ∧ s1.queue = s.queue ∧ s1.zk_nodes = s.zk_nodes ∧
      s1.nr_zk_nodes = s.nr_zk_nodes ∧ s1.trace = s.trace ∧ s1.member = s.member := by
  have ht : (zk_get_event d ev).type = EVENT_LEAVE := hleave
  unfold pop_log
  simp only [if_pos ht]
  split
  · exact ⟨_, rfl, rfl, rfl, rfl, rfl, rfl, rfl⟩
  · split
    · exact ⟨_, rfl, rfl, rfl, rfl, rfl, rfl, rfl⟩
    · exact ⟨_, rfl, rfl, rfl, rfl, rfl, rfl, rfl⟩

/-- C20: in every state with an empty leave ring and a log entry of kind Leave
at the cursor, `zk_queue_pop` returns -1 and the cursor is one further; a tick
in that state returns with the trace as it was (no host function is called,
nothing is written) and with the view and the log unchanged. -/
theorem C20_leave_in_log_dropped (SD_MAX_NODES : Nat)
    (check_join : sd_node → List Nat → cluster_join_result) (ev stack d : zk_event) (s : State)
    (hring : s.nr_zk_levents = 0) (hentry : queue_get s s.queue_pos = some d)
    (hleave : d.type = EVENT_LEAVE) :
    (∃ (s1 : State) (e1 : zk_event),
      zk_queue_pop SD_MAX_NODES ev s = Res.ret (-1, e1) s1 ∧
      s1.queue_pos = s.queue_pos + 1 ∧ s1.queue = s.queue ∧ view s1 = view s ∧
      s1.trace = s.trace) ∧
    ∃ s2 : State,
      zk_dispatch SD_MAX_NODES check_join stack s = Res.ret 0 s2 ∧
      s2.trace = s.trace ∧ view s2 = view s ∧ s2.queue = s.queue ∧
      (s.efd ≠ 0 → s.zk_notify_blocked = 0 → s2.queue_pos = s.queue_pos + 1) := by
  constructor
  · obtain ⟨s1, h1, h2, h3, h4, h5, h6, -⟩ := pop_log_leave ev d s hleave
    refine ⟨s1, _, (zk_queue_pop_log _ _ d s hring hentry).trans h1, h2, h3, ?_, h6⟩
    unfold view
    rw [h4, h5]
  · by_cases htick : s.efd = 0
    · refine ⟨s, ?_, rfl, rfl, rfl, fun h => absurd htick h⟩
      unfold zk_dispatch
      rw [if_pos htick]
    · by_cases hnb : s.zk_notify_blocked = 0
      · obtain ⟨s1, h1, h2, h3, h4, h5, h6, -⟩ := pop_log_leave stack d { s with efd := 0 } hleave
        refine ⟨s1, ?_, h6, ?_, h3, fun _ _ => h2⟩
        · rw [zk_dispatch_tick _ _ _ _ htick hnb,
            zk_queue_pop_log _ _ d { s with efd := 0 } hring hentry, h1]
          simp only [Res.bind]
          rw [if_pos (by decide)]
        · unfold view
          rw [h4, h5]
      · refine ⟨{ s with efd := 0 }, ?_, rfl, rfl, rfl, fun _ h => absurd h hnb⟩
        unfold zk_dispatch
        rw [if_neg htick]
        have h : ({ s with efd := 0 } : State).zk_notify_blocked ≠ 0 := hnb
        simp only [if_pos h]

theorem C20_leave_in_log_dropped_witness :
    (leave_in_log.nr_zk_levents = 0 ∧
      queue_get leave_in_log leave_in_log.queue_pos = some leaveB ∧
      leaveB.type = EVENT_LEAVE ∧ leave_in_log.efd ≠ 0 ∧ leave_in_log.zk_notify_blocked = 0 ∧
      view leave_in_log = [nodeA, nodeB, nodeC]) ∧
    (∃ (s1 : State) (e1 : zk_event),
      zk_queue_pop 4 event0 leave_in_log = Res.ret (-1, e1) s1 ∧
      s1.queue_pos = leave_in_log.queue_pos + 1 ∧ s1.queue = leave_in_log.queue ∧
      view s1 = view leave_in_log ∧ s1.trace = leave_in_log.trace) ∧
    ∃ s2 : State,
      zk_dispatch 4 (fun _ _ => CJ_RES_SUCCESS) event0 leave_in_log = Res.ret 0 s2 ∧
      s2.trace = [] ∧ view s2 = [nodeA, nodeB, nodeC] ∧ s2.queue_pos = 1 := by
  obtain ⟨h1, s2, h2, h3, h4, -, h6⟩ :=
    C20_leave_in_log_dropped 4 (fun _ _ => CJ_RES_SUCCESS) event0 event0 leaveB leave_in_log
      (by decide) (by decide) (by decide)
  exact ⟨by decide, h1, s2, h2, h3, h4, h6 (by decide) (by decide)⟩

/-! ## The worker and the pushed-back event -/

/-- With an empty leave ring, `zk_block` pops the blocked entry at the cursor,
calls its callback on its payload and writes the entry back with `blocked = 0`:
the cursor is at the entry again, `zk_notify_blocked` is one less and the wake
object is signalled. -/
theorem zk_block_entry (SD_MAX_NODES : Nat) (stack e : zk_event) (cb : Nat) (s : State)
    (hring : s.nr_zk_levents = 0) (hentry : queue_get s s.queue_pos = some e)
    (hkind : e.type ≠ EVENT_LEAVE) (hblocked : e.blocked ≠ 0) (hcb : e.block_cb = some cb)
    (hlen : e.buf.length = e.buf_len) (hmax : e.buf_len ≤ MAX_EVENT_BUF_SIZE) :
    zk_block SD_MAX_NODES stack s =
      Res.ret ()
        { s with
          queue := s.queue.set s.queue_pos.toNat { e with blocked := 0 },
          trace := s.trace ++ [Action.block_cb cb (zk_get_event e stack).buf,
            Action.log_set s.queue_pos { e with blocked := 0 }],
          zk_notify_blocked := s.zk_notify_blocked - 1,
          efd := s.efd + 1 } ∧
    (zk_get_event e stack).buf.take e.buf_len = e.buf := by
  have hdata : event_data
      { type := (zk_get_event e stack).type, sender := (zk_get_event e stack).sender,
        join_result := (zk_get_event e stack).join_result, block_cb := some cb, blocked := 0,
        callbacked := (zk_get_event e stack).callbacked,
        buf_len := (zk_get_event e stack).buf_len, buf := (zk_get_event e stack).buf } =
      { e with blocked := 0 } := by
    have := take_zk_get_event e stack hlen hmax
    unfold event_data
    simpa [zk_get_event, hcb] using this
  have hc : (zk_get_event e stack).block_cb = some cb := hcb
  have hback : queue_get
      (record (Action.block_cb cb (zk_get_event e stack).buf)
        { s with queue_pos := s.queue_pos + 1 })
      ((record (Action.block_cb cb (zk_get_event e stack).buf)
        { s with queue_pos := s.queue_pos + 1 }).queue_pos - 1) = some e := by
    show queue_get s (s.queue_pos + 1 - 1) = some e
    rw [Int.add_sub_cancel]
    exact hentry
  refine ⟨?_, take_zk_get_event e stack hlen hmax⟩
  unfold zk_block
  rw [zk_queue_pop_log _ _ e s hring hentry, pop_log_blocked _ _ _ hblocked hkind]
  simp only [Res.bind]
  rw [if_neg (by decide)]
  simp only [hc]
  rw [zk_queue_push_back_some _ e _ hback, hdata]
  simp only [Res.bind, record, eventfd_write, Int.add_sub_cancel, List.append_assoc,
    List.singleton_append]

/-- C21 (failing input): sender `A` has processed its blocked Notify (the tick
leaves `notify_rewound`), and before the worker runs the watcher enqueues a
Leave of `B`.  `zk_block` then pops the Leave, not the Notify.  When the bytes
of `block_cb` in the Leave are not zero it calls that pointer on the Leave's
buffer, writes the Leave over the log entry in front of the Notify, leaves the
cursor there, and lowers `zk_notify_blocked`; the Notify stays blocked and its
callback is never called.  When those bytes are zero the call goes through a
null pointer. -/
theorem C21_worker_pops_pending_leave :
    zk_dispatch 4 (fun _ _ => CJ_RES_SUCCESS) event0 notify_at_sender =
      Res.ret 0 notify_rewound ∧
    queue_get notify_rewound notify_rewound.queue_pos = some (notify_entry 1 1) ∧
    watcher 4 stale_stack ZOO_DELETED_EVENT (some 2) notify_rewound =
      Res.ret () (leave_while_blocked stale_stack) ∧
    pending 4 (leave_while_blocked stale_stack) = [leave_event stale_stack nodeB] ∧
    zk_block 4 event0 (leave_while_blocked stale_stack) =
      Res.ret ()
        { leave_while_blocked stale_stack with
          queue := [leave_event stale_stack nodeB, notify_entry 1 1],
          queue_pos := 0, zk_notify_blocked := 0, nr_zk_levents := 0, zk_levent_head := 1,
          efd := 3,
          trace := [Action.log_set 1 (notify_entry 1 1), Action.queue_work,
            Action.block_cb 9 [], Action.log_set 0 (leave_event stale_stack nodeB)] } ∧
    (notify_entry 1 1).blocked ≠ 0 ∧
    watcher 4 event0 ZOO_DELETED_EVENT (some 2) notify_rewound =
      Res.ret () (leave_while_blocked event0) ∧
    zk_block 4 event0 (leave_while_blocked event0) = Res.undefined := by
  decide

/-- The same worker run with the leave ring empty, for comparison: the Notify
is popped, its callback is called on the payload and the entry is unblocked. -/
theorem worker_example_empty_ring :
    zk_block 4 event0 notify_rewound =
      Res.ret ()
        { notify_rewound with
          queue := [event0, notify_entry 0 1], zk_notify_blocked := 0, efd := 1,
          trace := [Action.log_set 1 (notify_entry 1 1), Action.queue_work,
            Action.block_cb 5 [1, 2, 3], Action.log_set 1 (notify_entry 0 1)] } :=
  (zk_block_entry 4 event0 (notify_entry 1 1) 5 notify_rewound (by decide) (by decide)
    (by decide) (by decide) rfl (by decide) (by decide)).1

/-! ## The master test and the joined records of the view -/

theorem find_getElem_findIdx {α : Type} (p : α → Bool) (l : List α) :
    l.find? p = l[l.findIdx p]? := by
  induction l with
  | nil => rfl
  | cons a t ih =>
    rw [List.findIdx_cons]
    cases hp : p a with
    | true => simp [List.find?, hp]
    | false => simp [List.find?, hp, ih]

theorem first_joined_at (nodes : List zk_node) (z : zk_node) (k : Nat)
    (hk : nodes[k]? = some z) (hz : z.joined ≠ 0) :
    ∀ (n i : Nat), i ≤ k → k < i + n →
      (∀ j x, i ≤ j → j < k → nodes[j]? = some x → x.joined = 0) →
      first_joined nodes n i = k := by
  intro n
  induction n with
  | zero =>
    intro i h1 h2 _
    omega
  | succ n ih =>
    intro i h1 h2 hbefore
    unfold first_joined
    by_cases hik : i = k
    · subst hik
      rw [hk]
      simp only [if_pos hz]
    · have hnext : first_joined nodes n (i + 1) = k :=
        ih (i + 1) (by omega) (by omega) (fun j x h3 h4 h5 => hbefore j x (by omega) h4 h5)
      cases hi : nodes[i]? with
      | none => exact hnext
      | some x =>
        have hx : ¬ x.joined ≠ 0 := by
          have := hbefore i x (Nat.le_refl _) (by omega) hi
          simpa using this
        simp only [if_neg hx]
        exact hnext

theorem is_master_closed (SD_MAX_NODES : Nat) (s : State) (n : zk_node)
    (hcap : s.nr_zk_nodes ≤ s.zk_nodes.length) (hmax : s.nr_zk_nodes ≤ SD_MAX_NODES)
    (hjoined : view s = [] ∨ ∃ z ∈ view s, z.joined ≠ 0) :
    is_master SD_MAX_NODES s n =
      some (if master_by_view s n = true
        then (((view s).findIdx fun z => decide (z.joined ≠ 0) : Nat) : Int) else -1) := by
  have hlen : (view s).length = s.nr_zk_nodes := by
    unfold view
    rw [List.length_take]
    omega
  by_cases hnr : s.nr_zk_nodes = 0
  · have hv : view s = [] := List.length_eq_zero.1 (hlen.trans hnr)
    unfold is_master master_by_view
    rw [if_pos hnr, hv]
    rfl
  · have hv : view s ≠ [] := fun h => hnr (by rw [← hlen, h]; rfl)
    obtain ⟨z0, hz0, hj0⟩ := hjoined.resolve_left hv
    have hex : ∃ x ∈ view s, (fun z : zk_node => decide (z.joined ≠ 0)) x = true :=
      ⟨z0, hz0, by simpa using hj0⟩
    have hklt : (view s).findIdx (fun z => decide (z.joined ≠ 0)) < (view s).length :=
      List.findIdx_lt_length_of_exists hex
    generalize hkdef : (view s).findIdx (fun z => decide (z.joined ≠ 0)) = k at hklt
    have hget : ∀ j, j < s.nr_zk_nodes → s.zk_nodes[j]? = (view s)[j]? := by
      intro j hj
      unfold view
      rw [List.getElem?_take_of_lt hj]
    obtain ⟨z, hz⟩ : ∃ z, (view s)[k]? = some z :=
      ⟨(view s)[k], List.getElem?_eq_getElem hklt⟩
    have hzj : z.joined ≠ 0 := by
      have h1 := @List.findIdx_getElem _ (fun z : zk_node => decide (z.joined ≠ 0)) (view s)
        (by rw [hkdef]; exact hklt)
      have h2 : (view s)[k] = z := by
        have := List.getElem?_eq_getElem hklt
        rw [hz] at this
        exact (Option.some.inj this).symm
      simp only [hkdef] at h1
      rw [h2] at h1
      simpa using h1
    have hbefore : ∀ j x, 0 ≤ j → j < k → s.zk_nodes[j]? = some x → x.joined = 0 := by
      intro j x _ hjk hx
      have hjl : j < (view s).length := by omega
      rw [hget j (by omega), List.getElem?_eq_getElem hjl] at hx
      have h1 := @List.not_of_lt_findIdx _ (fun z : zk_node => decide (z.joined ≠ 0)) (view s) j
        (by rw [hkdef]; exact hjk)
      rw [Option.some.inj hx] at h1
      simpa using h1
    have hscan : first_joined s.zk_nodes SD_MAX_NODES 0 = k :=
      first_joined_at s.zk_nodes z k (by rw [hget k (by omega)]; exact hz) hzj SD_MAX_NODES 0
        (Nat.zero_le _) (by omega) hbefore
    have hfind : (view s).find? (fun z => decide (z.joined ≠ 0)) = some z := by
      rw [← hz, ← hkdef]
      exact find_getElem_findIdx _ _
    unfold is_master
    rw [if_neg hnr]
    simp only [hscan]
    rw [hget k (by omega), hz]
    simp only []
    have hm : master_by_view s n = decide (z.node = n.node) := by
      unfold master_by_view
      cases hvs : view s with
      | nil => exact absurd hvs hv
      | cons a t =>
        rw [hvs] at hfind
        simp only [hfind]
    rw [hm]
    by_cases heq : z.node = n.node
    · rw [if_pos ((node_cmp_eq_zero _ _).2 heq)]
      simp [heq]
    · rw [if_neg (fun h => heq ((node_cmp_eq_zero _ _).1 h))]
      simp [heq]

theorem queue_get_mem (s : State) (pos : Int) (d : zk_event)
    (h : queue_get s pos = some d) : d ∈ s.queue := by
  unfold queue_get at h
  split at h
  · exact List.mem_iff_getElem?.2 ⟨_, h⟩
  · cases h

theorem view_joined_congr (s s1 : State) (h : view_joined s)
    (h1 : s1.zk_nodes = s.zk_nodes) (h2 : s1.nr_zk_nodes = s.nr_zk_nodes) :
    view_joined s1 := by
  unfold view_joined view at h ⊢
  rw [h1, h2]
  exact h

theorem zk_queue_push_back_joined (ev : Option zk_event) (s s2 : State)
    (hev : ∀ e, ev = some e → e.type = EVENT_JOIN → e.blocked = 0 → e.sender.joined ≠ 0)
    (hs : (zk_queue_push_back ev s).state? = some s2) :
    s2.zk_nodes = s.zk_nodes ∧ s2.nr_zk_nodes = s.nr_zk_nodes ∧
      s2.this_node = s.this_node ∧ s2.nr_zk_levents = s.nr_zk_levents ∧
      (log_joined s → log_joined s2) := by
  unfold zk_queue_push_back at hs
  simp only [] at hs
  split at hs
  · injection hs with hs
    subst hs
    exact ⟨rfl, rfl, rfl, rfl, fun h => h⟩
  · rename_i e
    split at hs
    · injection hs with hs
      subst hs
      exact ⟨rfl, rfl, rfl, rfl, fun h => h⟩
    · injection hs with hs
      subst hs
      refine ⟨rfl, rfl, rfl, rfl, ?_⟩
      intro h x hx h1 h2
      rcases List.mem_or_eq_of_mem_set hx with hm | hm
      · exact h x hm h1 h2
      · rw [hm] at h1 h2 ⊢
        exact hev e rfl h1 h2

/-- What `zk_queue_pop` returns, whatever the state: a slot of the leave ring,
nothing, or the log entry at the cursor; the view and the log are as before. -/
theorem zk_queue_pop_cases (SD_MAX_NODES : Nat) (ev : zk_event) (s : State) :
    zk_queue_pop SD_MAX_NODES ev s = Res.undefined ∨
    (∃ (lev : zk_event) (s1 : State), s.nr_zk_levents ≠ 0 ∧ SD_MAX_NODES ≠ 0 ∧
      s.zk_levents[s.zk_levent_head % SD_MAX_NODES]? = some lev ∧
      zk_queue_pop SD_MAX_NODES ev s = Res.ret (0, lev) s1 ∧
      s1.zk_nodes = s.zk_nodes ∧ s1.nr_zk_nodes = s.nr_zk_nodes ∧ s1.queue = s.queue ∧
      s1.this_node = s.this_node) ∨
    (s.nr_zk_levents = 0 ∧ zk_queue_pop SD_MAX_NODES ev s = Res.ret (-1, ev) s) ∨
    (∃ (d : zk_event) (s1 : State), s.nr_zk_levents = 0 ∧
      queue_get s s.queue_pos = some d ∧
      zk_queue_pop SD_MAX_NODES ev s =
        Res.ret (if d.type = EVENT_LEAVE then -1 else 0, zk_get_event d ev) s1 ∧
      s1.zk_nodes = s.zk_nodes ∧ s1.nr_zk_nodes = s.nr_zk_nodes ∧ s1.queue = s.queue ∧
      s1.this_node = s.this_node ∧ s1.nr_zk_levents = 0 ∧
      s1.queue_pos = s.queue_pos + 1) := by
  by_cases hr : s.nr_zk_levents = 0
  · cases hq : queue_get s s.queue_pos with
    | none => exact Or.inr (Or.inr (Or.inl ⟨hr, zk_queue_pop_empty _ _ _ hr hq⟩))
    | some d =>
      refine Or.inr (Or.inr (Or.inr ?_))
      have hrun := zk_queue_pop_log SD_MAX_NODES ev d s hr hq
      have hres : ∀ t : State,
          (if (zk_get_event d ev).type = EVENT_LEAVE then Res.ret (-1, zk_get_event d ev) t
            else Res.ret (0, zk_get_event d ev) t) =
          Res.ret (if d.type = EVENT_LEAVE then -1 else 0, zk_get_event d ev) t := by
        intro t
        have : (zk_get_event d ev).type = d.type := rfl
        rw [this]
        split <;> rfl
      unfold pop_log at hrun
      simp only [hres] at hrun
      refine ⟨d, _, hr, rfl, hrun, ?_⟩
      split
      · exact ⟨rfl, rfl, rfl, rfl, hr, rfl⟩
      · split
        · exact ⟨rfl, rfl, rfl, rfl, hr, rfl⟩
        · exact ⟨rfl, rfl, rfl, rfl, hr, rfl⟩
  · by_cases hM : SD_MAX_NODES = 0
    · left
      unfold zk_queue_pop
      rw [if_pos hr, if_pos hM]
    · cases hh : s.zk_levents[s.zk_levent_head % SD_MAX_NODES]? with
      | none =>
        left
        unfold zk_queue_pop
        rw [if_pos hr, if_neg hM, hh]
      | some lev =>
        obtain ⟨k1, k2, -, k4, -⟩ :=
          pop_leave_keeps ev lev { s with nr_zk_levents := s.nr_zk_levents - 1 }
        obtain ⟨-, -, -, -, -, -, -, -, -, -, k11, -⟩ :=
          pop_leave_keeps ev lev { s with nr_zk_levents := s.nr_zk_levents - 1 }
        exact Or.inr (Or.inl ⟨lev, _, hr, hM, rfl, zk_queue_pop_leave _ _ _ _ hr hM hh,
          k1, k2, k4, k11⟩)

theorem dispatch_join_append_joined (ev : zk_event) (s s2 : State)
    (hv : view_joined s) (hj : ev.sender.joined ≠ 0)
    (hs : (dispatch_join_append ev s).state? = some s2) :
    view_joined s2 ∧ s2.queue = s.queue := by
  by_cases hroom : s.nr_zk_nodes < s.zk_nodes.length
  · rw [dispatch_join_append_ok _ _ hroom] at hs
    injection hs with hs
    subst hs
    refine ⟨⟨?_, ?_⟩, rfl⟩
    · show s.nr_zk_nodes + 1 ≤ (s.zk_nodes.set s.nr_zk_nodes ev.sender).length
      rw [List.length_set]
      omega
    · intro z hz
      have hview : view { s with
          zk_nodes := s.zk_nodes.set s.nr_zk_nodes ev.sender,
          nr_zk_nodes := s.nr_zk_nodes + 1,
          trace := s.trace ++
            [Action.join_handler ev.sender.node ((view s ++ [ev.sender]).map fun z => z.node)
              (s.nr_zk_nodes + 1) ev.join_result ev.buf] } = view s ++ [ev.sender] :=
        take_set_succ _ _ _ hroom
      rw [hview] at hz
      rcases List.mem_append.1 hz with h | h
      · exact hv.2 z h
      · rw [List.mem_singleton.1 h]
        exact hj
  · rw [dispatch_join_append_full _ _ (by omega)] at hs
    cases hs

theorem dispatch_leave_joined (ev : zk_event) (s s2 : State) (hv : view_joined s)
    (hs : (dispatch_leave ev s).state? = some s2) :
    view_joined s2 ∧ s2.queue = s.queue := by
  by_cases hex : ∃ x ∈ view s, x.node = ev.sender.node
  · obtain ⟨x, hx, hxn⟩ := hex
    obtain ⟨a, l1, l2, h1, ha, hsplit, -⟩ :=
      @List.exists_of_eraseP _ (fun x : zk_node => decide (x.node = ev.sender.node)) _ _ hx
        (by simpa using hxn)
    obtain ⟨s1, r1, r2, r3, -, r5, -⟩ := dispatch_leave_present ev s l1 l2 a hv.1 hsplit
      (by simpa using h1) (by simpa using ha)
    rw [r1] at hs
    injection hs with hs
    subst hs
    refine ⟨⟨?_, ?_⟩, r5⟩
    · have hl : (view s1).length = l1.length + l2.length := by rw [r2]; simp
      unfold view at hl
      rw [List.length_take] at hl
      omega
    · intro z hz
      rw [r2] at hz
      apply hv.2 z
      rw [hsplit]
      rcases List.mem_append.1 hz with h | h
      · exact List.mem_append_left _ h
      · exact List.mem_append_right _ (List.mem_cons_of_mem _ h)
  · have hno : ∀ x ∈ view s, x.node ≠ ev.sender.node := fun x hx hn => hex ⟨x, hx, hn⟩
    rw [dispatch_leave_absent ev s hv.1 hno] at hs
    injection hs with hs
    subst hs
    exact ⟨hv, rfl⟩

theorem bind_state_mid {α β : Type} (r : Res α) (f : α → State → Res β) (s2 : State)
    (h : (r.bind f).state? = some s2) :
    ∃ s3, r.state? = some s3 ∧
      (s3 = s2 ∨ ∃ a, r = Res.ret a s3 ∧ (f a s3).state? = some s2) := by
  cases r with
  | ret a s1 => exact ⟨s1, rfl, Or.inr ⟨a, rfl, h⟩⟩
  | exit s1 => exact ⟨s1, rfl, Or.inl (Option.some.inj h)⟩
  | panic s1 => exact ⟨s1, rfl, Or.inl (Option.some.inj h)⟩
  | undefined => cases h

theorem zk_queue_push_back_entry (e : zk_event) (s s3 : State) (a : Int)
    (h : zk_queue_push_back (some e) s = Res.ret a s3) :
    queue_get s3 s3.queue_pos = some (event_data e) := by
  cases hq : queue_get s (s.queue_pos - 1) with
  | none =>
    have hp : zk_queue_push_back (some e) s = Res.panic { s with queue_pos := s.queue_pos - 1 } := by
      unfold zk_queue_push_back
      have h0 : queue_get { s with queue_pos := s.queue_pos - 1 } (s.queue_pos - 1) = none := hq
      simp only [h0]
    rw [hp] at h
    cases h
  | some d =>
    rw [zk_queue_push_back_some e d s hq] at h
    injection h with _ h
    subst h
    exact queue_get_set_self s _ _ d _ hq rfl

theorem dispatch_join_blocked_joined (SD_MAX_NODES : Nat)
    (check_join : sd_node → List Nat → cluster_join_result) (ev : zk_event) (s s2 : State)
    (hs : (dispatch_join_blocked SD_MAX_NODES check_join ev s).state? = some s2) :
    s2.zk_nodes = s.zk_nodes ∧ s2.nr_zk_nodes = s.nr_zk_nodes ∧
      (log_joined s → log_joined s2) := by
  unfold dispatch_join_blocked at hs
  split at hs
  · cases hs
  · split at hs
    · simp only [] at hs
      split at hs
      · injection hs with hs
        subst hs
        exact ⟨rfl, rfl, fun h => h⟩
      · obtain ⟨s3, h3, h4⟩ := bind_state_mid _ _ _ hs
        obtain ⟨k1, k2, -, -, k5⟩ := zk_queue_push_back_joined _ _ _
          (fun e he _ _ => by
            injection he with he
            rw [← he]
            exact Int.one_ne_zero) h3
        have hs3 : s3 = s2 := by
          rcases h4 with h4 | ⟨a, -, h4⟩
          · exact h4
          · split at h4 <;> (injection h4 with h4)
        subst hs3
        exact ⟨k1, k2, k5⟩
    · rw [zk_queue_push_back_none] at hs
      injection hs with hs
      subst hs
      exact ⟨rfl, rfl, fun h => h⟩

theorem dispatch_notify_joined (ev : zk_event) (s s2 : State) (ht : ev.type = EVENT_NOTIFY)
    (hs : (dispatch_notify ev s).state? = some s2) :
    s2.zk_nodes = s.zk_nodes ∧ s2.nr_zk_nodes = s.nr_zk_nodes ∧
      (log_joined s → log_joined s2) := by
  unfold dispatch_notify at hs
  split at hs
  · split at hs
    · simp only [] at hs
      have hev : ∀ e, some ({ ev with callbacked := 1 } : zk_event) = some e →
          e.type = EVENT_JOIN → e.blocked = 0 → e.sender.joined ≠ 0 := by
        intro e he h1 _
        injection he with he
        rw [← he] at h1
        have h2 : ev.type = EVENT_JOIN := h1
        rw [ht] at h2
        cases h2
      obtain ⟨s3, h3, h4⟩ := bind_state_mid _ _ _ hs
      obtain ⟨k1, k2, -, -, k5⟩ := zk_queue_push_back_joined _ _ _ hev h3
      rcases h4 with h4 | ⟨a, -, h4⟩
      · subst h4
        exact ⟨k1, k2, k5⟩
      · injection h4 with h4
        subst h4
        exact ⟨k1, k2, k5⟩
    · rw [zk_queue_push_back_none] at hs
      injection hs with hs
      subst hs
      exact ⟨rfl, rfl, fun h => h⟩
  · injection hs with hs
    subst hs
    exact ⟨rfl, rfl, fun h => h⟩

theorem dispatch_join_unblocked_joined (SD_MAX_NODES : Nat) (ev : zk_event) (s s2 : State)
    (hv : view_joined s) (hl : log_joined s) (hring : s.nr_zk_levents = 0)
    (hj : ev.sender.joined ≠ 0)
    (hs : (dispatch_join_unblocked SD_MAX_NODES ev s).state? = some s2) :
    view_joined s2 ∧ log_joined s2 := by
  unfold dispatch_join_unblocked at hs
  split at hs
  · have harr : array_set s.zk_nodes 0 { s.this_node with joined := 1 } =
        if 0 < s.zk_nodes.length then some (s.zk_nodes.set 0 { s.this_node with joined := 1 })
        else none := rfl
    rw [harr] at hs
    by_cases hlen : 0 < s.zk_nodes.length
    swap
    · rw [if_neg hlen] at hs
      cases hs
    rw [if_pos hlen] at hs
    simp only [] at hs
    have hv1 : view_joined
        { s with nr_zk_nodes := 1,
                 zk_nodes := s.zk_nodes.set 0 { s.this_node with joined := 1 } } := by
      refine ⟨?_, ?_⟩
      · show 1 ≤ (s.zk_nodes.set 0 _).length
        rw [List.length_set]
        omega
      · intro z hz
        have hview : List.take 1 (s.zk_nodes.set 0 { s.this_node with joined := 1 }) =
            [{ s.this_node with joined := 1 }] := by
          rcases hz0 : s.zk_nodes with _ | ⟨a, rest⟩
          · rw [hz0] at hlen; simp at hlen
          · rfl
        have hz1 : z ∈ List.take 1 (s.zk_nodes.set 0 { s.this_node with joined := 1 }) := hz
        rw [hview] at hz1
        rw [List.mem_singleton.1 hz1]
        exact Int.one_ne_zero
    have hev : ∀ e, some ev = some e →
        e.type = EVENT_JOIN → e.blocked = 0 → e.sender.joined ≠ 0 := by
      intro e he _ _
      injection he with he
      rw [← he]
      exact hj
    obtain ⟨s3, h3, h4⟩ := bind_state_mid _ _ _ hs
    obtain ⟨k1, k2, -, k4, k5⟩ := zk_queue_push_back_joined _ _ _ hev h3
    have hv3 : view_joined s3 := view_joined_congr _ _ hv1 k1 k2
    have hl3 : log_joined s3 := k5 hl
    have hr3 : s3.nr_zk_levents = 0 := k4.trans hring
    rcases h4 with h4 | ⟨a, h1, h2⟩
    · subst h4
      exact ⟨hv3, hl3⟩
    · obtain ⟨s5, h5, h6⟩ := bind_state_mid _ _ _ h2
      rcases zk_queue_pop_cases SD_MAX_NODES ev s3 with
        g | ⟨lev, s4, g0, -⟩ | ⟨-, g⟩ | ⟨d, s4, -, g1, g, g2, g3, g4, -⟩
      · rw [g] at h5
        cases h5
      · exact absurd hr3 g0
      · rw [g] at h5 h6
        rcases h6 with h6 | ⟨b, h6, h7⟩
        · injection h5 with h5
          subst h5
          subst h6
          exact ⟨hv3, hl3⟩
        · injection h6 with hb hs5
          subst hs5
          subst hb
          obtain ⟨r1, r2⟩ := dispatch_join_append_joined _ _ _ hv3 hj h7
          exact ⟨r1, fun e he => hl3 e (by rw [← r2]; exact he)⟩
      · rw [g] at h5 h6
        injection h5 with h5
        subst h5
        have hv4 : view_joined s4 := view_joined_congr _ _ hv3 g2 g3
        have hl4 : log_joined s4 := fun e he => hl3 e (by rw [← g4]; exact he)
        rcases h6 with h6 | ⟨b, h6, h7⟩
        · subst h6
          exact ⟨hv4, hl4⟩
        · injection h6 with hb hs5
          subst hb
          -- the entry read again is the one just written
          have hsame : d.sender = ev.sender := by
            have := zk_queue_push_back_entry _ _ _ _ h1
            rw [g1] at this
            rw [Option.some.inj this]
            rfl
          have hj4 : (zk_get_event d ev).sender.joined ≠ 0 := by
            show d.sender.joined ≠ 0
            rw [hsame]
            exact hj
          obtain ⟨r1, r2⟩ := dispatch_join_append_joined _ _ _ hv4 hj4 h7
          exact ⟨r1, fun e he => hl4 e (by rw [← r2]; exact he)⟩
  · obtain ⟨r1, r2⟩ := dispatch_join_append_joined _ _ _ hv hj hs
    exact ⟨r1, fun e he => hl e (by rw [← r2]; exact he)⟩

/-- One tick keeps the two facts: the records of the view are joined, and the
unblocked Joins of the log carry joined senders.  The slot at the head of a
non-empty leave ring holds a Leave, as `add_event` only stores Leaves there. -/
theorem zk_dispatch_joined (SD_MAX_NODES : Nat)
    (check_join : sd_node → List Nat → cluster_join_result) (stack : zk_event) (s s2 : State)
    (hv : view_joined s) (hl : log_joined s)
    (hhead : ∀ lev, s.nr_zk_levents ≠ 0 →
      s.zk_levents[s.zk_levent_head % SD_MAX_NODES]? = some lev → lev.type = EVENT_LEAVE)
    (hs : (zk_dispatch SD_MAX_NODES check_join stack s).state? = some s2) :
    view_joined s2 ∧ log_joined s2 := by
  unfold zk_dispatch at hs
  split at hs
  · injection hs with hs
    subst hs
    exact ⟨hv, hl⟩
  · simp only [] at hs
    split at hs
    · injection hs with hs
      subst hs
      exact ⟨hv, hl⟩
    · have hv0 : view_joined { s with efd := 0 } := hv
      have hl0 : log_joined { s with efd := 0 } := hl
      obtain ⟨s5, h5, h6⟩ := bind_state_mid _ _ _ hs
      rcases zk_queue_pop_cases SD_MAX_NODES stack { s with efd := 0 } with
        g | ⟨lev, s4, g0, -, gh, g, g2, g3, g4, -⟩ | ⟨-, g⟩ |
        ⟨d, s4, gr, g1, g, g2, g3, g4, -, gr4, -⟩
      · rw [g] at h5
        cases h5
      · rw [g] at h5 h6
        injection h5 with h5
        subst h5
        have hv4 : view_joined s4 := view_joined_congr _ _ hv0 g2 g3
        have hl4 : log_joined s4 := fun e he => hl e (by rw [← g4]; exact he)
        rcases h6 with h6 | ⟨b, h6, h7⟩
        · subst h6
          exact ⟨hv4, hl4⟩
        · injection h6 with hb hs5
          subst hb
          rw [if_neg (Int.lt_irrefl 0)] at h7
          have ht : lev.type = EVENT_LEAVE := hhead lev g0 gh
          unfold dispatch_event at h7
          simp only [ht] at h7
          obtain ⟨r1, r2⟩ := dispatch_leave_joined _ _ _ hv4 h7
          exact ⟨r1, fun e he => hl4 e (by rw [← r2]; exact he)⟩
      · rw [g] at h5 h6
        injection h5 with h5
        subst h5
        rcases h6 with h6 | ⟨b, h6, h7⟩
        · subst h6
          exact ⟨hv0, hl0⟩
        · injection h6 with hb hs5
          subst hb
          rw [if_pos (show (-1 : Int) < 0 by decide)] at h7
          injection h7 with h7
          subst h7
          exact ⟨hv0, hl0⟩
      · rw [g] at h5 h6
        injection h5 with h5
        subst h5
        have hv4 : view_joined s4 := view_joined_congr _ _ hv0 g2 g3
        have hl4 : log_joined s4 := fun e he => hl e (by rw [← g4]; exact he)
        rcases h6 with h6 | ⟨b, h6, h7⟩
        · subst h6
          exact ⟨hv4, hl4⟩
        · injection h6 with hb hs5
          subst hb
          by_cases hleave : d.type = EVENT_LEAVE
          · simp only [if_pos hleave] at h7
            rw [if_pos (show (-1 : Int) < 0 by decide)] at h7
            injection h7 with h7
            subst h7
            exact ⟨hv4, hl4⟩
          · simp only [if_neg hleave] at h7
            rw [if_neg (Int.lt_irrefl 0)] at h7
            have hty : (zk_get_event d stack).type = d.type := rfl
            unfold dispatch_event at h7
            cases hdt : d.type with
            | EVENT_LEAVE => exact absurd hdt hleave
            | EVENT_JOIN =>
              rw [hty, hdt] at h7
              simp only [] at h7
              split at h7
              · obtain ⟨k1, k2, k3⟩ := dispatch_join_blocked_joined _ _ _ _ _ h7
                exact ⟨view_joined_congr _ _ hv4 k1 k2, k3 hl4⟩
              · rename_i hb
                have hb0 : d.blocked = 0 := by
                  have : ¬ d.blocked ≠ 0 := hb
                  simpa using this
                have hj : (zk_get_event d stack).sender.joined ≠ 0 :=
                  hl d (queue_get_mem _ _ _ g1) hdt hb0
                exact dispatch_join_unblocked_joined _ _ _ _ hv4 hl4 gr4 hj h7
            | EVENT_NOTIFY =>
              rw [hty, hdt] at h7
              simp only [] at h7
              obtain ⟨k1, k2, k3⟩ := dispatch_notify_joined _ _ _ (hty.trans hdt) h7
              exact ⟨view_joined_congr _ _ hv4 k1 k2, k3 hl4⟩
            | EVENT_IGNORE =>
              rw [hty, hdt] at h7
              simp only [] at h7
              injection h7 with h7
              subst h7
              exact ⟨hv4, hl4⟩

/-- After bootstrap every record of the view is joined. -/
theorem zk_data_init_joined (SD_MAX_NODES : Nat) (s : State)
    (hfin : s.finished = 0) (hnr : s.nr_zk_nodes = 0)
    (hslots : s.zk_nodes.length = SD_MAX_NODES) (hcap : s.member.length ≤ SD_MAX_NODES)
    (hnames : (s.member.map fun p => p.1).Nodup) :
    ∃ s1 : State, zk_data_init SD_MAX_NODES s = Res.ret () s1 ∧ view_joined s1 ∧
      s1.queue = s.queue := by
  obtain ⟨nodes, k, h1, hk, hlen⟩ :=
    zk_data_init_state SD_MAX_NODES s hfin hnr hslots hcap hnames
  obtain ⟨s1, g1, g2, -, -, g5, -⟩ :=
    zk_data_init_sorted SD_MAX_NODES s hfin hnr hslots hcap hnames
  refine ⟨s1, g1, ⟨?_, ?_⟩, g5⟩
  · rw [h1] at g1
    injection g1 with _ g1
    rw [← g1]
    show k ≤ nodes.length
    omega
  · intro z hz
    have := (g2.mem_iff).1 hz
    obtain ⟨p, hp, hpz⟩ := List.mem_map.1 this
    rw [← hpz]
    simpa using (List.mem_filter.1 hp).2

theorem zk_queue_push_joined (ev : zk_event) (s s2 : State)
    (hev : ev.type = EVENT_JOIN → ev.blocked ≠ 0)
    (hs : (zk_queue_push ev s).state? = some s2) :
    s2.zk_nodes = s.zk_nodes ∧ s2.nr_zk_nodes = s.nr_zk_nodes ∧
      (log_joined s → log_joined s2) := by
  have hlog : ∀ t : State, t.queue = s.queue ++ [event_data ev] →
      log_joined s → log_joined t := by
    intro t ht h x hx h1 h2
    rw [ht] at hx
    rcases List.mem_append.1 hx with hm | hm
    · exact h x hm h1 h2
    · rw [List.mem_singleton.1 hm] at h1 h2
      exact absurd h2 (hev h1)
  unfold zk_queue_push at hs
  simp only [] at hs
  split at hs
  · split at hs
    · injection hs with hs
      subst hs
      exact ⟨rfl, rfl, hlog _ rfl⟩
    · injection hs with hs
      subst hs
      exact ⟨rfl, rfl, hlog _ rfl⟩
  · injection hs with hs
    subst hs
    exact ⟨rfl, rfl, hlog _ rfl⟩

theorem add_event_push_joined (ev : zk_event) (s s2 : State)
    (hev : ev.type = EVENT_JOIN → ev.blocked ≠ 0)
    (hs : (add_event_push ev s).state? = some s2) :
    s2.zk_nodes = s.zk_nodes ∧ s2.nr_zk_nodes = s.nr_zk_nodes ∧
      (log_joined s → log_joined s2) := by
  unfold add_event_push at hs
  split at hs
  · cases hs
  · obtain ⟨s3, h3, h4⟩ := bind_state_mid _ _ _ hs
    have k := zk_queue_push_joined _ _ _ hev h3
    rcases h4 with h4 | ⟨a, -, h4⟩
    · subst h4
      exact k
    · injection h4 with h4
      subst h4
      exact k

/-- The event assembler stores nothing in the view, and what it appends to the
log is a blocked Join or no Join at all. -/
theorem add_event_joined (SD_MAX_NODES : Nat) (stack : zk_event) (type : zk_event_type)
    (znode : zk_node) (buf : Option (List Nat)) (len : Nat) (cb : Option Nat) (s s2 : State)
    (hs : (add_event SD_MAX_NODES stack type znode buf len cb s).state? = some s2) :
    s2.zk_nodes = s.zk_nodes ∧ s2.nr_zk_nodes = s.nr_zk_nodes ∧
      (log_joined s → log_joined s2) := by
  unfold add_event at hs
  simp only [] at hs
  split at hs
  · cases hs
  · rename_i ev hev
    have hty : ev.type = type := by
      split at hev
      · injection hev with hev
        rw [← hev]
      · split at hev
        · cases hev
        · injection hev with hev
          rw [← hev]
    cases type with
    | EVENT_JOIN =>
      exact add_event_push_joined _ _ _ (fun _ => Int.one_ne_zero) hs
    | EVENT_LEAVE =>
      simp only [] at hs
      split at hs
      · cases hs
      · split at hs
        · injection hs with hs
          subst hs
          exact ⟨rfl, rfl, fun h => h⟩
        · cases hs
    | EVENT_NOTIFY =>
      refine add_event_push_joined _ _ _ (fun h => ?_) hs
      have h2 : ev.type = EVENT_JOIN := h
      rw [hty] at h2
      cases h2
    | EVENT_IGNORE =>
      refine add_event_push_joined _ _ _ (fun h => ?_) hs
      rw [hty] at h
      cases h

/-- A run of the worker keeps the two facts as well, when the log entry at the
cursor is not a Join: with work queued the cursor is at the Notify that queued
it. -/
theorem worker_run_joined (SD_MAX_NODES : Nat) (stack : zk_event) (s s2 : State)
    (hv : view_joined s) (hl : log_joined s)
    (hhead : ∀ lev, s.nr_zk_levents ≠ 0 →
      s.zk_levents[s.zk_levent_head % SD_MAX_NODES]? = some lev → lev.type = EVENT_LEAVE)
    (hcur : ∀ d, queue_get s s.queue_pos = some d → d.type ≠ EVENT_JOIN)
    (hs : (worker_run SD_MAX_NODES stack s).state? = some s2) :
    view_joined s2 ∧ log_joined s2 := by
  unfold worker_run at hs
  split at hs
  · injection hs with hs
    subst hs
    exact ⟨hv, hl⟩
  · have hv0 : view_joined { s with work_queued := s.work_queued - 1 } := hv
    have hl0 : log_joined { s with work_queued := s.work_queued - 1 } := hl
    have hrest : ∀ (ev : zk_event) (s4 : State), ev.type ≠ EVENT_JOIN →
        view_joined s4 → log_joined s4 →
        (match ev.block_cb with
          | none => (Res.undefined : Res Unit)
          | some cb =>
            (zk_queue_push_back (some { ev with blocked := 0 })
                (record (Action.block_cb cb ev.buf) s4)).bind fun _ s3 =>
              Res.ret () (eventfd_write
                { s3 with zk_notify_blocked := s3.zk_notify_blocked - 1 })).state? = some s2 →
        view_joined s2 ∧ log_joined s2 := by
      intro ev s4 hty hv4 hl4 h
      split at h
      · cases h
      · obtain ⟨s3, h3, h4⟩ := bind_state_mid _ _ _ h
        obtain ⟨k1, k2, -, -, k5⟩ := zk_queue_push_back_joined _ _ _
          (fun e he h1 _ => by
            injection he with he
            rw [← he] at h1
            exact absurd h1 hty) h3
        have hv3 : view_joined s3 := view_joined_congr _ _ hv4 k1 k2
        have hl3 : log_joined s3 := k5 hl4
        rcases h4 with h4 | ⟨a, -, h4⟩
        · subst h4
          exact ⟨hv3, hl3⟩
        · injection h4 with h4
          subst h4
          exact ⟨hv3, hl3⟩
    unfold zk_block at hs
    obtain ⟨s5, h5, h6⟩ := bind_state_mid _ _ _ hs
    rcases zk_queue_pop_cases SD_MAX_NODES stack { s with work_queued := s.work_queued - 1 } with
      g | ⟨lev, s4, g0, -, gh, g, g2, g3, g4, -⟩ | ⟨-, g⟩ |
      ⟨d, s4, -, g1, g, g2, g3, g4, -⟩
    · rw [g] at h5
      cases h5
    · rw [g] at h5 h6
      injection h5 with h5
      subst h5
      have hv4 : view_joined s4 := view_joined_congr _ _ hv0 g2 g3
      have hl4 : log_joined s4 := fun e he => hl e (by rw [← g4]; exact he)
      rcases h6 with h6 | ⟨b, h6, h7⟩
      · subst h6
        exact ⟨hv4, hl4⟩
      · injection h6 with hb hs5
        subst hb
        rw [if_neg (fun h => h rfl)] at h7
        have ht : lev.type = EVENT_LEAVE := hhead lev g0 gh
        exact hrest lev s4 (by rw [ht]; decide) hv4 hl4 h7
    · rw [g] at h5 h6
      injection h5 with h5
      subst h5
      rcases h6 with h6 | ⟨b, h6, h7⟩
      · subst h6
        exact ⟨hv0, hl0⟩
      · injection h6 with hb hs5
        subst hb
        rw [if_pos (show (-1 : Int) ≠ 0 by decide)] at h7
        injection h7 with h7
        subst h7
        exact ⟨hv0, hl0⟩
    · rw [g] at h5 h6
      injection h5 with h5
      subst h5
      have hv4 : view_joined s4 := view_joined_congr _ _ hv0 g2 g3
      have hl4 : log_joined s4 := fun e he => hl e (by rw [← g4]; exact he)
      rcases h6 with h6 | ⟨b, h6, h7⟩
      · subst h6
        exact ⟨hv4, hl4⟩
      · injection h6 with hb hs5
        subst hb
        by_cases hleave : d.type = EVENT_LEAVE
        · simp only [if_pos hleave] at h7
          rw [if_pos (show (-1 : Int) ≠ 0 by decide)] at h7
          injection h7 with h7
          subst h7
          exact ⟨hv4, hl4⟩
        · simp only [if_neg hleave] at h7
          rw [if_neg (fun h => h rfl)] at h7
          exact hrest (zk_get_event d stack) s4 (hcur d g1) hv4 hl4 h7

/-- The master test of the specification, spelled out: the view is empty, or
its first joined member has the identity of `n`. -/
theorem master_by_view_iff (s : State) (n : zk_node) :
    master_by_view s n = true ↔
      (view s = [] ∨
        ∃ z, (view s).find? (fun z => decide (z.joined ≠ 0)) = some z ∧ z.node = n.node) := by
  unfold master_by_view
  cases hv : view s with
  | nil => simp
  | cons a t =>
    simp only []
    cases hf : (a :: t).find? (fun z => decide (z.joined ≠ 0)) with
    | none => simp
    | some z => simp

/-- A view whose records are all joined is empty or has a joined member. -/
theorem view_joined_some (s : State) (h : view_joined s) :
    view s = [] ∨ ∃ z ∈ view s, z.joined ≠ 0 := by
  cases hv : view s with
  | nil => exact Or.inl rfl
  | cons a t =>
    exact Or.inr ⟨a, List.mem_cons_self _ _, h.2 a (by rw [hv]; exact List.mem_cons_self _ _)⟩

/-- C1: let the view lie inside the array `zk_nodes` and inside its first
`SD_MAX_NODES` slots, and let it be empty or have a member whose `joined` flag
is set, as it is in every state that bootstrap and the dispatcher build (they
store joined records only: `zk_data_init_joined`, `zk_dispatch_joined`).  Then
`is_master n` returns a value `r`; `r` is non-negative exactly when the view is
empty or the first member of the view with `joined` set has the node identity
of `n`, and then it is the index of that member; in every other case `r` is -1.
The value is the same in every state with the same view: no slot at or beyond
`nr_zk_nodes` enters the decision. -/
theorem C1_is_master_by_view (SD_MAX_NODES : Nat) (s : State) (n : zk_node)
    (hcap : s.nr_zk_nodes ≤ s.zk_nodes.length) (hmax : s.nr_zk_nodes ≤ SD_MAX_NODES)
    (hjoined : view s = [] ∨ ∃ z ∈ view s, z.joined ≠ 0) :
    ∃ r : Int, is_master SD_MAX_NODES s n = some r ∧
      (0 ≤ r ↔ (view s = [] ∨
        ∃ z, (view s).find? (fun z => decide (z.joined ≠ 0)) = some z ∧ z.node = n.node)) ∧
      (0 ≤ r → r = (((view s).findIdx fun z => decide (z.joined ≠ 0) : Nat) : Int)) ∧
      (¬ 0 ≤ r → r = -1) ∧
      ∀ s2 : State, view s2 = view s → s2.nr_zk_nodes ≤ s2.zk_nodes.length →
        is_master SD_MAX_NODES s2 n = some r := by
  have hrun := is_master_closed SD_MAX_NODES s n hcap hmax hjoined
  refine ⟨_, hrun, ?_, ?_, ?_, ?_⟩
  · rw [← master_by_view_iff]
    by_cases hm : master_by_view s n = true
    · rw [if_pos hm]
      exact ⟨fun _ => hm, fun _ => Int.ofNat_nonneg _⟩
    · rw [if_neg hm]
      exact ⟨fun h => absurd h (by decide), fun h => absurd h hm⟩
  · intro h
    by_cases hm : master_by_view s n = true
    · rw [if_pos hm]
    · rw [if_neg hm] at h
      exact absurd h (by decide)
  · intro h
    by_cases hm : master_by_view s n = true
    · rw [if_pos hm] at h
      exact absurd (Int.ofNat_nonneg _) h
    · rw [if_neg hm]
  · intro s2 hview hcap2
    have hlen : ∀ t : State, t.nr_zk_nodes ≤ t.zk_nodes.length →
        (view t).length = t.nr_zk_nodes := by
      intro t ht
      unfold view
      rw [List.length_take]
      omega
    have hnr : s2.nr_zk_nodes = s.nr_zk_nodes := by
      rw [← hlen s2 hcap2, ← hlen s hcap, hview]
    have hrun2 := is_master_closed SD_MAX_NODES s2 n hcap2 (by rw [hnr]; exact hmax)
      (by rw [hview]; exact hjoined)
    have hm : master_by_view s2 n = master_by_view s n := by
      unfold master_by_view
      rw [hview]
    rw [hrun2, hm, hview]

theorem C1_is_master_by_view_witness :
    (view_three.nr_zk_nodes ≤ view_three.zk_nodes.length ∧ view_three.nr_zk_nodes ≤ 4 ∧
      view view_three = [nodeA, nodeB, nodeC] ∧ nodeA.joined ≠ 0) ∧
    (∃ r : Int, is_master 4 view_three nodeB = some r ∧
      (0 ≤ r ↔ (view view_three = [] ∨
        ∃ z, (view view_three).find? (fun z => decide (z.joined ≠ 0)) = some z ∧
          z.node = nodeB.node)) ∧
      (0 ≤ r → r = (((view view_three).findIdx fun z => decide (z.joined ≠ 0) : Nat) : Int)) ∧
      (¬ 0 ≤ r → r = -1) ∧
      ∀ s2 : State, view s2 = view view_three → s2.nr_zk_nodes ≤ s2.zk_nodes.length →
        is_master 4 s2 nodeB = some r) ∧
    is_master 4 view_three nodeB = some (-1) ∧ is_master 4 view_three nodeA = some 0 :=
  ⟨by decide,
    C1_is_master_by_view 4 view_three nodeB (by decide) (by decide)
      (Or.inr ⟨nodeA, by decide, by decide⟩),
    by decide, by decide⟩

end Sheepdog
